import Mathlib

/-! The client-side state layer of the linkedin-monitor dashboard.

A shallow embedding of the React front end of the LinkedIn mention monitor:

* `frontend/src/context/ApiContext.js`: the provider holding `status`, `config`,
  `mentions`, `logs` and `loading`, and the ten asynchronous operations on them;
* `frontend/src/components/Logs.js`: the log-level classifier;
* `frontend/src/components/Configuration.js`: the configuration form's submit handler.

JavaScript values are embedded as the inductive type `JsVal`, asynchronous functions as
resumptions (`Task`): a tree of synchronous effects whose suspension points are exactly the
HTTP calls made through axios. `try`/`catch`/`finally` are the usual operations on such trees,
so every operation below is written with the control flow of its source.
-/

namespace LinkedinMonitor

/-! ## JavaScript values -/

/-- A JavaScript value as it can arrive in a JSON response body or be built by the client.
Numbers are integers: the front end performs no fractional arithmetic. -/
inductive JsVal where
  | undefined
  | null
  | bool (b : Bool)
  | num (n : Int)
  | str (s : String)
  | arr (xs : List JsVal)
  | obj (fields : List (String × JsVal))

/-- What a JavaScript `throw` can carry here: the rejection of an axios call (timeout, no
connection, a non-2xx status) or the `TypeError` of a property read on `null`/`undefined`. -/
inductive JsErr where
  | timeout
  | networkFailure
  | httpStatus (code : Nat)
  | typeError (msg : String)
  deriving DecidableEq, Repr

namespace JsVal

mutual
/-- Decision procedure for equality of values. -/
def decEq : (a b : JsVal) → Decidable (a = b)
  | undefined, undefined => isTrue rfl
  | null, null => isTrue rfl
  | bool a, bool b =>
    if h : a = b then isTrue (by rw [h]) else isFalse (by intro e; cases e; exact h rfl)
  | num a, num b =>
    if h : a = b then isTrue (by rw [h]) else isFalse (by intro e; cases e; exact h rfl)
  | str a, str b =>
    if h : a = b then isTrue (by rw [h]) else isFalse (by intro e; cases e; exact h rfl)
  | arr a, arr b =>
    match decEqList a b with
    | isTrue h => isTrue (by rw [h])
    | isFalse h => isFalse (by intro e; cases e; exact h rfl)
  | obj a, obj b =>
    match decEqFields a b with
    | isTrue h => isTrue (by rw [h])
    | isFalse h => isFalse (by intro e; cases e; exact h rfl)
  | undefined, null | undefined, bool _ | undefined, num _ | undefined, str _
  | undefined, arr _ | undefined, obj _ => isFalse (by intro e; cases e)
  | null, undefined | null, bool _ | null, num _ | null, str _ | null, arr _
  | null, obj _ => isFalse (by intro e; cases e)
  | bool _, undefined | bool _, null | bool _, num _ | bool _, str _ | bool _, arr _
  | bool _, obj _ => isFalse (by intro e; cases e)
  | num _, undefined | num _, null | num _, bool _ | num _, str _ | num _, arr _
  | num _, obj _ => isFalse (by intro e; cases e)
  | str _, undefined | str _, null | str _, bool _ | str _, num _ | str _, arr _
  | str _, obj _ => isFalse (by intro e; cases e)
  | arr _, undefined | arr _, null | arr _, bool _ | arr _, num _ | arr _, str _
  | arr _, obj _ => isFalse (by intro e; cases e)
  | obj _, undefined | obj _, null | obj _, bool _ | obj _, num _ | obj _, str _
  | obj _, arr _ => isFalse (by intro e; cases e)
/-- Decision procedure for equality of lists of values. -/
def decEqList : (as bs : List JsVal) → Decidable (as = bs)
  | [], [] => isTrue rfl
  | [], _ :: _ => isFalse (by intro e; cases e)
  | _ :: _, [] => isFalse (by intro e; cases e)
  | a :: as, b :: bs =>
    match decEq a b, decEqList as bs with
    | isTrue h, isTrue h2 => isTrue (by rw [h, h2])
    | isFalse h, _ => isFalse (by intro e; cases e; exact h rfl)
    | _, isFalse h => isFalse (by intro e; cases e; exact h rfl)
/-- Decision procedure for equality of property lists. -/
def decEqFields : (as bs : List (String × JsVal)) → Decidable (as = bs)
  | [], [] => isTrue rfl
  | [], _ :: _ => isFalse (by intro e; cases e)
  | _ :: _, [] => isFalse (by intro e; cases e)
  | (k, a) :: as, (l, b) :: bs =>
    if hk : k = l then
      match decEq a b, decEqFields as bs with
      | isTrue h, isTrue h2 => isTrue (by rw [hk, h, h2])
      | isFalse h, _ => isFalse (by intro e; cases e; exact h rfl)
      | _, isFalse h => isFalse (by intro e; cases e; exact h rfl)
    else isFalse (by intro e; cases e; exact hk rfl)
end

instance : DecidableEq JsVal := decEq

/-- First value stored under `key` in a property list. -/
def lookup (key : String) : List (String × JsVal) → Option JsVal
  | [] => none
  | (k, v) :: rest => if k = key then some v else lookup key rest

/-- Own property names of an object, in insertion order (`Object.keys`). -/
def keys : JsVal → List String
  | obj fields => fields.map Prod.fst
  | _ => []

/-- Number of UTF-16 code units of a string (`String.prototype.length`). -/
def utf16Length (s : String) : Nat :=
  (s.data.map fun c => if c.toNat < 65536 then 1 else 2).sum

/-- Property read `v.key`: a `TypeError` on `null` and `undefined`, the stored value (or
`undefined`) on an object, `length` on arrays and strings, `undefined` otherwise. -/
def getProp (v : JsVal) (key : String) : Except JsErr JsVal :=
  match v with
  | undefined => .error (.typeError ("Cannot read properties of undefined (reading " ++ key ++ ")"))
  | null => .error (.typeError ("Cannot read properties of null (reading " ++ key ++ ")"))
  | obj fields => .ok ((lookup key fields).getD undefined)
  | arr xs => .ok (if key = "length" then num xs.length else undefined)
  | str s => .ok (if key = "length" then num (utf16Length s) else undefined)
  | _ => .ok undefined

/-- Property assignment `o.key = v` on an object: overwrite in place, or append a new key. -/
def setFields (key : String) (v : JsVal) : List (String × JsVal) → List (String × JsVal)
  | [] => [(key, v)]
  | (k, w) :: rest => if k = key then (k, v) :: rest else (k, w) :: setFields key v rest

/-- Property assignment lifted to values; only objects are assigned to in the sources. -/
def setProp (o : JsVal) (key : String) (v : JsVal) : JsVal :=
  match o with
  | obj fields => obj (setFields key v fields)
  | other => other

mutual
/-- String conversion used by template literals (the abstract operation `ToString`). Numbers
are the integers and print in full: JavaScript switches to exponent notation from 1e21 on, which
only changes the text of a URL built from such an argument. -/
def toStr : JsVal → String
  | undefined => "undefined"
  | null => "null"
  | bool b => if b then "true" else "false"
  | num n => toString n
  | str s => s
  | arr xs => joinElems xs
  | obj _ => "[object Object]"
/-- Rendering of array elements by `Array.prototype.join` with the default separator: `null` and
`undefined` elements render as the empty string. -/
def joinElems : List JsVal → String
  | [] => ""
  | x :: xs =>
    (match x with
      | undefined => ""
      | null => ""
      | v => toStr v) ++ (if xs.isEmpty then "" else ",") ++ joinElems xs
end

end JsVal

/-! ## JavaScript strings -/

/-- The test `s.includes(sub)`: some suffix of `s` starts with `sub`. -/
def includes (s sub : String) : Bool :=
  s.data.tails.any fun t => sub.data.isPrefixOf t

/-- Lower-casing of the letters `A`–`Z`; every other character is kept. On text without
non-ASCII letters this is `String.prototype.toLowerCase`. The classifier below takes the
lower-casing function as an argument, so its general theorems hold for the full Unicode
mapping as well. -/
def asciiLowerCase (s : String) : String :=
  ⟨s.data.map Char.toLower⟩

/-- The characters removed by `String.prototype.trim`: ECMAScript `WhiteSpace` (tab, vertical
tab, form feed, U+FEFF and the Unicode space separators) and `LineTerminator`. -/
def isWhiteSpace (c : Char) : Bool :=
  let n := c.toNat
  n = 9 || n = 10 || n = 11 || n = 12 || n = 13 || n = 32 || n = 160 || n = 5760
    || (8192 ≤ n && n ≤ 8202) || n = 8232 || n = 8233 || n = 8239 || n = 8287
    || n = 12288 || n = 65279

/-- The method `s.trim()`: drop white space at both ends. -/
def trim (s : String) : String :=
  ⟨((s.data.dropWhile isWhiteSpace).reverse.dropWhile isWhiteSpace).reverse⟩

/-! ## Logs.js -/

/-- The function `getLogLevel` of `Logs.js`; `toLowerCase` is the platform's
`String.prototype.toLowerCase`. -/
def getLogLevel (toLowerCase : String → String) (logLine : String) : String :=
  let line := toLowerCase logLine
  if includes line "error" then "error"
  else if includes line "warning" || includes line "warn" then "warning"
  else if includes line "info" then "info"
  else if includes line "debug" then "debug"
  else "info"

/-- The specification's keyword table, in test order: the keywords of a level and the level. -/
def levelKeywords : List (List String × String) :=
  [(["error"], "error"), (["warning", "warn"], "warning"), (["info"], "info"),
   (["debug"], "debug")]

/-- First-match classification as the specification words it: the level of the first table
row one of whose keywords is a contiguous substring of the (already lower-cased) line, and
`info` when no row matches. -/
def firstMatchLevel (lowered : String) : String :=
  match levelKeywords.find? fun row => row.1.any fun kw => decide (kw.data <:+: lowered.data) with
  | some row => row.2
  | none => "info"

/-! ## Asynchronous functions as resumptions -/

/-- HTTP verbs used by the front end. -/
inductive Method where
  | GET
  | POST
  | DELETE
  deriving DecidableEq, Repr

/-- A call made through the axios instance `api`: verb, URL (relative to the base URL) and,
for `api.post(url, data)`, the request body. -/
structure Request where
  method : Method
  url : String
  body : Option JsVal
  deriving DecidableEq

/-- The part of an axios response the code reads: `response.data`. -/
structure Response where
  data : JsVal
  deriving DecidableEq

/-- The observable steps of the provider, in the order they happen: a request handed to
axios, a call of one of the five state setters, a toast, a console message. -/
inductive Event where
  | request (r : Request)
  | setStatus (v : JsVal)
  | setConfig (v : JsVal)
  | setMentions (v : JsVal)
  | setLogs (v : JsVal)
  | setLoading (b : Bool)
  | toastSuccess (msg : String)
  | toastError (msg : String)
  | consoleError (label : String) (e : JsErr)
  deriving DecidableEq

/-- The five pieces of state declared with `useState` in `ApiProvider`. -/
structure Store where
  status : JsVal
  config : JsVal
  mentions : JsVal
  logs : JsVal
  loading : Bool
  deriving DecidableEq

/-- Two states with the same four resources; `loading` may differ. -/
def Store.sameResources (a b : Store) : Prop :=
  a.status = b.status ∧ a.config = b.config ∧ a.mentions = b.mentions ∧ a.logs = b.logs

/-- The initial values passed to `useState` in `ApiProvider`. -/
def Store.initial : Store where
  status := .obj [("is_running", .bool false), ("last_check", .null),
    ("total_mentions", .num 0), ("seen_urls_count", .num 0)]
  config := .obj [("search_terms", .arr []), ("check_interval", .num 30),
    ("max_results", .num 10), ("has_serpapi_key", .bool false),
    ("has_slack_webhook", .bool false)]
  mentions := .arr []
  logs := .arr []
  loading := false

/-- The provider state together with the chronological record of what has happened. -/
structure World where
  store : Store
  trace : List Event
  deriving DecidableEq

/-- Effect of one event on the state: a setter replaces its own piece of state, everything
else leaves the state alone. -/
def Store.apply (s : Store) : Event → Store
  | .setStatus v => { s with status := v }
  | .setConfig v => { s with config := v }
  | .setMentions v => { s with mentions := v }
  | .setLogs v => { s with logs := v }
  | .setLoading b => { s with loading := b }
  | _ => s

/-- Perform one event: update the state and record the event. -/
def World.emit (w : World) (ev : Event) : World :=
  { store := w.store.apply ev, trace := w.trace ++ [ev] }

/-- The requests issued so far, oldest first. -/
def requestsOf : List Event → List Request
  | [] => []
  | .request r :: rest => r :: requestsOf rest
  | _ :: rest => requestsOf rest

/-- The error toasts shown so far, oldest first. -/
def errorToastsOf : List Event → List String
  | [] => []
  | .toastError msg :: rest => msg :: errorToastsOf rest
  | _ :: rest => errorToastsOf rest

/-- The monitoring service as the client sees it: the answer to a request, a response or a
rejection, as a function of the requests received before it and of the request itself. Every
sequence of answers is the behaviour of some server. -/
abbrev Server : Type := List Request → Request → Except JsErr Response

/-- An `async` function body as a resumption: it returns, throws, performs a synchronous
effect and goes on, or hands a request to axios and is suspended until the response (or the
rejection) arrives. -/
inductive Task (α : Type) where
  | ret (a : α)
  | throw (e : JsErr)
  | eff (ev : Event) (next : Task α)
  | await (r : Request) (resume : Except JsErr Response → Task α)

namespace Task

/-- Sequencing: run `t`, then continue with its value. -/
def bind {α β : Type} : Task α → (α → Task β) → Task β
  | ret a, f => f a
  | throw e, _ => throw e
  | eff ev next, f => eff ev (bind next f)
  | await r resume, f => await r fun resp => bind (resume resp) f

/-- The statement `try { t } catch (error) { handler error }`. -/
def tryCatch {α : Type} : Task α → (JsErr → Task α) → Task α
  | ret a, _ => ret a
  | throw e, handler => handler e
  | eff ev next, handler => eff ev (tryCatch next handler)
  | await r resume, handler => await r fun resp => tryCatch (resume resp) handler

/-- A synchronous effect as a task. -/
def perform (ev : Event) : Task Unit :=
  eff ev (ret ())

/-- A fallible synchronous expression (a property read) as a task. -/
def ofExcept {α : Type} : Except JsErr α → Task α
  | .ok a => ret a
  | .error e => throw e

/-- Where a task stands after running synchronously as far as it can. -/
inductive Stage (α : Type) where
  | finished (out : Except JsErr α)
  | waiting (resume : Except JsErr Response → Task α)

/-- Run a task synchronously up to its next suspension point: the effects happen, and at an
`await` the request is issued and the continuation is parked. -/
def advance {α : Type} : Task α → World → Stage α × World
  | ret a, w => (.finished (.ok a), w)
  | throw e, w => (.finished (.error e), w)
  | eff ev next, w => advance next (w.emit ev)
  | await r resume, w => (.waiting resume, w.emit (.request r))

/-- Run a task to completion on its own against a server: each request is answered at
once, the effects happen in program order. -/
def run {α : Type} (server : Server) :
    Task α → World → Except JsErr α × World
  | ret a, w => (.ok a, w)
  | throw e, w => (.error e, w)
  | eff ev next, w => run server next (w.emit ev)
  | await r resume, w =>
    run server (resume (server (requestsOf w.trace) r)) (w.emit (.request r))

end Task

/-- The statement `try { t } finally { fin }` in the general form the `do` notation asks for:
the `finally` block runs on both exits, may look at the value of the body, and its own value
is returned alongside; an exception of the body is thrown again after the block. -/
def Task.tryFinallyWith {α β : Type} : Task α → (Option α → Task β) → Task (α × β)
  | .ret a, fin => Task.bind (fin (some a)) fun b => .ret (a, b)
  | .throw e, fin => Task.bind (fin none) fun _ => .throw e
  | .eff ev next, fin => .eff ev (Task.tryFinallyWith next fin)
  | .await r resume, fin => .await r fun resp => Task.tryFinallyWith (resume resp) fin

instance : Monad Task where
  pure := Task.ret
  bind := Task.bind

instance : MonadExcept JsErr Task where
  throw := Task.throw
  tryCatch := Task.tryCatch

instance : MonadFinally Task where
  tryFinally' := Task.tryFinallyWith

/-! ## ApiContext.js -/

/-- The state setter `setStatus`. -/
def setStatus (v : JsVal) : Task Unit := Task.perform (.setStatus v)

/-- The state setter `setConfig`. -/
def setConfig (v : JsVal) : Task Unit := Task.perform (.setConfig v)

/-- The state setter `setMentions`. -/
def setMentions (v : JsVal) : Task Unit := Task.perform (.setMentions v)

/-- The state setter `setLogs`. -/
def setLogs (v : JsVal) : Task Unit := Task.perform (.setLogs v)

/-- The state setter `setLoading`. -/
def setLoading (b : Bool) : Task Unit := Task.perform (.setLoading b)

/-- The call `toast.success(msg)`. -/
def toast.success (msg : String) : Task Unit := Task.perform (.toastSuccess msg)

/-- The call `toast.error(msg)`. -/
def toast.error (msg : String) : Task Unit := Task.perform (.toastError msg)

/-- The call `console.error(label, error)`. -/
def console.error (label : String) (e : JsErr) : Task Unit :=
  Task.perform (.consoleError label e)

/-- The call `await api.get(url)`: the request is issued, the task resumes with the response
or throws the rejection. -/
def api.get (url : String) : Task Response :=
  Task.await ⟨.GET, url, none⟩ Task.ofExcept

/-- The call `await api.post(url, data)`; `data` is `none` when the call passes no body. -/
def api.post (url : String) (data : Option JsVal) : Task Response :=
  Task.await ⟨.POST, url, data⟩ Task.ofExcept

/-- The call `await api.delete(url)`. -/
def api.delete (url : String) : Task Response :=
  Task.await ⟨.DELETE, url, none⟩ Task.ofExcept

/-- A default parameter `p = d`: the default is used when the argument is `undefined`. -/
def orDefault (arg dflt : JsVal) : JsVal :=
  match arg with
  | .undefined => dflt
  | v => v

/-- The operation `fetchStatus` (ApiContext.js, lines 43-53). -/
def fetchStatus : Task JsVal := do
  try
    let response ← api.get "/api/status"
    setStatus response.data
    return response.data
  catch error =>
    console.error "Error fetching status:" error
    toast.error "Failed to fetch status"
    throw error

/-- The operation `fetchConfig` (lines 55-65). -/
def fetchConfig : Task JsVal := do
  try
    let response ← api.get "/api/config"
    setConfig response.data
    return response.data
  catch error =>
    console.error "Error fetching config:" error
    toast.error "Failed to fetch configuration"
    throw error

/-- The operation `fetchMentions(limit = 50)` (lines 149-159). -/
def fetchMentions (limit : JsVal) : Task JsVal := do
  let limit := orDefault limit (.num 50)
  try
    let response ← api.get ("/api/mentions?limit=" ++ limit.toStr)
    let mentions ← Task.ofExcept (response.data.getProp "mentions")
    setMentions mentions
    return response.data
  catch error =>
    console.error "Error fetching mentions:" error
    toast.error "Failed to fetch mentions"
    throw error

/-- The operation `fetchLogs(lines = 100)` (lines 175-185). -/
def fetchLogs (lines : JsVal) : Task JsVal := do
  let lines := orDefault lines (.num 100)
  try
    let response ← api.get ("/api/logs?lines=" ++ lines.toStr)
    let logs ← Task.ofExcept (response.data.getProp "logs")
    setLogs logs
    return response.data
  catch error =>
    console.error "Error fetching logs:" error
    toast.error "Failed to fetch logs"
    throw error

/-- The operation `updateConfig(newConfig)` (lines 67-81). -/
def updateConfig (newConfig : JsVal) : Task JsVal := do
  try
    setLoading true
    let response ← api.post "/api/config" (some newConfig)
    let _ ← fetchConfig
    toast.success "Configuration updated successfully"
    return response.data
  catch error =>
    console.error "Error updating config:" error
    toast.error "Failed to update configuration"
    throw error
  finally
    setLoading false

/-- The operation `startMonitoring` (lines 83-97). -/
def startMonitoring : Task JsVal := do
  try
    setLoading true
    let response ← api.post "/api/monitor/start" none
    let _ ← fetchStatus
    toast.success "Monitoring started successfully"
    return response.data
  catch error =>
    console.error "Error starting monitoring:" error
    toast.error "Failed to start monitoring"
    throw error
  finally
    setLoading false

/-- The operation `stopMonitoring` (lines 99-113). -/
def stopMonitoring : Task JsVal := do
  try
    setLoading true
    let response ← api.post "/api/monitor/stop" none
    let _ ← fetchStatus
    toast.success "Monitoring stopped successfully"
    return response.data
  catch error =>
    console.error "Error stopping monitoring:" error
    toast.error "Failed to stop monitoring"
    throw error
  finally
    setLoading false

/-- The operation `manualCheck` (lines 115-130). -/
def manualCheck : Task JsVal := do
  try
    setLoading true
    let response ← api.post "/api/monitor/check" none
    let _ ← fetchStatus
    let _ ← fetchMentions .undefined
    let new_mentions ← Task.ofExcept (response.data.getProp "new_mentions")
    toast.success ("Manual check completed. Found " ++ new_mentions.toStr ++ " new mentions")
    return response.data
  catch error =>
    console.error "Error during manual check:" error
    toast.error "Failed to perform manual check"
    throw error
  finally
    setLoading false

/-- The operation `runScraper` (lines 132-147). -/
def runScraper : Task JsVal := do
  try
    setLoading true
    let response ← api.post "/api/scraper/run" none
    let _ ← fetchStatus
    let _ ← fetchMentions .undefined
    let mentions ← Task.ofExcept (response.data.getProp "mentions")
    let length ← Task.ofExcept (mentions.getProp "length")
    toast.success ("Scraper completed. Found " ++ length.toStr ++ " mentions")
    return response.data
  catch error =>
    console.error "Error running scraper:" error
    toast.error "Failed to run scraper"
    throw error
  finally
    setLoading false

/-- The operation `clearMentions` (lines 161-173). -/
def clearMentions : Task JsVal := do
  try
    let response ← api.delete "/api/mentions"
    setMentions (.arr [])
    let _ ← fetchStatus
    toast.success "Mention history cleared"
    return response.data
  catch error =>
    console.error "Error clearing mentions:" error
    toast.error "Failed to clear mentions"
    throw error

/-- The ten operations the provider exposes through the context value. -/
inductive Operation where
  | fetchStatus
  | fetchConfig
  | updateConfig (newConfig : JsVal)
  | startMonitoring
  | stopMonitoring
  | manualCheck
  | runScraper
  | fetchMentions (limit : JsVal)
  | clearMentions
  | fetchLogs (lines : JsVal)

namespace Operation

/-- The body of an operation. -/
def task : Operation → Task JsVal
  | fetchStatus => LinkedinMonitor.fetchStatus
  | fetchConfig => LinkedinMonitor.fetchConfig
  | updateConfig newConfig => LinkedinMonitor.updateConfig newConfig
  | startMonitoring => LinkedinMonitor.startMonitoring
  | stopMonitoring => LinkedinMonitor.stopMonitoring
  | manualCheck => LinkedinMonitor.manualCheck
  | runScraper => LinkedinMonitor.runScraper
  | fetchMentions limit => LinkedinMonitor.fetchMentions limit
  | clearMentions => LinkedinMonitor.clearMentions
  | fetchLogs lines => LinkedinMonitor.fetchLogs lines

/-- The mutating commands: the operations that send a POST or DELETE. -/
def isCommand : Operation → Bool
  | updateConfig _ | startMonitoring | stopMonitoring | manualCheck | runScraper
  | clearMentions => true
  | _ => false

/-- The first request an operation issues: its own request. -/
def ownRequest : Operation → Request
  | fetchStatus => ⟨.GET, "/api/status", none⟩
  | fetchConfig => ⟨.GET, "/api/config", none⟩
  | updateConfig newConfig => ⟨.POST, "/api/config", some newConfig⟩
  | startMonitoring => ⟨.POST, "/api/monitor/start", none⟩
  | stopMonitoring => ⟨.POST, "/api/monitor/stop", none⟩
  | manualCheck => ⟨.POST, "/api/monitor/check", none⟩
  | runScraper => ⟨.POST, "/api/scraper/run", none⟩
  | fetchMentions limit =>
    ⟨.GET, "/api/mentions?limit=" ++ (orDefault limit (.num 50)).toStr, none⟩
  | clearMentions => ⟨.DELETE, "/api/mentions", none⟩
  | fetchLogs lines => ⟨.GET, "/api/logs?lines=" ++ (orDefault lines (.num 100)).toStr, none⟩

/-- The text of the error toast in an operation's own `catch` block. -/
def failureToast : Operation → String
  | fetchStatus => "Failed to fetch status"
  | fetchConfig => "Failed to fetch configuration"
  | updateConfig _ => "Failed to update configuration"
  | startMonitoring => "Failed to start monitoring"
  | stopMonitoring => "Failed to stop monitoring"
  | manualCheck => "Failed to perform manual check"
  | runScraper => "Failed to run scraper"
  | fetchMentions _ => "Failed to fetch mentions"
  | clearMentions => "Failed to clear mentions"
  | fetchLogs _ => "Failed to fetch logs"

end Operation

/-! ## Configuration.js -/

/-- The component state `formData` of `Configuration`. The three settings hold whatever the
server's config or the input handlers put there; the two secrets are the text of their
inputs. -/
structure FormData where
  search_terms : JsVal
  check_interval : JsVal
  max_results : JsVal
  serpapi_key : String
  slack_webhook_url : String
  deriving DecidableEq

/-- The object `configToUpdate` that `handleSubmit` builds (Configuration.js, lines 36-48):
the three settings always, each secret only when its trimmed text is truthy, that is,
non-empty. -/
def configToUpdate (formData : FormData) : JsVal :=
  let configToUpdate := JsVal.obj [
    ("search_terms", formData.search_terms),
    ("check_interval", formData.check_interval),
    ("max_results", formData.max_results)]
  let configToUpdate :=
    if trim formData.serpapi_key ≠ "" then
      configToUpdate.setProp "serpapi_key" (.str (trim formData.serpapi_key))
    else configToUpdate
  let configToUpdate :=
    if trim formData.slack_webhook_url ≠ "" then
      configToUpdate.setProp "slack_webhook_url" (.str (trim formData.slack_webhook_url))
    else configToUpdate
  configToUpdate

/-- The handler `handleSubmit` (lines 33-51): build `configToUpdate`, await
`updateConfig(configToUpdate)`. -/
def handleSubmit (formData : FormData) : Task JsVal := do
  let _ ← updateConfig (configToUpdate formData)
  return .undefined

/-! ## One command among read-only fetches -/

/-- A task that never calls `setLoading`, on any path. -/
inductive Task.Quiet {α : Type} : Task α → Prop where
  | ret (a : α) : Task.Quiet (.ret a)
  | throw (e : JsErr) : Task.Quiet (.throw e)
  | eff (ev : Event) (next : Task α) (hev : ∀ b, ev ≠ .setLoading b) (h : Task.Quiet next) :
    Task.Quiet (.eff ev next)
  | await (r : Request) (resume : Except JsErr Response → Task α)
    (h : ∀ resp, Task.Quiet (resume resp)) : Task.Quiet (.await r resume)

/-- A task that, when `loading` is `b` now and nobody else writes it, has `loading = true` at
each of its suspension points and `loading = false` when it finishes. -/
inductive Task.ClearsBusy {α : Type} : Bool → Task α → Prop where
  | ret (a : α) : Task.ClearsBusy false (.ret a)
  | throw (e : JsErr) : Task.ClearsBusy false (.throw e)
  | setLoading (b c : Bool) (next : Task α) (h : Task.ClearsBusy c next) :
    Task.ClearsBusy b (.eff (.setLoading c) next)
  | eff (b : Bool) (ev : Event) (next : Task α) (hev : ∀ c, ev ≠ .setLoading c)
    (h : Task.ClearsBusy b next) : Task.ClearsBusy b (.eff ev next)
  | await (r : Request) (resume : Except JsErr Response → Task α)
    (h : ∀ resp, Task.ClearsBusy true (resume resp)) : Task.ClearsBusy true (.await r resume)

/-- Where the one command of a run stands: not yet invoked, parked at an `await` with its
request in flight, or resolved. -/
inductive CommandPhase where
  | idle
  | inFlight (resume : Except JsErr Response → Task JsVal)
  | resolved

/-- Whether the command has been dispatched and has not resolved yet. -/
def CommandPhase.isInFlight : CommandPhase → Bool
  | .inFlight _ => true
  | _ => false

/-- The provider during a run of one command interleaved with read-only fetches: the state,
the command, and the fetches in flight, each parked at its `await`. -/
structure Run where
  world : World
  command : CommandPhase
  fetches : List (Except JsErr Response → Task JsVal)

/-- What can happen next in such a run: the command is invoked, the answer to the
command's pending request arrives, a read-only fetch is invoked, or the answer to the request
of the `i`-th fetch in flight arrives. -/
inductive RunStep where
  | dispatch
  | reply (resp : Except JsErr Response)
  | fetch (op : Operation)
  | fetchReply (i : Nat) (resp : Except JsErr Response)

/-- Resume the `i`-th parked fetch with `resp`: it runs to its next suspension point and is
parked again, or finishes and leaves the list. -/
def resumeAt (resp : Except JsErr Response) :
    Nat → World → List (Except JsErr Response → Task JsVal) →
      World × List (Except JsErr Response → Task JsVal)
  | _, w, [] => (w, [])
  | 0, w, resume :: rest =>
    match (resume resp).advance w with
    | (.waiting next, w1) => (w1, next :: rest)
    | (.finished _, w1) => (w1, rest)
  | i + 1, w, resume :: rest =>
    ((resumeAt resp i w rest).1, resume :: (resumeAt resp i w rest).2)

/-- One step of a run whose command is `cmd`. Steps that do not apply (a second dispatch, an
answer when nothing is pending, a `fetch` of a mutating command) leave the run as it is. -/
def Run.step (cmd : Operation) (s : Run) : RunStep → Run
  | .dispatch =>
    match s.command with
    | .idle =>
      (match cmd.task.advance s.world with
        | (.waiting resume, w) => { s with world := w, command := .inFlight resume }
        | (.finished _, w) => { s with world := w, command := .resolved })
    | _ => s
  | .reply resp =>
    match s.command with
    | .inFlight resume =>
      (match (resume resp).advance s.world with
        | (.waiting next, w) => { s with world := w, command := .inFlight next }
        | (.finished _, w) => { s with world := w, command := .resolved })
    | _ => s
  | .fetch op =>
    if op.isCommand then s
    else
      match op.task.advance s.world with
      | (.waiting resume, w) => { s with world := w, fetches := s.fetches ++ [resume] }
      | (.finished _, w) => { s with world := w }
  | .fetchReply i resp =>
    { s with world := (resumeAt resp i s.world s.fetches).1,
             fetches := (resumeAt resp i s.world s.fetches).2 }

/-- A whole run: the steps in order, from a given state with nothing in flight. -/
def Run.exec (cmd : Operation) (store : Store) (tr : List Event) (steps : List RunStep) : Run :=
  steps.foldl (Run.step cmd) { world := ⟨store, tr⟩, command := .idle, fetches := [] }

/-- The five commands that bracket their body with `setLoading(true)` and, in `finally`,
`setLoading(false)`. -/
def Operation.setsLoading : Operation → Bool
  | .updateConfig _ | .startMonitoring | .stopMonitoring | .manualCheck | .runScraper => true
  | _ => false

/-- The busy flag is right for a task at this stage: true while it is parked, with a
continuation that keeps it so, and false once it has finished. -/
def Task.Stage.Bracketed {α : Type} (st : Task.Stage α) (loading : Bool) : Prop :=
  match st with
  | .waiting resume => loading = true ∧ ∀ resp, Task.ClearsBusy true (resume resp)
  | .finished _ => loading = false

/-- What holds between the steps of a run whose command brackets its body: the fetches in
flight never write `loading`, and `loading` is true exactly while the command is parked. -/
def Run.Sound (s : Run) : Prop :=
  (∀ k ∈ s.fetches, ∀ r, Task.Quiet (k r)) ∧
    match s.command with
    | .inFlight resume =>
      s.world.store.loading = true ∧ ∀ resp, Task.ClearsBusy true (resume resp)
    | _ => s.world.store.loading = false

/-! ## Dependent re-fetches -/

/-- Whether the task is parked at an `await`, its request in flight. -/
def Task.Stage.isWaiting {α : Type} : Task.Stage α → Bool
  | .waiting _ => true
  | .finished _ => false

/-- The re-fetches an operation awaits after its own request, in program order:
`fetchConfig()` in `updateConfig`, `fetchStatus()` in `startMonitoring`, `stopMonitoring` and
`clearMentions`, `fetchStatus()` then `fetchMentions()` in `manualCheck` and `runScraper`. -/
def Operation.refetches : Operation → List Request
  | .updateConfig _ => [⟨.GET, "/api/config", none⟩]
  | .startMonitoring | .stopMonitoring | .clearMentions => [⟨.GET, "/api/status", none⟩]
  | .manualCheck | .runScraper =>
    [⟨.GET, "/api/status", none⟩, ⟨.GET, "/api/mentions?limit=50", none⟩]
  | _ => []

/-- The requests of a list that get issued when each is awaited before the next: the first
always, every further one only if the one before it was answered with a response. `hist` is
what the server has received so far. -/
def issuedInOrder (server : Server) : List Request → List Request → List Request
  | _, [] => []
  | hist, r :: rest =>
    r :: (match server hist r with
      | .ok _ => issuedInOrder server (hist ++ [r]) rest
      | .error _ => [])

/-! ## Secrets -/

namespace JsVal

mutual
/-- Whether the string `x` occurs as a string value somewhere inside the value. -/
def holdsString (x : String) : JsVal → Bool
  | str s => s = x
  | arr xs => holdsStringList x xs
  | obj fields => holdsStringFields x fields
  | _ => false
/-- Whether `x` occurs inside one of the values of a list. -/
def holdsStringList (x : String) : List JsVal → Bool
  | [] => false
  | v :: rest => holdsString x v || holdsStringList x rest
/-- Whether `x` occurs inside one of the property values of an object. -/
def holdsStringFields (x : String) : List (String × JsVal) → Bool
  | [] => false
  | (_, v) :: rest => holdsString x v || holdsStringFields x rest
end

/-- Whether an object has a `serpapi_key` or a `slack_webhook_url` property. -/
def hasSecretKey (v : JsVal) : Bool :=
  decide ("serpapi_key" ∈ v.keys) || decide ("slack_webhook_url" ∈ v.keys)

end JsVal

/-! ## The background poll and the initial fetch -/

/-- The call `console.error(error)` made by `.catch(console.error)`: a console message
without a label, recorded with the empty label. -/
def console.errorBare (e : JsErr) : Task Unit :=
  Task.perform (.consoleError "" e)

/-- One tick of the 30-second timer (ApiContext.js, lines 205-211): the callback
`fetchStatus().catch(console.error)`. -/
def pollTick : Task JsVal := do
  try
    fetchStatus
  catch error =>
    console.errorBare error
    return .undefined

/-- The list `requests` stops at its first failure: a request answered with a rejection is
the last one. `hist` is what the server has received before. -/
def StopsAtFailure (server : Server) : List Request → List Request → Prop
  | _, [] => True
  | hist, r :: rest =>
    ((∃ e, server hist r = .error e) → rest = []) ∧ StopsAtFailure server (hist ++ [r]) rest

/-! ## initializeData: three fetches under Promise.all -/

/-- The mount effect `initializeData` (ApiContext.js, lines 187-202) while it runs: the
state, one slot per promise handed to `Promise.all` (the continuation of a call parked at
its `await`, or `none` once the call has settled), and whether `Promise.all` has already
rejected, which takes `initializeData` into its `catch` block. -/
structure InitRun where
  world : World
  slots : List (Option (Except JsErr Response → Task JsVal))
  rejected : Bool

/-- The calls in the array literal passed to `Promise.all`, in source order;
`fetchMentions()` is called without an argument. -/
def initializeData.calls : List (Task JsVal) :=
  [fetchStatus, fetchConfig, fetchMentions .undefined]

/-- One of the promises settles. The first rejection rejects `Promise.all`, and the `catch`
block of `initializeData` logs it; fulfilments and later rejections change nothing. -/
def InitRun.settle (s : InitRun) : Except JsErr JsVal → InitRun
  | .ok _ => s
  | .error error =>
    if s.rejected then s
    else { s with world := s.world.emit (.consoleError "Error initializing data:" error),
                  rejected := true }

/-- Evaluate one element of the array literal: the call runs up to its first `await`. -/
def InitRun.call (s : InitRun) (t : Task JsVal) : InitRun :=
  match t.advance s.world with
  | (.waiting resume, w) => { s with world := w, slots := s.slots ++ [some resume] }
  | (.finished result, w) => ({ s with world := w, slots := s.slots ++ [none] }).settle result

/-- The answer to the pending request of the call in slot `i` arrives: the call runs to its
next `await` or settles. An answer for a slot with nothing pending changes nothing. -/
def InitRun.deliver (s : InitRun) (i : Nat) (resp : Except JsErr Response) : InitRun :=
  match s.slots.get? i with
  | some (some resume) =>
    (match (resume resp).advance s.world with
      | (.waiting next, w) => { s with world := w, slots := s.slots.set i (some next) }
      | (.finished result, w) =>
        ({ s with world := w, slots := s.slots.set i none }).settle result)
  | _ => s

/-- The mount effect from the state `w`: the three calls are made in source order, then the
answers arrive in the order of `replies`, each addressed to the slot of its call. -/
def initializeData.run (w : World) (replies : List (Nat × Except JsErr Response)) : InitRun :=
  replies.foldl (fun s reply => s.deliver reply.1 reply.2)
    (initializeData.calls.foldl InitRun.call ⟨w, [], false⟩)

/-- Whether every promise handed to `Promise.all` has settled. -/
def InitRun.settled (s : InitRun) : Bool :=
  s.slots.all fun slot => slot.isNone

/-! ## Configuration.js: the inputs of the form -/

namespace JsVal

/-- Truthiness (the abstract operation `ToBoolean`); the model has no `NaN`. -/
def truthy : JsVal → Bool
  | undefined => false
  | null => false
  | bool b => b
  | num n => decide (n ≠ 0)
  | str s => decide (s ≠ "")
  | _ => true

/-- The expression `a || b`. -/
def orElse (a b : JsVal) : JsVal :=
  if a.truthy then a else b

/-- Property read `v.key` on a value already tested to be truthy, where it cannot throw. -/
def read (v : JsVal) (key : String) : JsVal :=
  match v.getProp key with
  | .ok x => x
  | .error _ => undefined

/-- The method `xs.join(sep)` on the elements of an array: `null` and `undefined` render as
the empty string, every other element through `ToString`. -/
def joinWith (sep : String) : List JsVal → String
  | [] => ""
  | [x] => (match x with
    | undefined => ""
    | null => ""
    | v => v.toStr)
  | x :: y :: rest =>
    (match x with
      | undefined => ""
      | null => ""
      | v => v.toStr) ++ sep ++ joinWith sep (y :: rest)

end JsVal

/-- Value of a character as a digit of `parseInt`: `0`-`9`, then the letters of either case
from 10 on. -/
def digitValue (c : Char) : Option Nat :=
  let n := c.toNat
  if 48 ≤ n ∧ n ≤ 57 then some (n - 48)
  else if 97 ≤ n ∧ n ≤ 122 then some (n - 97 + 10)
  else if 65 ≤ n ∧ n ≤ 90 then some (n - 65 + 10)
  else none

/-- The longest prefix of digits of the given radix, as digit values. -/
def digitsPrefix (radix : Nat) : List Char → List Nat
  | [] => []
  | c :: rest =>
    match digitValue c with
    | some d => if d < radix then d :: digitsPrefix radix rest else []
    | none => []

/-- The global function `parseInt(string)` without a radix (ECMAScript 19.2.5): skip leading
white space, read a sign, read the prefix `0x` or `0X` (then the radix is 16, otherwise 10),
and take the longest prefix of digits; `none` stands for `NaN`. Integers are exact here, as
they are in JavaScript below 2^53; beyond that JavaScript rounds to the nearest double, and to
`Infinity` for very long digit strings, which this model does not follow. -/
def parseInt (string : String) : Option Int :=
  let s := string.data.dropWhile isWhiteSpace
  let signed : Int × List Char :=
    match s with
    | '-' :: rest => (-1, rest)
    | '+' :: rest => (1, rest)
    | _ => (1, s)
  let prefixed : Nat × List Char :=
    match signed.2 with
    | '0' :: 'x' :: rest => (16, rest)
    | '0' :: 'X' :: rest => (16, rest)
    | _ => (10, signed.2)
  match digitsPrefix prefixed.1 prefixed.2 with
  | [] => none
  | digits => some (signed.1 * ((digits.foldl (fun acc d => acc * prefixed.1 + d) 0 : Nat) : Int))

/-- The expression `n || dflt` for a number `n`: `NaN` and zero are falsy. -/
def numberOrElse (n : Option Int) (dflt : JsVal) : JsVal :=
  match n with
  | some k => if k = 0 then dflt else .num k
  | none => dflt

/-- The initial value of the component state `formData` (Configuration.js, lines 13-19). -/
def FormData.initial : FormData where
  search_terms := .arr []
  check_interval := .num 30
  max_results := .num 10
  serpapi_key := ""
  slack_webhook_url := ""

/-- The effect that resets the form whenever `config` changes (lines 21-31). -/
def resetFormData (config : JsVal) (formData : FormData) : FormData :=
  if config.truthy then
    { search_terms := (config.read "search_terms").orElse (.arr [])
      check_interval := (config.read "check_interval").orElse (.num 30)
      max_results := (config.read "max_results").orElse (.num 10)
      serpapi_key := ""
      slack_webhook_url := "" }
  else formData

/-- The `onChange` handler of the check-interval input (line 142); `value` is
`e.target.value`. -/
def checkIntervalOnChange (formData : FormData) (value : String) : FormData :=
  { formData with check_interval := numberOrElse (parseInt value) (.num 30) }

/-- The `onChange` handler of the max-results input (line 151). -/
def maxResultsOnChange (formData : FormData) (value : String) : FormData :=
  { formData with max_results := numberOrElse (parseInt value) (.num 10) }

/-- The pieces of a text between the occurrences of the separator. -/
def splitChars (sep : Char) : List Char → List (List Char)
  | [] => [[]]
  | c :: rest =>
    if c = sep then [] :: splitChars sep rest
    else
      match splitChars sep rest with
      | piece :: pieces => (c :: piece) :: pieces
      | [] => [[c]]

/-- The method `s.split(sep)` for a one-character separator. -/
def split (s : String) (sep : Char) : List String :=
  (splitChars sep s.data).map String.mk

/-- The handler `handleSearchTermsChange` (lines 53-56): split the text at the commas, trim
each piece, keep the truthy (non-empty) ones. -/
def handleSearchTermsChange (formData : FormData) (value : String) : FormData :=
  let terms := ((split value ',').map trim).filter fun term => decide (term ≠ "")
  { formData with search_terms := .arr (terms.map .str) }

/-- The text shown in the search-terms input (line 130), `formData.search_terms.join(', ')`;
calling `join` on anything but an array throws. -/
def searchTermsValue (formData : FormData) : Except JsErr String :=
  match formData.search_terms with
  | .arr terms => .ok (JsVal.joinWith ", " terms)
  | _ => .error (.typeError "formData.search_terms.join is not a function")

/-- A text without white space at either end. -/
def Trimmed (s : String) : Prop :=
  (∀ c ∈ s.data.head?, isWhiteSpace c = false) ∧ ∀ c ∈ s.data.getLast?, isWhiteSpace c = false

/-! ## Logs.js: the filter and the counters -/

/-- An element of the `logs` resource. -/
structure LogEntry where
  file : String
  line : String
  deriving DecidableEq

/-- The list `filteredLogs` (Logs.js, lines 42-45). -/
def filteredLogs (toLowerCase : String → String) (logs : List LogEntry) (filter : String) :
    List LogEntry :=
  logs.filter fun log =>
    if filter = "all" then true else decide (getLogLevel toLowerCase log.line = filter)

/-- The array `logLevels` (line 95). -/
def logLevels : List String :=
  ["all", "error", "warning", "info", "debug"]

/-- The object `logCounts` (lines 96-102), as its properties in source order. -/
def logCounts (toLowerCase : String → String) (logs : List LogEntry) : List (String × Nat) :=
  [("all", logs.length),
    ("error", (logs.filter fun log => decide (getLogLevel toLowerCase log.line = "error")).length),
    ("warning",
      (logs.filter fun log => decide (getLogLevel toLowerCase log.line = "warning")).length),
    ("info", (logs.filter fun log => decide (getLogLevel toLowerCase log.line = "info")).length),
    ("debug", (logs.filter fun log => decide (getLogLevel toLowerCase log.line = "debug")).length)]

/-! ## Mentions.js: the filter and the sort -/

/-- An element of the `mentions` resource, with the properties the page reads. -/
structure Mention where
  person_name : String
  formatted_message : String
  mention_type : String
  timestamp : String
  deriving DecidableEq

/-- The list `filteredMentions` (Mentions.js, lines 21-24). -/
def filteredMentions (mentions : List Mention) (filter : String) : List Mention :=
  mentions.filter fun mention =>
    if filter = "all" then true else decide (mention.mention_type = filter)

/-- The comparator passed to `sort` (lines 26-35). `parseDate` is the platform's
`new Date(string)` as milliseconds since the epoch, `none` for an invalid date; a difference
with an invalid date is `NaN`, again `none`. -/
def compareByDate (parseDate : String → Option Int) (sortBy : String) (a b : Mention) :
    Option Int :=
  let dateA := parseDate a.timestamp
  let dateB := parseDate b.timestamp
  if sortBy = "newest" then
    (do let y ← dateB; let x ← dateA; pure (y - x))
  else
    (do let x ← dateA; let y ← dateB; pure (x - y))

/-- Insert `a`, which stood before the elements of the sorted list, at its place: after the
elements the comparator puts before it, that is, those with a positive result. -/
def insertOrdered {α : Type} (compareFn : α → α → Option Int) (a : α) : List α → List α
  | [] => [a]
  | b :: rest =>
    if (compareFn a b).getD 0 ≤ 0 then a :: b :: rest
    else b :: insertOrdered compareFn a rest

/-- The method `xs.sort(compareFn)` (ECMAScript 23.1.3.30) as the value it returns: a stable
sort, `a` staying before `b` unless `compareFn(a, b) > 0`, a `NaN` result counting as zero. -/
def sort {α : Type} (compareFn : α → α → Option Int) (xs : List α) : List α :=
  xs.foldr (insertOrdered compareFn) []

/-- The list `sortedMentions` (lines 26-35): a sorted copy of `filteredMentions`. -/
def sortedMentions (parseDate : String → Option Int) (mentions : List Mention)
    (filter sortBy : String) : List Mention :=
  sort (compareByDate parseDate sortBy) (filteredMentions mentions filter)

/-! ## The buttons that invoke an operation -/

/-- A rendered button: its caption, the operation its click handler invokes, and its
`disabled` attribute. -/
structure Control where
  label : String
  onClick : Operation
  disabled : Bool

/-- The component `ActionButton` of `Dashboard.js` (lines 63-81), which reads `loading`
from the provider: `disabled={disabled || loading}`. -/
def Dashboard.ActionButton (loading : Bool) (onClick : Operation) (label : String)
    (disabled : Bool) : Control :=
  ⟨label, onClick, disabled || loading⟩

/-- The Quick Actions of the dashboard (lines 132-147); no call site passes `disabled`, so
its default `false` applies. Reading `status.is_running` throws when `status` is `null`. -/
def Dashboard.quickActions (status : JsVal) (loading : Bool) : Except JsErr (List Control) := do
  let isRunning ← status.getProp "is_running"
  return [
    if !isRunning.truthy then
      Dashboard.ActionButton loading .startMonitoring "Start Monitoring" false
    else
      Dashboard.ActionButton loading .stopMonitoring "Stop Monitoring" false,
    Dashboard.ActionButton loading .manualCheck "Manual Check" false,
    Dashboard.ActionButton loading .runScraper "Run Scraper" false]

/-- The submit button of the configuration form (Configuration.js, lines 227-236); the form's
`onSubmit` is `handleSubmit`, which calls `updateConfig(configToUpdate)`. -/
def Configuration.saveButton (formData : FormData) (loading : Bool) : Control :=
  ⟨if loading then "Saving..." else "Save Configuration",
    .updateConfig (configToUpdate formData), loading⟩

/-- The header buttons of the mentions page (Mentions.js, lines 113-130): Refresh, and Clear
All when there are mentions; the Clear All button has no `disabled` attribute. `mentions` are
the elements of the array in the state. -/
def Mentions.headerButtons (mentions : List JsVal) (loading : Bool) : List Control :=
  ⟨"Refresh", .fetchMentions (.num 100), loading⟩ ::
    (if mentions.length > 0 then [⟨"Clear All", .clearMentions, false⟩] else [])

/-! ## The re-fetches of a command, and steps of read-only fetches -/

/-- The read-only fetches a command calls after its own request was acknowledged, in program
order; `fetchMentions()` is called without an argument. -/
def Operation.refetchOps : Operation → List Operation
  | .updateConfig _ => [.fetchConfig]
  | .startMonitoring | .stopMonitoring | .clearMentions => [.fetchStatus]
  | .manualCheck | .runScraper => [.fetchStatus, .fetchMentions .undefined]
  | _ => []

/-- Whether an operation called when the server has received `hist` ends by throwing. The
state it is called in plays no part, since no operation reads it, so the operation is run
from the initial state. -/
def Operation.failsAfter (server : Server) (hist : List Request) (op : Operation) : Bool :=
  match (Task.run server op.task ⟨Store.initial, hist.map .request⟩).1 with
  | .error _ => true
  | .ok _ => false

/-- The first of the fetches `fetches`, called one after the other as long as none throws,
that throws. -/
def firstFailing (server : Server) : List Request → List Operation → Option Operation
  | _, [] => none
  | hist, fetch :: rest =>
    if fetch.failsAfter server hist then some fetch
    else firstFailing server (hist ++ [fetch.ownRequest]) rest

/-- Whether a step belongs to a read-only fetch: its invocation or the answer to its
request. -/
def RunStep.isFetch : RunStep → Bool
  | .fetch _ => true
  | .fetchReply _ _ => true
  | _ => false

/-! ## Scenarios -/

/-- Sample payloads of the monitoring service, by endpoint: a status with monitoring running,
a config with presence flags, two mentions for the default limit and three for `limit=100`,
a manual check that found two mentions, and a plain acknowledgement for everything else. -/
def cannedResponse (r : Request) : Response :=
  match r.method, r.url with
  | .GET, "/api/status" =>
    ⟨.obj [("is_running", .bool true), ("last_check", .str "2024-05-01T10:00:00"),
      ("total_mentions", .num 3), ("seen_urls_count", .num 7)]⟩
  | .GET, "/api/config" =>
    ⟨.obj [("search_terms", .arr [.str "Acme"]), ("check_interval", .num 15),
      ("max_results", .num 20), ("has_serpapi_key", .bool true),
      ("has_slack_webhook", .bool false)]⟩
  | .GET, "/api/mentions?limit=50" =>
    ⟨.obj [("mentions", .arr [.obj [("person_name", .str "Ada")],
      .obj [("person_name", .str "Grace")]])]⟩
  | .GET, "/api/mentions?limit=100" =>
    ⟨.obj [("mentions", .arr [.obj [("person_name", .str "Ada")],
      .obj [("person_name", .str "Grace")], .obj [("person_name", .str "Edsger")]])]⟩
  | .GET, "/api/logs?lines=100" =>
    ⟨.obj [("logs", .arr [.obj [("file", .str "../monitor.log"),
      ("line", .str "2024 WARNING something failed with info codes")]])]⟩
  | .POST, "/api/monitor/check" => ⟨.obj [("new_mentions", .num 2)]⟩
  | .POST, "/api/scraper/run" => ⟨.obj [("mentions", .arr [.obj [("person_name", .str "Ada")]])]⟩
  | _, _ => ⟨.obj [("message", .str "ok")]⟩

/-- A server that times out on the requests selected by `down` and answers every other
request with its sample payload. -/
def scenarioServer (down : Request → Bool) : Server :=
  fun _ r => if down r then .error .timeout else .ok (cannedResponse r)

/-- A server that acknowledges every POST with the JSON body `null` and answers every other
request with its sample payload. -/
def nullAckServer : Server :=
  fun _ r => if r.method = .POST then .ok ⟨.null⟩ else .ok (cannedResponse r)

/-- A server that stores the body of the last `POST /api/config` and returns it verbatim,
secrets included, on `GET /api/config`; every other request gets its sample payload. -/
def echoingServer : Server :=
  fun hist r =>
    match r.method, r.url with
    | .GET, "/api/config" =>
      (match hist.reverse.find? fun q => q.method = .POST && q.url = "/api/config" with
        | some ⟨_, _, some body⟩ => .ok ⟨body⟩
        | _ => .ok (cannedResponse r))
    | _, _ => .ok (cannedResponse r)

/-- A provider state in which monitoring is already running. -/
def storeMonitoringRunning : Store :=
  { Store.initial with
    status := .obj [("is_running", .bool true), ("last_check", .str "2024-04-30T08:00:00"),
      ("total_mentions", .num 1), ("seen_urls_count", .num 2)] }

/-- A provider state holding five mentions from an earlier fetch. -/
def storeWithFiveMentions : Store :=
  { Store.initial with
    mentions := .arr [.obj [("person_name", .str "A")], .obj [("person_name", .str "B")],
      .obj [("person_name", .str "C")], .obj [("person_name", .str "D")],
      .obj [("person_name", .str "E")]] }

/-- Three mentions as the service stores them, newest in the middle. -/
def sampleMentions : List Mention :=
  [⟨"Ada", "Ada tagged you", "tag", "2024-05-01T10:00:00Z"⟩,
    ⟨"Grace", "Grace mentioned you", "mention", "2024-05-02T09:30:00Z"⟩,
    ⟨"Edsger", "Edsger tagged you", "tag", "2024-04-30T08:00:00Z"⟩]

/-- The dates of the sample mentions in milliseconds since the epoch; any other text is an
invalid date. -/
def sampleParseDate (s : String) : Option Int :=
  if s = "2024-05-01T10:00:00Z" then some 1714557600000
  else if s = "2024-05-02T09:30:00Z" then some 1714642200000
  else if s = "2024-04-30T08:00:00Z" then some 1714464000000
  else none

/-- A server that answers every request with status 200 and the JSON body `null`. -/
def nullBodyServer : Server :=
  fun _ _ => .ok ⟨.null⟩

/-! ## Strings: substring test and trimming -/

theorem includes_iff (s sub : String) : includes s sub = true ↔ sub.data <:+: s.data := by
  unfold includes
  rw [List.any_eq_true, List.infix_iff_prefix_suffix]
  constructor
  · rintro ⟨t, ht, hp⟩
    exact ⟨t, List.isPrefixOf_iff_prefix.mp hp, (List.mem_tails _ _).mp ht⟩
  · rintro ⟨t, hp, ht⟩
    exact ⟨t, (List.mem_tails _ _).mpr ht, List.isPrefixOf_iff_prefix.mpr hp⟩

theorem includes_eq_decide (s sub : String) : includes s sub = decide (sub.data <:+: s.data) := by
  rw [Bool.eq_iff_iff, includes_iff, decide_eq_true_iff]

/-! ## Running tasks -/

@[simp] theorem run_pure {α : Type} (server : Server)
    (a : α) (w : World) : Task.run server (pure a) w = (.ok a, w) := rfl

@[simp] theorem run_throw {α : Type} (server : Server)
    (e : JsErr) (w : World) : Task.run server (throw e : Task α) w = (.error e, w) := rfl

@[simp] theorem run_ofExcept {α : Type}
    (server : Server) (x : Except JsErr α) (w : World) :
    Task.run server (Task.ofExcept x) w = (x, w) := by
  cases x <;> rfl

theorem run_bind_core {α β : Type} (server : Server)
    (t : Task α) (f : α → Task β) (w : World) :
    Task.run server (Task.bind t f) w =
      match Task.run server t w with
      | (.ok a, w1) => Task.run server (f a) w1
      | (.error e, w1) => (.error e, w1) := by
  induction t generalizing w with
  | ret a => rfl
  | throw e => rfl
  | eff ev next ih => exact ih _
  | await r resume ih => exact ih _ _

@[simp] theorem run_bind {α β : Type} (server : Server)
    (t : Task α) (f : α → Task β) (w : World) :
    Task.run server (t >>= f) w =
      match Task.run server t w with
      | (.ok a, w1) => Task.run server (f a) w1
      | (.error e, w1) => (.error e, w1) :=
  run_bind_core server t f w

@[simp] theorem run_tryCatch {α : Type} (server : Server)
    (t : Task α) (handler : JsErr → Task α) (w : World) :
    Task.run server (tryCatch t handler) w =
      match Task.run server t w with
      | (.ok a, w1) => (.ok a, w1)
      | (.error e, w1) => Task.run server (handler e) w1 := by
  show Task.run server (Task.tryCatch t handler) w = _
  induction t generalizing w with
  | ret a => rfl
  | throw e => rfl
  | eff ev next ih => exact ih _
  | await r resume ih => exact ih _ _

theorem run_tryFinallyWith {α β : Type} (server : Server)
    (t : Task α) (fin : Option α → Task β) (w : World) :
    Task.run server (Task.tryFinallyWith t fin) w =
      match Task.run server t w with
      | (.ok a, w1) =>
        (match Task.run server (fin (some a)) w1 with
          | (.ok b, w2) => (.ok (a, b), w2)
          | (.error e, w2) => (.error e, w2))
      | (.error e, w1) =>
        (match Task.run server (fin none) w1 with
          | (.ok _, w2) => (.error e, w2)
          | (.error e2, w2) => (.error e2, w2)) := by
  induction t generalizing w with
  | ret a => simp only [Task.tryFinallyWith, run_bind_core]; rfl
  | throw e => simp only [Task.tryFinallyWith, run_bind_core]; rfl
  | eff ev next ih => exact ih _
  | await r resume ih => exact ih _ _

@[simp] theorem run_tryFinally {α : Type} (server : Server)
    (t : Task α) (fin : Task Unit) (w : World) :
    Task.run server (tryFinally t fin) w =
      match Task.run server t w with
      | (out, w1) =>
        (match Task.run server fin w1 with
          | (.ok _, w2) => (out, w2)
          | (.error e, w2) => (.error e, w2)) := by
  show Task.run server (Task.bind (Task.tryFinallyWith t fun _ => fin) _) w = _
  rw [run_bind_core, run_tryFinallyWith]
  rcases Task.run server t w with ⟨out, w1⟩
  cases out <;> simp only <;> rcases Task.run server fin w1 with ⟨o2, w2⟩ <;> cases o2 <;> rfl

@[simp] theorem run_perform (server : Server)
    (ev : Event) (w : World) : Task.run server (Task.perform ev) w = (.ok (), w.emit ev) := rfl

/-! ## Facts about the state and the trace -/

@[simp] theorem emit_trace (w : World) (ev : Event) : (w.emit ev).trace = w.trace ++ [ev] := rfl

@[simp] theorem emit_store (w : World) (ev : Event) : (w.emit ev).store = w.store.apply ev := rfl

@[simp] theorem requestsOf_append (a b : List Event) :
    requestsOf (a ++ b) = requestsOf a ++ requestsOf b := by
  induction a with
  | nil => rfl
  | cons ev rest ih => cases ev <;> simp [requestsOf, ih]

@[simp] theorem errorToastsOf_append (a b : List Event) :
    errorToastsOf (a ++ b) = errorToastsOf a ++ errorToastsOf b := by
  induction a with
  | nil => rfl
  | cons ev rest ih => cases ev <;> simp [errorToastsOf, ih]

/-! ## The axios calls and the four fetches, run to completion -/

@[simp] theorem run_api_get (server : Server)
    (url : String) (w : World) :
    Task.run server (api.get url) w =
      (server (requestsOf w.trace) ⟨.GET, url, none⟩, w.emit (.request ⟨.GET, url, none⟩)) :=
  run_ofExcept server _ _

@[simp] theorem run_api_post (server : Server)
    (url : String) (data : Option JsVal) (w : World) :
    Task.run server (api.post url data) w =
      (server (requestsOf w.trace) ⟨.POST, url, data⟩, w.emit (.request ⟨.POST, url, data⟩)) :=
  run_ofExcept server _ _

@[simp] theorem run_api_delete (server : Server)
    (url : String) (w : World) :
    Task.run server (api.delete url) w =
      (server (requestsOf w.trace) ⟨.DELETE, url, none⟩,
        w.emit (.request ⟨.DELETE, url, none⟩)) :=
  run_ofExcept server _ _

theorem run_fetchStatus (server : Server) (w : World) :
    Task.run server fetchStatus w =
      match server (requestsOf w.trace) ⟨.GET, "/api/status", none⟩ with
      | .ok response =>
        (.ok response.data,
          (w.emit (.request ⟨.GET, "/api/status", none⟩)).emit (.setStatus response.data))
      | .error error =>
        (.error error,
          ((w.emit (.request ⟨.GET, "/api/status", none⟩)).emit
            (.consoleError "Error fetching status:" error)).emit
            (.toastError "Failed to fetch status")) := by
  simp only [fetchStatus, setStatus, console.error, toast.error, run_tryCatch, run_bind,
    run_api_get, run_perform, run_pure, run_throw]
  cases server (requestsOf w.trace) ⟨.GET, "/api/status", none⟩ <;> rfl

theorem run_fetchConfig (server : Server) (w : World) :
    Task.run server fetchConfig w =
      match server (requestsOf w.trace) ⟨.GET, "/api/config", none⟩ with
      | .ok response =>
        (.ok response.data,
          (w.emit (.request ⟨.GET, "/api/config", none⟩)).emit (.setConfig response.data))
      | .error error =>
        (.error error,
          ((w.emit (.request ⟨.GET, "/api/config", none⟩)).emit
            (.consoleError "Error fetching config:" error)).emit
            (.toastError "Failed to fetch configuration")) := by
  simp only [fetchConfig, setConfig, console.error, toast.error, run_tryCatch, run_bind,
    run_api_get, run_perform, run_pure, run_throw]
  cases server (requestsOf w.trace) ⟨.GET, "/api/config", none⟩ <;> rfl

theorem run_fetchMentions (server : Server)
    (limit : JsVal) (w : World) :
    Task.run server (fetchMentions limit) w =
      match server (requestsOf w.trace) (Operation.fetchMentions limit).ownRequest with
      | .ok response =>
        (match response.data.getProp "mentions" with
          | .ok mentions =>
            (.ok response.data,
              (w.emit (.request (Operation.fetchMentions limit).ownRequest)).emit
                (.setMentions mentions))
          | .error error =>
            (.error error,
              ((w.emit (.request (Operation.fetchMentions limit).ownRequest)).emit
                (.consoleError "Error fetching mentions:" error)).emit
                (.toastError "Failed to fetch mentions")))
      | .error error =>
        (.error error,
          ((w.emit (.request (Operation.fetchMentions limit).ownRequest)).emit
            (.consoleError "Error fetching mentions:" error)).emit
            (.toastError "Failed to fetch mentions")) := by
  simp only [fetchMentions, setMentions, console.error, toast.error, run_tryCatch, run_bind,
    run_api_get, run_perform, run_pure, run_throw, run_ofExcept, Operation.ownRequest]
  cases server (requestsOf w.trace)
    ⟨.GET, "/api/mentions?limit=" ++ (orDefault limit (.num 50)).toStr, none⟩ with
  | error e => rfl
  | ok response => dsimp only; cases response.data.getProp "mentions" <;> rfl

theorem run_fetchLogs (server : Server)
    (lines : JsVal) (w : World) :
    Task.run server (fetchLogs lines) w =
      match server (requestsOf w.trace) (Operation.fetchLogs lines).ownRequest with
      | .ok response =>
        (match response.data.getProp "logs" with
          | .ok logs =>
            (.ok response.data,
              (w.emit (.request (Operation.fetchLogs lines).ownRequest)).emit (.setLogs logs))
          | .error error =>
            (.error error,
              ((w.emit (.request (Operation.fetchLogs lines).ownRequest)).emit
                (.consoleError "Error fetching logs:" error)).emit
                (.toastError "Failed to fetch logs")))
      | .error error =>
        (.error error,
          ((w.emit (.request (Operation.fetchLogs lines).ownRequest)).emit
            (.consoleError "Error fetching logs:" error)).emit
            (.toastError "Failed to fetch logs")) := by
  simp only [fetchLogs, setLogs, console.error, toast.error, run_tryCatch, run_bind,
    run_api_get, run_perform, run_pure, run_throw, run_ofExcept, Operation.ownRequest]
  cases server (requestsOf w.trace)
    ⟨.GET, "/api/logs?lines=" ++ (orDefault lines (.num 100)).toStr, none⟩ with
  | error e => rfl
  | ok response => dsimp only; cases response.data.getProp "logs" <;> rfl

/-! ## Logs.js: the classifier -/

/-- C1. For every log line, `getLogLevel` is the first-match classification of the lower-cased
line over the keyword table error, warning/warn, info, debug, with `info` as the default;
this holds whatever the lower-casing function is. -/
theorem getLogLevel_eq_firstMatchLevel (toLowerCase : String → String) (logLine : String) :
    getLogLevel toLowerCase logLine = firstMatchLevel (toLowerCase logLine) := by
  simp only [getLogLevel, firstMatchLevel, levelKeywords, includes_eq_decide, List.find?,
    List.any, Bool.or_false, Bool.or_eq_true, decide_eq_true_iff]
  by_cases h1 : "error".data <:+: (toLowerCase logLine).data
  · simp [h1]
  · by_cases h2 : "warning".data <:+: (toLowerCase logLine).data
    · simp [h1, h2]
    · by_cases h3 : "warn".data <:+: (toLowerCase logLine).data
      · simp [h1, h2, h3]
      · by_cases h4 : "info".data <:+: (toLowerCase logLine).data
        · simp [h1, h2, h3, h4]
        · by_cases h5 : "debug".data <:+: (toLowerCase logLine).data
          · simp [h1, h2, h3, h4, h5]
          · simp [h1, h2, h3, h4, h5]

/-- C2, as stated, fails: the line `ERROR: disk warning, see info page` contains both
"warning" and "info" once lower-cased, yet it is classified `error`, not `warning`. -/
theorem getLogLevel_warning_info_counterexample :
    includes (asciiLowerCase "ERROR: disk warning, see info page") "warning" = true ∧
    includes (asciiLowerCase "ERROR: disk warning, see info page") "info" = true ∧
    getLogLevel asciiLowerCase "ERROR: disk warning, see info page" = "error" ∧
    getLogLevel asciiLowerCase "ERROR: disk warning, see info page" ≠ "warning" := by
  decide

/-- C2, amended. A log line whose lower-cased text contains "warning" and "info" but not
"error" is classified `warning`; and the line
`2024 WARNING something failed with info codes` is classified `warning`. -/
theorem getLogLevel_warning_before_info :
    (∀ (toLowerCase : String → String) (logLine : String),
      includes (toLowerCase logLine) "warning" = true →
      includes (toLowerCase logLine) "info" = true →
      includes (toLowerCase logLine) "error" = false →
      getLogLevel toLowerCase logLine = "warning") ∧
    getLogLevel asciiLowerCase "2024 WARNING something failed with info codes" = "warning" := by
  refine ⟨?_, by decide⟩
  intro toLowerCase logLine hw _ he
  simp [getLogLevel, hw, he]

/-- C2, amended, at the specification's example line. -/
theorem getLogLevel_warning_before_info_witness :
    includes (asciiLowerCase "2024 WARNING something failed with info codes") "warning" = true ∧
    includes (asciiLowerCase "2024 WARNING something failed with info codes") "info" = true ∧
    includes (asciiLowerCase "2024 WARNING something failed with info codes") "error" = false ∧
    getLogLevel asciiLowerCase "2024 WARNING something failed with info codes" = "warning" :=
  ⟨by decide, by decide, by decide,
    getLogLevel_warning_before_info.1 asciiLowerCase
      "2024 WARNING something failed with info codes" (by decide) (by decide) (by decide)⟩

/-! ## Configuration.js: the submitted object -/

theorem all_dropWhile_iff (p : Char → Bool) (l : List Char) :
    (∀ x ∈ l.dropWhile p, p x = true) ↔ ∀ x ∈ l, p x = true := by
  constructor
  · intro h
    have hnil : l.dropWhile p = [] := by
      by_contra hne
      have := List.head_dropWhile_not p l hne
      rw [h _ (List.head_mem hne)] at this
      exact Bool.noConfusion this
    exact List.dropWhile_eq_nil_iff.mp hnil
  · intro h x hx
    exact h x ((List.dropWhile_suffix p).subset hx)

theorem trim_eq_empty_iff (s : String) : trim s = "" ↔ ∀ c ∈ s.data, isWhiteSpace c = true := by
  have h : trim s = "" ↔ (trim s).data = [] := by
    constructor
    · intro h; rw [h]
    · intro h; exact String.ext h
  rw [h]
  simp only [trim, List.reverse_eq_nil_iff, List.dropWhile_eq_nil_iff, List.mem_reverse]
  exact all_dropWhile_iff _ _

theorem trim_ne_empty_iff (s : String) :
    trim s ≠ "" ↔ ∃ c ∈ s.data, isWhiteSpace c = false := by
  rw [Ne, trim_eq_empty_iff]
  simp

/-- C3. The object `handleSubmit` hands to `updateConfig` is the body of the POST it issues;
it always carries the form's `search_terms`, `check_interval` and `max_results`; it carries
`serpapi_key` (and likewise `slack_webhook_url`) exactly when the field's text has a
non-whitespace character, with the trimmed text as value; so its keys are the three settings
followed by the secrets that are not blank, and for the form
`{search_terms: ["Acme"], check_interval: 30, max_results: 10}` with empty or
whitespace-only secrets the body has exactly the three settings. -/
theorem handleSubmit_body :
    (∀ formData : FormData,
      (∀ w : World, (Task.advance (handleSubmit formData) w).2.trace =
        w.trace ++ [.setLoading true,
          .request ⟨.POST, "/api/config", some (configToUpdate formData)⟩]) ∧
      ∃ fields, configToUpdate formData = .obj fields ∧
        JsVal.lookup "search_terms" fields = some formData.search_terms ∧
        JsVal.lookup "check_interval" fields = some formData.check_interval ∧
        JsVal.lookup "max_results" fields = some formData.max_results ∧
        JsVal.lookup "serpapi_key" fields =
          (if ∃ c ∈ formData.serpapi_key.data, isWhiteSpace c = false
            then some (.str (trim formData.serpapi_key)) else none) ∧
        JsVal.lookup "slack_webhook_url" fields =
          (if ∃ c ∈ formData.slack_webhook_url.data, isWhiteSpace c = false
            then some (.str (trim formData.slack_webhook_url)) else none) ∧
        (configToUpdate formData).keys =
          ["search_terms", "check_interval", "max_results"]
            ++ (if ∃ c ∈ formData.serpapi_key.data, isWhiteSpace c = false
                then ["serpapi_key"] else [])
            ++ (if ∃ c ∈ formData.slack_webhook_url.data, isWhiteSpace c = false
                then ["slack_webhook_url"] else [])) ∧
    configToUpdate ⟨.arr [.str "Acme"], .num 30, .num 10, "", ""⟩ =
      .obj [("search_terms", .arr [.str "Acme"]), ("check_interval", .num 30),
        ("max_results", .num 10)] ∧
    configToUpdate ⟨.arr [.str "Acme"], .num 30, .num 10, "  ", "\t\n"⟩ =
      .obj [("search_terms", .arr [.str "Acme"]), ("check_interval", .num 30),
        ("max_results", .num 10)] := by
  refine ⟨?_, by decide, by decide⟩
  intro formData
  refine ⟨fun w => ?_, ?_⟩
  · show (w.trace ++ [_]) ++ [_] = _
    rw [List.append_assoc]; rfl
  by_cases h1 : ∃ c ∈ formData.serpapi_key.data, isWhiteSpace c = false <;>
  by_cases h2 : ∃ c ∈ formData.slack_webhook_url.data, isWhiteSpace c = false <;>
  simp [configToUpdate, trim_ne_empty_iff, h1, h2, JsVal.setProp, JsVal.setFields,
    JsVal.lookup, JsVal.keys]

/-! ## The six commands, run to completion -/

theorem ownRequest_fetchMentions_default :
    (Operation.fetchMentions .undefined).ownRequest = ⟨.GET, "/api/mentions?limit=50", none⟩ := by
  decide

/-- Every run of `updateConfig`: the result, the final state and the events added to the
trace, by the answers of the server (and, where the code reads one, by the property read). -/
theorem run_updateConfig (server : Server)
    (w : World) (newConfig : JsVal) :
    Task.run server (updateConfig newConfig) w =
      match server (requestsOf w.trace) ⟨.POST, "/api/config", some newConfig⟩ with
      | .error error =>
        (.error error, ⟨{ w.store with loading := false },
          w.trace ++ [
            .setLoading true,
            .request ⟨.POST, "/api/config", some newConfig⟩,
            .consoleError "Error updating config:" error,
            .toastError "Failed to update configuration",
            .setLoading false]⟩)
      | .ok response =>
        match server (requestsOf w.trace ++ [⟨.POST, "/api/config", some newConfig⟩])
            ⟨.GET, "/api/config", none⟩ with
        | .error error =>
          (.error error, ⟨{ w.store with loading := false },
            w.trace ++ [
              .setLoading true,
              .request ⟨.POST, "/api/config", some newConfig⟩,
              .request ⟨.GET, "/api/config", none⟩,
              .consoleError "Error fetching config:" error,
              .toastError "Failed to fetch configuration",
              .consoleError "Error updating config:" error,
              .toastError "Failed to update configuration",
              .setLoading false]⟩)
        | .ok fetched =>
          (.ok response.data, ⟨{ w.store with config := fetched.data, loading := false },
            w.trace ++ [
              .setLoading true,
              .request ⟨.POST, "/api/config", some newConfig⟩,
              .request ⟨.GET, "/api/config", none⟩,
              .setConfig fetched.data,
              .toastSuccess "Configuration updated successfully",
              .setLoading false]⟩) := by
  rcases h1 : server (requestsOf w.trace) ⟨.POST, "/api/config", some newConfig⟩ with
    error | response
  · simp [updateConfig, setLoading, setMentions, toast.success, console.error, toast.error,
      run_fetchStatus, run_fetchConfig, run_fetchMentions, ownRequest_fetchMentions_default,
      World.emit, Store.apply, requestsOf, h1]
  · rcases h2 : server (requestsOf w.trace ++ [⟨.POST, "/api/config", some newConfig⟩])
      ⟨.GET, "/api/config", none⟩ with
      error | fetched
    · simp [updateConfig, setLoading, setMentions, toast.success, console.error, toast.error,
      run_fetchStatus, run_fetchConfig, run_fetchMentions, ownRequest_fetchMentions_default,
      World.emit, Store.apply, requestsOf, h1, h2]
    · simp [updateConfig, setLoading, setMentions, toast.success, console.error, toast.error,
      run_fetchStatus, run_fetchConfig, run_fetchMentions, ownRequest_fetchMentions_default,
      World.emit, Store.apply, requestsOf, h1, h2]

/-- Every run of `startMonitoring`: the result, the final state and the events added to the
trace, by the answers of the server (and, where the code reads one, by the property read). -/
theorem run_startMonitoring (server : Server)
    (w : World) :
    Task.run server startMonitoring w =
      match server (requestsOf w.trace) ⟨.POST, "/api/monitor/start", none⟩ with
      | .error error =>
        (.error error, ⟨{ w.store with loading := false },
          w.trace ++ [
            .setLoading true,
            .request ⟨.POST, "/api/monitor/start", none⟩,
            .consoleError "Error starting monitoring:" error,
            .toastError "Failed to start monitoring",
            .setLoading false]⟩)
      | .ok response =>
        match server (requestsOf w.trace ++ [⟨.POST, "/api/monitor/start", none⟩])
            ⟨.GET, "/api/status", none⟩ with
        | .error error =>
          (.error error, ⟨{ w.store with loading := false },
            w.trace ++ [
              .setLoading true,
              .request ⟨.POST, "/api/monitor/start", none⟩,
              .request ⟨.GET, "/api/status", none⟩,
              .consoleError "Error fetching status:" error,
              .toastError "Failed to fetch status",
              .consoleError "Error starting monitoring:" error,
              .toastError "Failed to start monitoring",
              .setLoading false]⟩)
        | .ok refreshed =>
          (.ok response.data, ⟨{ w.store with status := refreshed.data, loading := false },
            w.trace ++ [
              .setLoading true,
              .request ⟨.POST, "/api/monitor/start", none⟩,
              .request ⟨.GET, "/api/status", none⟩,
              .setStatus refreshed.data,
              .toastSuccess "Monitoring started successfully",
              .setLoading false]⟩) := by
  rcases h1 : server (requestsOf w.trace) ⟨.POST, "/api/monitor/start", none⟩ with
    error | response
  · simp [startMonitoring, setLoading, setMentions, toast.success, console.error, toast.error,
      run_fetchStatus, run_fetchConfig, run_fetchMentions, ownRequest_fetchMentions_default,
      World.emit, Store.apply, requestsOf, h1]
  · rcases h2 : server (requestsOf w.trace ++ [⟨.POST, "/api/monitor/start", none⟩])
      ⟨.GET, "/api/status", none⟩ with
      error | refreshed
    · simp [startMonitoring, setLoading, setMentions, toast.success, console.error, toast.error,
      run_fetchStatus, run_fetchConfig, run_fetchMentions, ownRequest_fetchMentions_default,
      World.emit, Store.apply, requestsOf, h1, h2]
    · simp [startMonitoring, setLoading, setMentions, toast.success, console.error, toast.error,
      run_fetchStatus, run_fetchConfig, run_fetchMentions, ownRequest_fetchMentions_default,
      World.emit, Store.apply, requestsOf, h1, h2]

/-- Every run of `stopMonitoring`: the result, the final state and the events added to the
trace, by the answers of the server (and, where the code reads one, by the property read). -/
theorem run_stopMonitoring (server : Server)
    (w : World) :
    Task.run server stopMonitoring w =
      match server (requestsOf w.trace) ⟨.POST, "/api/monitor/stop", none⟩ with
      | .error error =>
        (.error error, ⟨{ w.store with loading := false },
          w.trace ++ [
            .setLoading true,
            .request ⟨.POST, "/api/monitor/stop", none⟩,
            .consoleError "Error stopping monitoring:" error,
            .toastError "Failed to stop monitoring",
            .setLoading false]⟩)
      | .ok response =>
        match server (requestsOf w.trace ++ [⟨.POST, "/api/monitor/stop", none⟩])
            ⟨.GET, "/api/status", none⟩ with
        | .error error =>
          (.error error, ⟨{ w.store with loading := false },
            w.trace ++ [
              .setLoading true,
              .request ⟨.POST, "/api/monitor/stop", none⟩,
              .request ⟨.GET, "/api/status", none⟩,
              .consoleError "Error fetching status:" error,
              .toastError "Failed to fetch status",
              .consoleError "Error stopping monitoring:" error,
              .toastError "Failed to stop monitoring",
              .setLoading false]⟩)
        | .ok refreshed =>
          (.ok response.data, ⟨{ w.store with status := refreshed.data, loading := false },
            w.trace ++ [
              .setLoading true,
              .request ⟨.POST, "/api/monitor/stop", none⟩,
              .request ⟨.GET, "/api/status", none⟩,
              .setStatus refreshed.data,
              .toastSuccess "Monitoring stopped successfully",
              .setLoading false]⟩) := by
  rcases h1 : server (requestsOf w.trace) ⟨.POST, "/api/monitor/stop", none⟩ with
    error | response
  · simp [stopMonitoring, setLoading, setMentions, toast.success, console.error, toast.error,
      run_fetchStatus, run_fetchConfig, run_fetchMentions, ownRequest_fetchMentions_default,
      World.emit, Store.apply, requestsOf, h1]
  · rcases h2 : server (requestsOf w.trace ++ [⟨.POST, "/api/monitor/stop", none⟩])
      ⟨.GET, "/api/status", none⟩ with
      error | refreshed
    · simp [stopMonitoring, setLoading, setMentions, toast.success, console.error, toast.error,
      run_fetchStatus, run_fetchConfig, run_fetchMentions, ownRequest_fetchMentions_default,
      World.emit, Store.apply, requestsOf, h1, h2]
    · simp [stopMonitoring, setLoading, setMentions, toast.success, console.error, toast.error,
      run_fetchStatus, run_fetchConfig, run_fetchMentions, ownRequest_fetchMentions_default,
      World.emit, Store.apply, requestsOf, h1, h2]

/-- Every run of `manualCheck`: the result, the final state and the events added to the
trace, by the answers of the server (and, where the code reads one, by the property read). -/
theorem run_manualCheck (server : Server)
    (w : World) :
    Task.run server manualCheck w =
      match server (requestsOf w.trace) ⟨.POST, "/api/monitor/check", none⟩ with
      | .error error =>
        (.error error, ⟨{ w.store with loading := false },
          w.trace ++ [
            .setLoading true,
            .request ⟨.POST, "/api/monitor/check", none⟩,
            .consoleError "Error during manual check:" error,
            .toastError "Failed to perform manual check",
            .setLoading false]⟩)
      | .ok response =>
        match server (requestsOf w.trace ++ [⟨.POST, "/api/monitor/check", none⟩])
            ⟨.GET, "/api/status", none⟩ with
        | .error error =>
          (.error error, ⟨{ w.store with loading := false },
            w.trace ++ [
              .setLoading true,
              .request ⟨.POST, "/api/monitor/check", none⟩,
              .request ⟨.GET, "/api/status", none⟩,
              .consoleError "Error fetching status:" error,
              .toastError "Failed to fetch status",
              .consoleError "Error during manual check:" error,
              .toastError "Failed to perform manual check",
              .setLoading false]⟩)
        | .ok refreshed =>
          match server (requestsOf w.trace ++ [⟨.POST, "/api/monitor/check", none⟩, ⟨.GET, "/api/status", none⟩])
              ⟨.GET, "/api/mentions?limit=50", none⟩ with
          | .error error =>
            (.error error, ⟨{ w.store with status := refreshed.data, loading := false },
              w.trace ++ [
                .setLoading true,
                .request ⟨.POST, "/api/monitor/check", none⟩,
                .request ⟨.GET, "/api/status", none⟩,
                .setStatus refreshed.data,
                .request ⟨.GET, "/api/mentions?limit=50", none⟩,
                .consoleError "Error fetching mentions:" error,
                .toastError "Failed to fetch mentions",
                .consoleError "Error during manual check:" error,
                .toastError "Failed to perform manual check",
                .setLoading false]⟩)
          | .ok listed =>
            match listed.data.getProp "mentions" with
            | .error error =>
              (.error error, ⟨{ w.store with status := refreshed.data, loading := false },
                w.trace ++ [
                  .setLoading true,
                  .request ⟨.POST, "/api/monitor/check", none⟩,
                  .request ⟨.GET, "/api/status", none⟩,
                  .setStatus refreshed.data,
                  .request ⟨.GET, "/api/mentions?limit=50", none⟩,
                  .consoleError "Error fetching mentions:" error,
                  .toastError "Failed to fetch mentions",
                  .consoleError "Error during manual check:" error,
                  .toastError "Failed to perform manual check",
                  .setLoading false]⟩)
            | .ok items =>
              match JsVal.getProp response.data "new_mentions" with
              | .error error =>
                (.error error,
                  ⟨{ w.store with status := refreshed.data, mentions := items, loading := false },
                  w.trace ++ [
                    .setLoading true,
                    .request ⟨.POST, "/api/monitor/check", none⟩,
                    .request ⟨.GET, "/api/status", none⟩,
                    .setStatus refreshed.data,
                    .request ⟨.GET, "/api/mentions?limit=50", none⟩,
                    .setMentions items,
                    .consoleError "Error during manual check:" error,
                    .toastError "Failed to perform manual check",
                    .setLoading false]⟩)
              | .ok count =>
                (.ok response.data,
                  ⟨{ w.store with status := refreshed.data, mentions := items, loading := false },
                  w.trace ++ [
                    .setLoading true,
                    .request ⟨.POST, "/api/monitor/check", none⟩,
                    .request ⟨.GET, "/api/status", none⟩,
                    .setStatus refreshed.data,
                    .request ⟨.GET, "/api/mentions?limit=50", none⟩,
                    .setMentions items,
                    .toastSuccess
                      ("Manual check completed. Found " ++ count.toStr ++ " new mentions"),
                    .setLoading false]⟩) := by
  rcases h1 : server (requestsOf w.trace) ⟨.POST, "/api/monitor/check", none⟩ with
    error | response
  · simp [manualCheck, setLoading, setMentions, toast.success, console.error, toast.error,
      run_fetchStatus, run_fetchConfig, run_fetchMentions, ownRequest_fetchMentions_default,
      World.emit, Store.apply, requestsOf, h1]
  · rcases h2 : server (requestsOf w.trace ++ [⟨.POST, "/api/monitor/check", none⟩])
      ⟨.GET, "/api/status", none⟩ with
      error | refreshed
    · simp [manualCheck, setLoading, setMentions, toast.success, console.error, toast.error,
      run_fetchStatus, run_fetchConfig, run_fetchMentions, ownRequest_fetchMentions_default,
      World.emit, Store.apply, requestsOf, h1, h2]
    · rcases h3 : server (requestsOf w.trace ++ [⟨.POST, "/api/monitor/check", none⟩, ⟨.GET, "/api/status", none⟩])
        ⟨.GET, "/api/mentions?limit=50", none⟩ with
        error | listed
      · simp [manualCheck, setLoading, setMentions, toast.success, console.error, toast.error,
      run_fetchStatus, run_fetchConfig, run_fetchMentions, ownRequest_fetchMentions_default,
      World.emit, Store.apply, requestsOf, h1, h2, h3]
      · rcases h4 : listed.data.getProp "mentions" with error | items
        · simp [manualCheck, setLoading, setMentions, toast.success, console.error, toast.error,
      run_fetchStatus, run_fetchConfig, run_fetchMentions, ownRequest_fetchMentions_default,
      World.emit, Store.apply, requestsOf, h1, h2, h3, h4]
        · rcases h5 : JsVal.getProp response.data "new_mentions" with error | count
          · simp [manualCheck, setLoading, setMentions, toast.success, console.error, toast.error,
      run_fetchStatus, run_fetchConfig, run_fetchMentions, ownRequest_fetchMentions_default,
      World.emit, Store.apply, requestsOf, h1, h2, h3, h4, h5]
          · simp [manualCheck, setLoading, setMentions, toast.success, console.error, toast.error,
      run_fetchStatus, run_fetchConfig, run_fetchMentions, ownRequest_fetchMentions_default,
      World.emit, Store.apply, requestsOf, h1, h2, h3, h4, h5]

/-- Every run of `runScraper`: the result, the final state and the events added to the
trace, by the answers of the server (and, where the code reads one, by the property read). -/
theorem run_runScraper (server : Server)
    (w : World) :
    Task.run server runScraper w =
      match server (requestsOf w.trace) ⟨.POST, "/api/scraper/run", none⟩ with
      | .error error =>
        (.error error, ⟨{ w.store with loading := false },
          w.trace ++ [
            .setLoading true,
            .request ⟨.POST, "/api/scraper/run", none⟩,
            .consoleError "Error running scraper:" error,
            .toastError "Failed to run scraper",
            .setLoading false]⟩)
      | .ok response =>
        match server (requestsOf w.trace ++ [⟨.POST, "/api/scraper/run", none⟩])
            ⟨.GET, "/api/status", none⟩ with
        | .error error =>
          (.error error, ⟨{ w.store with loading := false },
            w.trace ++ [
              .setLoading true,
              .request ⟨.POST, "/api/scraper/run", none⟩,
              .request ⟨.GET, "/api/status", none⟩,
              .consoleError "Error fetching status:" error,
              .toastError "Failed to fetch status",
              .consoleError "Error running scraper:" error,
              .toastError "Failed to run scraper",
              .setLoading false]⟩)
        | .ok refreshed =>
          match server (requestsOf w.trace ++ [⟨.POST, "/api/scraper/run", none⟩, ⟨.GET, "/api/status", none⟩])
              ⟨.GET, "/api/mentions?limit=50", none⟩ with
          | .error error =>
            (.error error, ⟨{ w.store with status := refreshed.data, loading := false },
              w.trace ++ [
                .setLoading true,
                .request ⟨.POST, "/api/scraper/run", none⟩,
                .request ⟨.GET, "/api/status", none⟩,
                .setStatus refreshed.data,
                .request ⟨.GET, "/api/mentions?limit=50", none⟩,
                .consoleError "Error fetching mentions:" error,
                .toastError "Failed to fetch mentions",
                .consoleError "Error running scraper:" error,
                .toastError "Failed to run scraper",
                .setLoading false]⟩)
          | .ok listed =>
            match listed.data.getProp "mentions" with
            | .error error =>
              (.error error, ⟨{ w.store with status := refreshed.data, loading := false },
                w.trace ++ [
                  .setLoading true,
                  .request ⟨.POST, "/api/scraper/run", none⟩,
                  .request ⟨.GET, "/api/status", none⟩,
                  .setStatus refreshed.data,
                  .request ⟨.GET, "/api/mentions?limit=50", none⟩,
                  .consoleError "Error fetching mentions:" error,
                  .toastError "Failed to fetch mentions",
                  .consoleError "Error running scraper:" error,
                  .toastError "Failed to run scraper",
                  .setLoading false]⟩)
            | .ok items =>
              match JsVal.getProp response.data "mentions" with
              | .error error =>
                (.error error,
                  ⟨{ w.store with status := refreshed.data, mentions := items, loading := false },
                  w.trace ++ [
                    .setLoading true,
                    .request ⟨.POST, "/api/scraper/run", none⟩,
                    .request ⟨.GET, "/api/status", none⟩,
                    .setStatus refreshed.data,
                    .request ⟨.GET, "/api/mentions?limit=50", none⟩,
                    .setMentions items,
                    .consoleError "Error running scraper:" error,
                    .toastError "Failed to run scraper",
                    .setLoading false]⟩)
              | .ok found =>
                match JsVal.getProp found "length" with
                | .error error =>
                  (.error error,
                    ⟨{ w.store with status := refreshed.data, mentions := items, loading := false },
                    w.trace ++ [
                      .setLoading true,
                      .request ⟨.POST, "/api/scraper/run", none⟩,
                      .request ⟨.GET, "/api/status", none⟩,
                      .setStatus refreshed.data,
                      .request ⟨.GET, "/api/mentions?limit=50", none⟩,
                      .setMentions items,
                      .consoleError "Error running scraper:" error,
                      .toastError "Failed to run scraper",
                      .setLoading false]⟩)
                | .ok length =>
                  (.ok response.data,
                    ⟨{ w.store with status := refreshed.data, mentions := items, loading := false },
                    w.trace ++ [
                      .setLoading true,
                      .request ⟨.POST, "/api/scraper/run", none⟩,
                      .request ⟨.GET, "/api/status", none⟩,
                      .setStatus refreshed.data,
                      .request ⟨.GET, "/api/mentions?limit=50", none⟩,
                      .setMentions items,
                      .toastSuccess ("Scraper completed. Found " ++ length.toStr ++ " mentions"),
                      .setLoading false]⟩) := by
  rcases h1 : server (requestsOf w.trace) ⟨.POST, "/api/scraper/run", none⟩ with
    error | response
  · simp [runScraper, setLoading, setMentions, toast.success, console.error, toast.error,
      run_fetchStatus, run_fetchConfig, run_fetchMentions, ownRequest_fetchMentions_default,
      World.emit, Store.apply, requestsOf, h1]
  · rcases h2 : server (requestsOf w.trace ++ [⟨.POST, "/api/scraper/run", none⟩])
      ⟨.GET, "/api/status", none⟩ with
      error | refreshed
    · simp [runScraper, setLoading, setMentions, toast.success, console.error, toast.error,
      run_fetchStatus, run_fetchConfig, run_fetchMentions, ownRequest_fetchMentions_default,
      World.emit, Store.apply, requestsOf, h1, h2]
    · rcases h3 : server (requestsOf w.trace ++ [⟨.POST, "/api/scraper/run", none⟩, ⟨.GET, "/api/status", none⟩])
        ⟨.GET, "/api/mentions?limit=50", none⟩ with
        error | listed
      · simp [runScraper, setLoading, setMentions, toast.success, console.error, toast.error,
      run_fetchStatus, run_fetchConfig, run_fetchMentions, ownRequest_fetchMentions_default,
      World.emit, Store.apply, requestsOf, h1, h2, h3]
      · rcases h4 : listed.data.getProp "mentions" with error | items
        · simp [runScraper, setLoading, setMentions, toast.success, console.error, toast.error,
      run_fetchStatus, run_fetchConfig, run_fetchMentions, ownRequest_fetchMentions_default,
      World.emit, Store.apply, requestsOf, h1, h2, h3, h4]
        · rcases h5 : JsVal.getProp response.data "mentions" with error | found
          · simp [runScraper, setLoading, setMentions, toast.success, console.error, toast.error,
      run_fetchStatus, run_fetchConfig, run_fetchMentions, ownRequest_fetchMentions_default,
      World.emit, Store.apply, requestsOf, h1, h2, h3, h4, h5]
          · rcases h6 : JsVal.getProp found "length" with error | length
            · simp [runScraper, setLoading, setMentions, toast.success, console.error, toast.error,
      run_fetchStatus, run_fetchConfig, run_fetchMentions, ownRequest_fetchMentions_default,
      World.emit, Store.apply, requestsOf, h1, h2, h3, h4, h5, h6]
            · simp [runScraper, setLoading, setMentions, toast.success, console.error, toast.error,
      run_fetchStatus, run_fetchConfig, run_fetchMentions, ownRequest_fetchMentions_default,
      World.emit, Store.apply, requestsOf, h1, h2, h3, h4, h5, h6]

/-- Every run of `clearMentions`: the result, the final state and the events added to the
trace, by the answers of the server (and, where the code reads one, by the property read). -/
theorem run_clearMentions (server : Server)
    (w : World) :
    Task.run server clearMentions w =
      match server (requestsOf w.trace) ⟨.DELETE, "/api/mentions", none⟩ with
      | .error error =>
        (.error error, ⟨w.store,
          w.trace ++ [
            .request ⟨.DELETE, "/api/mentions", none⟩,
            .consoleError "Error clearing mentions:" error,
            .toastError "Failed to clear mentions"]⟩)
      | .ok response =>
        match server (requestsOf w.trace ++ [⟨.DELETE, "/api/mentions", none⟩])
            ⟨.GET, "/api/status", none⟩ with
        | .error error =>
          (.error error, ⟨{ w.store with mentions := .arr [] },
            w.trace ++ [
              .request ⟨.DELETE, "/api/mentions", none⟩,
              .setMentions (.arr []),
              .request ⟨.GET, "/api/status", none⟩,
              .consoleError "Error fetching status:" error,
              .toastError "Failed to fetch status",
              .consoleError "Error clearing mentions:" error,
              .toastError "Failed to clear mentions"]⟩)
        | .ok refreshed =>
          (.ok response.data, ⟨{ w.store with status := refreshed.data, mentions := .arr [] },
            w.trace ++ [
              .request ⟨.DELETE, "/api/mentions", none⟩,
              .setMentions (.arr []),
              .request ⟨.GET, "/api/status", none⟩,
              .setStatus refreshed.data,
              .toastSuccess "Mention history cleared"]⟩) := by
  rcases h1 : server (requestsOf w.trace) ⟨.DELETE, "/api/mentions", none⟩ with
    error | response
  · simp [clearMentions, setLoading, setMentions, toast.success, console.error, toast.error,
      run_fetchStatus, run_fetchConfig, run_fetchMentions, ownRequest_fetchMentions_default,
      World.emit, Store.apply, requestsOf, h1]
  · rcases h2 : server (requestsOf w.trace ++ [⟨.DELETE, "/api/mentions", none⟩])
      ⟨.GET, "/api/status", none⟩ with
      error | refreshed
    · simp [clearMentions, setLoading, setMentions, toast.success, console.error, toast.error,
      run_fetchStatus, run_fetchConfig, run_fetchMentions, ownRequest_fetchMentions_default,
      World.emit, Store.apply, requestsOf, h1, h2]
    · simp [clearMentions, setLoading, setMentions, toast.success, console.error, toast.error,
      run_fetchStatus, run_fetchConfig, run_fetchMentions, ownRequest_fetchMentions_default,
      World.emit, Store.apply, requestsOf, h1, h2]

/-! ## The busy flag -/

theorem Store.sameResources_apply {a b : Store} (h : a.sameResources b) (ev : Event) :
    (a.apply ev).sameResources (b.apply ev) := by
  obtain ⟨h1, h2, h3, h4⟩ := h
  cases ev <;> simp [Store.apply, Store.sameResources, h1, h2, h3, h4]

/-- No task can observe `loading`: from two states that differ at most in `loading`, a task
produces the same result and the same events, and ends in states that again differ at most
in `loading`. -/
theorem run_sameResources {α : Type} (server : Server)
    (t : Task α) (a b : Store) (tr : List Event) (h : a.sameResources b) :
    (Task.run server t ⟨a, tr⟩).1 = (Task.run server t ⟨b, tr⟩).1 ∧
    (Task.run server t ⟨a, tr⟩).2.trace = (Task.run server t ⟨b, tr⟩).2.trace ∧
    (Task.run server t ⟨a, tr⟩).2.store.sameResources (Task.run server t ⟨b, tr⟩).2.store := by
  induction t generalizing a b tr with
  | ret x => exact ⟨rfl, rfl, h⟩
  | throw e => exact ⟨rfl, rfl, h⟩
  | eff ev next ih => exact ih _ _ _ (Store.sameResources_apply h ev)
  | await r resume ih => exact ih _ _ _ _ h

theorem first_request_is_own (op : Operation)
    (server : Server) (w : World) :
    ∃ rest, requestsOf (Task.run server op.task w).2.trace =
      requestsOf w.trace ++ op.ownRequest :: rest := by
  cases op <;>
    simp only [Operation.task, run_fetchStatus, run_fetchConfig, run_fetchMentions,
      run_fetchLogs, run_updateConfig, run_startMonitoring, run_stopMonitoring,
      run_manualCheck, run_runScraper, run_clearMentions]
  all_goals
    repeat' split
  all_goals
    simp [requestsOf, Operation.ownRequest]

/-- C4, as stated, fails: with `loading = true` (another command in flight) `startMonitoring`
is not rejected. It sends `POST /api/monitor/start`, then `GET /api/status`, and replaces the
status resource. -/
theorem startMonitoring_while_busy_counterexample :
    requestsOf (Task.run (scenarioServer fun _ => false) startMonitoring
        ⟨{ Store.initial with loading := true }, []⟩).2.trace =
      [⟨.POST, "/api/monitor/start", none⟩, ⟨.GET, "/api/status", none⟩] ∧
    (Task.run (scenarioServer fun _ => false) startMonitoring
        ⟨{ Store.initial with loading := true }, []⟩).2.store.status ≠
      ({ Store.initial with loading := true } : Store).status := by
  decide

/-- C4, amended. The provider has no busy gate of its own: every operation, the six mutating
commands included, runs from `loading = true` exactly as it does from `loading = false`. It
produces the same result, the same events and the same status, config, mentions and logs, and
it issues its requests: its own request first, then, if that one is acknowledged, its
re-fetches in order. -/
theorem operations_ignore_busy (op : Operation)
    (server : Server) (s : Store) (tr : List Event) :
    (Task.run server op.task ⟨{ s with loading := true }, tr⟩).1 =
      (Task.run server op.task ⟨{ s with loading := false }, tr⟩).1 ∧
    (Task.run server op.task ⟨{ s with loading := true }, tr⟩).2.trace =
      (Task.run server op.task ⟨{ s with loading := false }, tr⟩).2.trace ∧
    (Task.run server op.task ⟨{ s with loading := true }, tr⟩).2.store.sameResources
      (Task.run server op.task ⟨{ s with loading := false }, tr⟩).2.store ∧
    requestsOf (Task.run server op.task ⟨{ s with loading := true }, tr⟩).2.trace =
      requestsOf tr ++ op.ownRequest ::
        (match server (requestsOf tr) op.ownRequest with
          | .ok _ => issuedInOrder server (requestsOf tr ++ [op.ownRequest]) op.refetches
          | .error _ => []) := by
  obtain ⟨h1, h2, h3⟩ := run_sameResources server op.task { s with loading := true }
    { s with loading := false } tr ⟨rfl, rfl, rfl, rfl⟩
  refine ⟨h1, h2, h3, ?_⟩
  cases op <;>
    simp only [Operation.task, run_fetchStatus, run_fetchConfig, run_fetchMentions,
      run_fetchLogs, run_updateConfig, run_startMonitoring, run_stopMonitoring,
      run_manualCheck, run_runScraper, run_clearMentions, Operation.ownRequest,
      Operation.refetches, issuedInOrder]
  all_goals
    repeat' split
  all_goals
    simp_all [requestsOf]

/-- C5 at its failing input: the run of the one command `clearMentions` from a state holding
five mentions, with `loading = false`. After the dispatch the command is in flight (its DELETE
is pending) and `loading` is still false; after the acknowledgement it is still in flight (its
status refresh is pending) and `loading` is still false. `startMonitoring` from the same
state has `loading = true` at both points. -/
theorem clearMentions_in_flight_not_busy :
    storeWithFiveMentions.loading = false ∧
    ((Run.exec .clearMentions storeWithFiveMentions [] [.dispatch]).command.isInFlight = true ∧
      (Run.exec .clearMentions storeWithFiveMentions [] [.dispatch]).world.trace =
        [.request ⟨.DELETE, "/api/mentions", none⟩] ∧
      (Run.exec .clearMentions storeWithFiveMentions []
        [.dispatch]).world.store.loading = false) ∧
    ((Run.exec .clearMentions storeWithFiveMentions []
        [.dispatch, .reply (.ok ⟨.obj [("message", .str "ok")]⟩)]).command.isInFlight = true ∧
      (Run.exec .clearMentions storeWithFiveMentions []
        [.dispatch, .reply (.ok ⟨.obj [("message", .str "ok")]⟩)]).world.store.loading =
          false) ∧
    ((Run.exec .startMonitoring storeWithFiveMentions [] [.dispatch]).command.isInFlight = true ∧
      (Run.exec .startMonitoring storeWithFiveMentions []
        [.dispatch]).world.store.loading = true) ∧
    ((Run.exec .startMonitoring storeWithFiveMentions []
        [.dispatch, .reply (.ok ⟨.obj [("message", .str "ok")]⟩)]).command.isInFlight = true ∧
      (Run.exec .startMonitoring storeWithFiveMentions []
        [.dispatch, .reply (.ok ⟨.obj [("message", .str "ok")]⟩)]).world.store.loading =
          true) := by
  decide

theorem loading_false_after_finally {α β : Type}
    (server : Server) (t : Task α) (f : α → Task β)
    (hf : ∀ a, ∃ b, f a = pure b) (w : World) :
    (Task.run server (tryFinally t (setLoading false) >>= f) w).2.store.loading = false := by
  rw [run_bind, run_tryFinally]
  rcases Task.run server t w with ⟨out, w1⟩
  cases out with
  | error e => rfl
  | ok a =>
    obtain ⟨b, hb⟩ := hf a
    simp only [setLoading, run_perform, hb, run_pure]
    rfl

/-- C6. Each of `updateConfig`, `startMonitoring`, `stopMonitoring`, `manualCheck` and
`runScraper` ends with `loading = false`, for every prior state and every behaviour of the
server: whether its own request fails, a dependent re-fetch fails, the property read for the
success message throws, or nothing fails. -/
theorem busy_cleared_on_every_exit
    (server : Server) (w : World) :
    (∀ newConfig, (Task.run server (updateConfig newConfig) w).2.store.loading = false) ∧
    (Task.run server startMonitoring w).2.store.loading = false ∧
    (Task.run server stopMonitoring w).2.store.loading = false ∧
    (Task.run server manualCheck w).2.store.loading = false ∧
    (Task.run server runScraper w).2.store.loading = false := by
  refine ⟨fun newConfig => ?_, ?_, ?_, ?_, ?_⟩
  · unfold updateConfig
    exact loading_false_after_finally server _ _ (fun r => by cases r <;> exact ⟨_, rfl⟩) w
  · unfold startMonitoring
    exact loading_false_after_finally server _ _ (fun r => by cases r <;> exact ⟨_, rfl⟩) w
  · unfold stopMonitoring
    exact loading_false_after_finally server _ _ (fun r => by cases r <;> exact ⟨_, rfl⟩) w
  · unfold manualCheck
    exact loading_false_after_finally server _ _ (fun r => by cases r <;> exact ⟨_, rfl⟩) w
  · unfold runScraper
    exact loading_false_after_finally server _ _ (fun r => by cases r <;> exact ⟨_, rfl⟩) w

/-- The third way a command can fail does occur: when the POST of `manualCheck` is
acknowledged with the body `null`, both refreshes succeed, reading `new_mentions` for the
success message throws a `TypeError`, the command toasts its failure and still ends with
`loading = false`. -/
theorem manualCheck_message_throws :
    (Task.run nullAckServer manualCheck ⟨Store.initial, []⟩).1 =
      .error (.typeError "Cannot read properties of null (reading new_mentions)") ∧
    errorToastsOf (Task.run nullAckServer manualCheck ⟨Store.initial, []⟩).2.trace =
      ["Failed to perform manual check"] ∧
    (Task.run nullAckServer manualCheck ⟨Store.initial, []⟩).2.store.loading = false :=
  ⟨rfl, by decide, by decide⟩

/-- C7, as stated, fails: when `manualCheck` has its POST acknowledged and its status refresh
answered, and the mentions refresh then times out, it surfaces that error although the status
resource has already been replaced. -/
theorem manualCheck_partial_counterexample :
    (Task.run (scenarioServer fun r => r.url = "/api/mentions?limit=50") manualCheck
        ⟨Store.initial, []⟩).1 = .error .timeout ∧
    (Task.run (scenarioServer fun r => r.url = "/api/mentions?limit=50") manualCheck
        ⟨Store.initial, []⟩).2.store.status ≠ Store.initial.status :=
  ⟨rfl, by decide⟩

/-- C7, amended. When an operation ends by surfacing an error, status, config, mentions and
logs all keep their prior values unless one of its setters had already run: that is, for every
read-only fetch, for `updateConfig`, `startMonitoring` and `stopMonitoring`, whenever the
operation's own request failed, and when the status re-fetch of `manualCheck` or `runScraper`
failed. In the remaining failures the replacements made so far stay: `manualCheck` and
`runScraper` failing after their status re-fetch was answered leave that answer in status
(and the re-fetched list in mentions, if that re-fetch got as far), `clearMentions` failing
after its DELETE was acknowledged leaves mentions empty. -/
theorem failed_operation_leaves_resources (op : Operation)
    (server : Server) (w : World) (e : JsErr)
    (hfail : (Task.run server op.task w).1 = .error e) :
    (((op ≠ .manualCheck ∧ op ≠ .runScraper ∧ op ≠ .clearMentions) ∨
        (∃ e0, server (requestsOf w.trace) op.ownRequest = .error e0) ∨
        ((op = .manualCheck ∨ op = .runScraper) ∧
          ∃ e1, server (requestsOf w.trace ++ [op.ownRequest]) ⟨.GET, "/api/status", none⟩ =
            .error e1)) →
      (Task.run server op.task w).2.store.sameResources w.store) ∧
    (∀ ack refreshed, (op = .manualCheck ∨ op = .runScraper) →
      server (requestsOf w.trace) op.ownRequest = .ok ack →
      server (requestsOf w.trace ++ [op.ownRequest]) ⟨.GET, "/api/status", none⟩ =
        .ok refreshed →
      (Task.run server op.task w).2.store.status = refreshed.data ∧
      ((Task.run server op.task w).2.store.mentions = w.store.mentions ∨
        ∃ listed items,
          server (requestsOf w.trace ++ [op.ownRequest, ⟨.GET, "/api/status", none⟩])
            ⟨.GET, "/api/mentions?limit=50", none⟩ = .ok listed ∧
          listed.data.getProp "mentions" = .ok items ∧
          (Task.run server op.task w).2.store.mentions = items) ∧
      (Task.run server op.task w).2.store.config = w.store.config ∧
      (Task.run server op.task w).2.store.logs = w.store.logs) ∧
    (∀ ack, op = .clearMentions →
      server (requestsOf w.trace) op.ownRequest = .ok ack →
      (Task.run server op.task w).2.store.mentions = .arr [] ∧
      (Task.run server op.task w).2.store.status = w.store.status ∧
      (Task.run server op.task w).2.store.config = w.store.config ∧
      (Task.run server op.task w).2.store.logs = w.store.logs) := by
  refine ⟨fun hkind => ?_, fun ack refreshed hop hack href => ?_, fun ack hop hack => ?_⟩
  · cases op <;>
      simp only [Operation.task, run_fetchStatus, run_fetchConfig, run_fetchMentions,
        run_fetchLogs, run_updateConfig, run_startMonitoring, run_stopMonitoring,
        run_manualCheck, run_runScraper, run_clearMentions, Operation.ownRequest]
        at hfail hkind ⊢
    all_goals
      repeat' split
    all_goals
      simp_all [Store.sameResources, Store.apply, World.emit]
  · rcases hop with rfl | rfl <;>
      simp only [Operation.task, run_manualCheck, run_runScraper, Operation.ownRequest]
        at hfail hack href ⊢
    all_goals
      simp only [hack, href] at hfail ⊢
      repeat' split
    all_goals
      simp_all
  · subst hop
    simp only [Operation.task, run_clearMentions, Operation.ownRequest] at hfail hack ⊢
    simp only [hack] at hfail ⊢
    repeat' split
    all_goals
      simp_all

/-- C7, amended, at a failure after the acknowledgement: the POST of `manualCheck` is
acknowledged, its status re-fetch times out, and the four resources are the prior ones. -/
theorem failed_operation_leaves_resources_witness :
    (Task.run (scenarioServer fun r => r.url = "/api/status") Operation.manualCheck.task
        ⟨storeWithFiveMentions, []⟩).1 = .error .timeout ∧
    scenarioServer (fun r => r.url = "/api/status") (requestsOf [])
      Operation.manualCheck.ownRequest = .ok ⟨.obj [("new_mentions", .num 2)]⟩ ∧
    (Task.run (scenarioServer fun r => r.url = "/api/status") Operation.manualCheck.task
        ⟨storeWithFiveMentions, []⟩).2.store.sameResources storeWithFiveMentions :=
  ⟨rfl, rfl,
    (failed_operation_leaves_resources .manualCheck
      (scenarioServer fun r => r.url = "/api/status")
      ⟨storeWithFiveMentions, []⟩ .timeout rfl).1
        (Or.inr (Or.inr ⟨Or.inl rfl, .timeout, rfl⟩))⟩

/-- C8, as stated, fails: when the status refresh inside `startMonitoring` times out, two
error notifications are emitted, and the first names the fetch, not the invoked action. -/
theorem startMonitoring_two_toasts_counterexample :
    errorToastsOf (Task.run (scenarioServer fun r => r.url = "/api/status") startMonitoring
        ⟨Store.initial, []⟩).2.trace =
      ["Failed to fetch status", "Failed to start monitoring"] := by
  decide

@[simp] theorem requestsOf_map_request (hist : List Request) :
    requestsOf (hist.map .request) = hist := by
  induction hist with
  | nil => rfl
  | cons r rest ih => simp [requestsOf, ih]

/-- The result of a task depends on the state only through the requests issued so far. -/
theorem run_result_of_requests {α : Type} (server : Server) (t : Task α) :
    ∀ w w' : World, requestsOf w.trace = requestsOf w'.trace →
      (Task.run server t w).1 = (Task.run server t w').1 := by
  induction t with
  | ret a => exact fun _ _ _ => rfl
  | throw e => exact fun _ _ _ => rfl
  | eff ev next ih =>
    intro w w' h
    exact ih (w.emit ev) (w'.emit ev) (by simp [World.emit, h])
  | await r resume ih =>
    intro w w' h
    show (Task.run server (resume (server (requestsOf w.trace) r)) (w.emit (.request r))).1 =
      (Task.run server (resume (server (requestsOf w'.trace) r)) (w'.emit (.request r))).1
    rw [h]
    exact ih _ _ _ (by simp [World.emit, h])

/-- An operation fails after `hist`, in the sense of `failsAfter`, exactly when its run from
any state with those requests behind it ends with an error. -/
theorem failsAfter_iff (server : Server) (op : Operation) (w : World) :
    op.failsAfter server (requestsOf w.trace) = true ↔
      ∃ e, (Task.run server op.task w).1 = .error e := by
  unfold Operation.failsAfter
  rw [run_result_of_requests server op.task ⟨Store.initial, (requestsOf w.trace).map .request⟩ w
    (by simp)]
  cases (Task.run server op.task w).1 <;> simp

/-- C8, amended. A successful invocation emits no error notification. A failing invocation
emits the notification naming the invoked action exactly once, as the last one. It is the
only one when the operation's own request failed, for every failing read-only fetch, and when
a command fails although none of its re-fetches did. When a command fails because one of its
re-fetches failed, exactly two are emitted: first the notification of that re-fetch (the first
one that failed), then the command's own. -/
theorem error_toasts_of_operation (op : Operation)
    (server : Server) (w : World) :
    ∃ added, errorToastsOf (Task.run server op.task w).2.trace =
        errorToastsOf w.trace ++ added ∧
      match (Task.run server op.task w).1, server (requestsOf w.trace) op.ownRequest with
      | .ok _, _ => added = []
      | .error _, .error _ => added = [op.failureToast]
      | .error _, .ok _ =>
        match firstFailing server (requestsOf w.trace ++ [op.ownRequest]) op.refetchOps with
        | some fetch => added = [fetch.failureToast, op.failureToast]
        | none => added = [op.failureToast] := by
  have hurl : "/api/mentions?limit=" ++ (orDefault JsVal.undefined (JsVal.num 50)).toStr =
      "/api/mentions?limit=50" := by decide
  cases op <;>
    simp only [Operation.task, run_fetchStatus, run_fetchConfig, run_fetchMentions,
      run_fetchLogs, run_updateConfig, run_startMonitoring, run_stopMonitoring,
      run_manualCheck, run_runScraper, run_clearMentions, Operation.ownRequest,
      Operation.refetchOps, firstFailing, Operation.failsAfter, requestsOf_map_request,
      requestsOf_append, List.map_append, hurl]
  all_goals
    repeat' split
  all_goals
    simp_all [errorToastsOf, Operation.failureToast, Operation.isCommand]
  all_goals
    subst_vars
    rfl

/-! ## The read-only fetches -/

theorem getProp_error_iff (v : JsVal) (key : String) :
    (∃ e, v.getProp key = .error e) ↔ v = .null ∨ v = .undefined := by
  cases v <;> simp [JsVal.getProp]

/-- C9, as stated, fails: `GET /api/mentions?limit=100` is answered with status 200 and the
body `null`. Reading `response.data.mentions` throws, so `fetchMentions(100)` fails, shows its
error notification and leaves the five mentions of the prior state where they were. -/
theorem fetchMentions_null_body_counterexample :
    nullBodyServer (requestsOf []) (Operation.fetchMentions (.num 100)).ownRequest =
      .ok ⟨.null⟩ ∧
    (Task.run nullBodyServer (fetchMentions (.num 100)) ⟨storeWithFiveMentions, []⟩).1 =
      .error (.typeError "Cannot read properties of null (reading mentions)") ∧
    (Task.run nullBodyServer (fetchMentions (.num 100))
      ⟨storeWithFiveMentions, []⟩).2.store = storeWithFiveMentions ∧
    errorToastsOf (Task.run nullBodyServer (fetchMentions (.num 100))
      ⟨storeWithFiveMentions, []⟩).2.trace = ["Failed to fetch mentions"] :=
  ⟨rfl, rfl, by decide, by decide⟩

/-- C9, amended. On a successful response `fetchStatus` and `fetchConfig` replace their
resource by exactly the body and return it. `fetchMentions` and `fetchLogs` do the same with
the value read from the body's `mentions` / `logs` property whenever the body is neither
`null` nor `undefined`; nothing of the previous value is kept and the rest of the state is as
it was. When the body is `null` or `undefined` the property read throws: the fetch fails with
that error, shows its error notification and leaves the whole state unchanged. -/
theorem fetch_success_replaces_resource
    (server : Server) (w : World)
    (response : Response) :
    (server (requestsOf w.trace) Operation.fetchStatus.ownRequest = .ok response →
      (Task.run server fetchStatus w).1 = .ok response.data ∧
      (Task.run server fetchStatus w).2.store = { w.store with status := response.data }) ∧
    (server (requestsOf w.trace) Operation.fetchConfig.ownRequest = .ok response →
      (Task.run server fetchConfig w).1 = .ok response.data ∧
      (Task.run server fetchConfig w).2.store = { w.store with config := response.data }) ∧
    (∀ limit,
      server (requestsOf w.trace) (Operation.fetchMentions limit).ownRequest = .ok response →
      (response.data ≠ .null → response.data ≠ .undefined →
        ∃ items, response.data.getProp "mentions" = .ok items ∧
          (Task.run server (fetchMentions limit) w).1 = .ok response.data ∧
          (Task.run server (fetchMentions limit) w).2.store =
            { w.store with mentions := items }) ∧
      (response.data = .null ∨ response.data = .undefined →
        ∃ e, response.data.getProp "mentions" = .error e ∧
          (Task.run server (fetchMentions limit) w).1 = .error e ∧
          (Task.run server (fetchMentions limit) w).2.store = w.store ∧
          errorToastsOf (Task.run server (fetchMentions limit) w).2.trace =
            errorToastsOf w.trace ++ ["Failed to fetch mentions"])) ∧
    (∀ lines,
      server (requestsOf w.trace) (Operation.fetchLogs lines).ownRequest = .ok response →
      (response.data ≠ .null → response.data ≠ .undefined →
        ∃ items, response.data.getProp "logs" = .ok items ∧
          (Task.run server (fetchLogs lines) w).1 = .ok response.data ∧
          (Task.run server (fetchLogs lines) w).2.store = { w.store with logs := items }) ∧
      (response.data = .null ∨ response.data = .undefined →
        ∃ e, response.data.getProp "logs" = .error e ∧
          (Task.run server (fetchLogs lines) w).1 = .error e ∧
          (Task.run server (fetchLogs lines) w).2.store = w.store ∧
          errorToastsOf (Task.run server (fetchLogs lines) w).2.trace =
            errorToastsOf w.trace ++ ["Failed to fetch logs"])) := by
  refine ⟨fun h => ?_, fun h => ?_, fun limit h => ⟨fun h1 h2 => ?_, fun h1 => ?_⟩,
    fun lines h => ⟨fun h1 h2 => ?_, fun h1 => ?_⟩⟩
  · rw [run_fetchStatus]
    simp only [Operation.ownRequest] at h
    rw [h]; exact ⟨rfl, rfl⟩
  · rw [run_fetchConfig]
    simp only [Operation.ownRequest] at h
    rw [h]; exact ⟨rfl, rfl⟩
  · rcases hp : response.data.getProp "mentions" with e | items
    · exact absurd ((getProp_error_iff _ _).mp ⟨e, hp⟩) (by simp [h1, h2])
    · refine ⟨items, rfl, ?_⟩
      rw [run_fetchMentions, h]
      simp [hp, World.emit, Store.apply]
  · obtain ⟨e, hp⟩ := (getProp_error_iff response.data "mentions").mpr h1
    refine ⟨e, hp, ?_⟩
    rw [run_fetchMentions, h]
    simp [hp, World.emit, Store.apply, errorToastsOf]
  · rcases hp : response.data.getProp "logs" with e | items
    · exact absurd ((getProp_error_iff _ _).mp ⟨e, hp⟩) (by simp [h1, h2])
    · refine ⟨items, rfl, ?_⟩
      rw [run_fetchLogs, h]
      simp [hp, World.emit, Store.apply]
  · obtain ⟨e, hp⟩ := (getProp_error_iff response.data "logs").mpr h1
    refine ⟨e, hp, ?_⟩
    rw [run_fetchLogs, h]
    simp [hp, World.emit, Store.apply, errorToastsOf]

/-- C9, amended, at the specification's scenario: `fetchMentions(100)` answered with three
mentions, from a state holding five, leaves exactly those three in the mentions resource. -/
theorem fetch_success_replaces_resource_witness :
    scenarioServer (fun _ => false) (requestsOf [])
      (Operation.fetchMentions (.num 100)).ownRequest =
        .ok (cannedResponse ⟨.GET, "/api/mentions?limit=100", none⟩) ∧
    (∃ items, (cannedResponse ⟨.GET, "/api/mentions?limit=100", none⟩).data.getProp "mentions" =
        .ok items ∧
      (Task.run (scenarioServer fun _ => false) (fetchMentions (.num 100))
        ⟨storeWithFiveMentions, []⟩).1 =
        .ok (cannedResponse ⟨.GET, "/api/mentions?limit=100", none⟩).data ∧
      (Task.run (scenarioServer fun _ => false) (fetchMentions (.num 100))
        ⟨storeWithFiveMentions, []⟩).2.store =
        { storeWithFiveMentions with mentions := items }) ∧
    (Task.run (scenarioServer fun _ => false) (fetchMentions (.num 100))
        ⟨storeWithFiveMentions, []⟩).2.store.mentions =
      .arr [.obj [("person_name", .str "Ada")], .obj [("person_name", .str "Grace")],
        .obj [("person_name", .str "Edsger")]] ∧
    (Task.run (scenarioServer fun _ => false) (fetchMentions (.num 100))
        ⟨storeWithFiveMentions, []⟩).2.store.mentions.getProp "length" = .ok (.num 3) :=
  ⟨rfl,
    ((fetch_success_replaces_resource (scenarioServer fun _ => false)
      ⟨storeWithFiveMentions, []⟩
      (cannedResponse ⟨.GET, "/api/mentions?limit=100", none⟩)).2.2.1 (.num 100) rfl).1
        (by decide) (by decide),
    by decide, rfl⟩

/-- C10. When the request of a read-only fetch fails, the fetch fails with that same error and
the whole state (status, config, mentions, logs and loading) is unchanged. -/
theorem fetch_failure_leaves_state (op : Operation) (hread : op.isCommand = false)
    (server : Server) (w : World) (e : JsErr)
    (hfail : server (requestsOf w.trace) op.ownRequest = .error e) :
    (Task.run server op.task w).1 = .error e ∧ (Task.run server op.task w).2.store = w.store := by
  cases op <;> try (exact Bool.noConfusion hread)
  all_goals
    simp only [Operation.task, run_fetchStatus, run_fetchConfig, run_fetchMentions,
      run_fetchLogs]
  all_goals first
    | (simp only [Operation.ownRequest] at hfail; rw [hfail]; exact ⟨rfl, rfl⟩)
    | (rw [hfail]; exact ⟨rfl, rfl⟩)

/-- C10 at a concrete failure: `fetchLogs(100)` against a server that times out, from a state
holding five mentions and with a command in flight. -/
theorem fetch_failure_leaves_state_witness :
    (Operation.fetchLogs (.num 100)).isCommand = false ∧
    scenarioServer (fun _ => true) (requestsOf [])
      (Operation.fetchLogs (.num 100)).ownRequest = .error .timeout ∧
    (Task.run (scenarioServer fun _ => true) (Operation.fetchLogs (.num 100)).task
        ⟨{ storeWithFiveMentions with loading := true }, []⟩).1 = .error .timeout ∧
    (Task.run (scenarioServer fun _ => true) (Operation.fetchLogs (.num 100)).task
        ⟨{ storeWithFiveMentions with loading := true }, []⟩).2.store =
      { storeWithFiveMentions with loading := true } :=
  ⟨rfl, rfl, fetch_failure_leaves_state (.fetchLogs (.num 100)) rfl
    (scenarioServer fun _ => true) ⟨{ storeWithFiveMentions with loading := true }, []⟩
    .timeout rfl⟩

/-! ## The busy flag in a run of one command among read-only fetches -/

theorem quiet_pure {α : Type} (a : α) : Task.Quiet (pure a : Task α) := Task.Quiet.ret a

theorem quiet_throw {α : Type} (e : JsErr) : Task.Quiet (throw e : Task α) := Task.Quiet.throw e

theorem quiet_ofExcept {α : Type} (x : Except JsErr α) : Task.Quiet (Task.ofExcept x) := by
  cases x
  · exact Task.Quiet.throw _
  · exact Task.Quiet.ret _

theorem quiet_bind {α β : Type} {t : Task α} {f : α → Task β} (ht : Task.Quiet t)
    (hf : ∀ a, Task.Quiet (f a)) : Task.Quiet (t >>= f) := by
  induction ht with
  | ret a => exact hf a
  | throw e => exact Task.Quiet.throw e
  | eff ev next hev _ ih => exact Task.Quiet.eff ev _ hev ih
  | await r resume _ ih => exact Task.Quiet.await r _ ih

theorem quiet_tryCatch {α : Type} {t : Task α} {handler : JsErr → Task α}
    (ht : Task.Quiet t) (hh : ∀ e, Task.Quiet (handler e)) :
    Task.Quiet (tryCatch t handler) := by
  induction ht with
  | ret a => exact Task.Quiet.ret a
  | throw e => exact hh e
  | eff ev next hev _ ih => exact Task.Quiet.eff ev _ hev ih
  | await r resume _ ih => exact Task.Quiet.await r _ ih

theorem quiet_perform (ev : Event) (hev : ∀ b, ev ≠ .setLoading b) :
    Task.Quiet (Task.perform ev) :=
  Task.Quiet.eff ev _ hev (Task.Quiet.ret ())

theorem quiet_request (r : Request) : Task.Quiet (Task.await r Task.ofExcept) :=
  Task.Quiet.await r _ quiet_ofExcept

theorem quiet_fetchStatus : Task.Quiet fetchStatus := by
  unfold fetchStatus api.get setStatus console.error toast.error
  repeat' first
    | exact quiet_pure _
    | exact quiet_throw _
    | exact quiet_ofExcept _
    | exact quiet_request _
    | exact quiet_perform _ (by simp)
    | apply quiet_tryCatch
    | apply quiet_bind
    | intro _
    | split

theorem quiet_fetchConfig : Task.Quiet fetchConfig := by
  unfold fetchConfig api.get setConfig console.error toast.error
  repeat' first
    | exact quiet_pure _
    | exact quiet_throw _
    | exact quiet_ofExcept _
    | exact quiet_request _
    | exact quiet_perform _ (by simp)
    | apply quiet_tryCatch
    | apply quiet_bind
    | intro _
    | split

theorem quiet_fetchMentions (limit : JsVal) : Task.Quiet (fetchMentions limit) := by
  unfold fetchMentions api.get setMentions console.error toast.error
  repeat' first
    | exact quiet_pure _
    | exact quiet_throw _
    | exact quiet_ofExcept _
    | exact quiet_request _
    | exact quiet_perform _ (by simp)
    | apply quiet_tryCatch
    | apply quiet_bind
    | intro _
    | split

theorem quiet_fetchLogs (lines : JsVal) : Task.Quiet (fetchLogs lines) := by
  unfold fetchLogs api.get setLogs console.error toast.error
  repeat' first
    | exact quiet_pure _
    | exact quiet_throw _
    | exact quiet_ofExcept _
    | exact quiet_request _
    | exact quiet_perform _ (by simp)
    | apply quiet_tryCatch
    | apply quiet_bind
    | intro _
    | split

/-- No read-only fetch ever calls `setLoading`. -/
theorem quiet_of_fetch (op : Operation) (h : op.isCommand = false) : Task.Quiet op.task := by
  cases op <;> first
    | exact Bool.noConfusion h
    | exact quiet_fetchStatus
    | exact quiet_fetchConfig
    | exact quiet_fetchMentions _
    | exact quiet_fetchLogs _

theorem clearsBusy_finally {α β : Type} {t : Task α} (ht : Task.Quiet t) (post : α → Task β)
    (hpost : ∀ a, ∃ b, post a = pure b) :
    Task.ClearsBusy true (tryFinally t (setLoading false) >>= post) := by
  induction ht with
  | ret a =>
    obtain ⟨b, hb⟩ := hpost a
    show Task.ClearsBusy true (.eff (.setLoading false) (post a))
    rw [hb]
    exact Task.ClearsBusy.setLoading _ _ _ (Task.ClearsBusy.ret b)
  | throw e => exact Task.ClearsBusy.setLoading _ _ _ (Task.ClearsBusy.throw e)
  | eff ev next hev _ ih => exact Task.ClearsBusy.eff _ ev _ hev ih
  | await r resume _ ih => exact Task.ClearsBusy.await r _ ih

theorem clearsBusy_bracket {α β : Type} (rest : PUnit → Task α) (handler : JsErr → Task α)
    (post : α → Task β) (hrest : Task.Quiet (rest ⟨⟩)) (hh : ∀ e, Task.Quiet (handler e))
    (hpost : ∀ a, ∃ b, post a = pure b) (b : Bool) :
    Task.ClearsBusy b
      (tryFinally (tryCatch (setLoading true >>= rest) handler) (setLoading false) >>= post) :=
  Task.ClearsBusy.setLoading b true _ (clearsBusy_finally (quiet_tryCatch hrest hh) post hpost)

/-- Each of the five bracketed commands has `loading = true` at every suspension point and
`loading = false` when it resolves, whatever `loading` was when it was invoked. -/
theorem clearsBusy_of_command (op : Operation) (h : op.setsLoading = true) (b : Bool) :
    Task.ClearsBusy b op.task := by
  cases op <;> try (exact Bool.noConfusion h)
  all_goals
    simp only [Operation.task]
    first
      | unfold updateConfig
      | unfold startMonitoring
      | unfold stopMonitoring
      | unfold manualCheck
      | unfold runScraper
    refine clearsBusy_bracket _ _ _ ?_ ?_ ?_ b
  all_goals
    repeat' first
      | exact quiet_pure _
      | exact quiet_throw _
      | exact quiet_ofExcept _
      | exact quiet_request _
      | exact quiet_fetchStatus
      | exact quiet_fetchConfig
      | exact quiet_fetchMentions _
      | exact quiet_perform _ (by simp)
      | exact ⟨_, rfl⟩
      | apply quiet_tryCatch
      | apply quiet_bind
      | intro _
      | split

theorem advance_quiet {α : Type} {t : Task α} (ht : Task.Quiet t) (w : World) :
    (t.advance w).2.store.loading = w.store.loading ∧
      ∀ resume, (t.advance w).1 = .waiting resume → ∀ resp, Task.Quiet (resume resp) := by
  induction ht generalizing w with
  | ret a => exact ⟨rfl, fun _ h => by cases h⟩
  | throw e => exact ⟨rfl, fun _ h => by cases h⟩
  | eff ev next hev _ ih =>
    obtain ⟨h1, h2⟩ := ih (w.emit ev)
    refine ⟨h1.trans ?_, h2⟩
    cases ev <;> first
      | rfl
      | exact absurd rfl (hev _)
  | await r resume h _ =>
    refine ⟨rfl, fun k hk => ?_⟩
    cases hk
    exact h

theorem advance_clearsBusy {α : Type} {b : Bool} {t : Task α} (ht : Task.ClearsBusy b t)
    (w : World) (hw : w.store.loading = b) :
    (t.advance w).1.Bracketed (t.advance w).2.store.loading := by
  induction ht generalizing w with
  | ret a => exact hw
  | throw e => exact hw
  | setLoading b c next _ ih => exact ih (w.emit (.setLoading c)) rfl
  | eff b ev next hev _ ih =>
    refine ih (w.emit ev) ?_
    rw [← hw]
    cases ev <;> first
      | rfl
      | exact absurd rfl (hev _)
  | await r resume h _ => exact ⟨hw, h⟩

theorem resumeAt_quiet (resp : Except JsErr Response) (i : Nat) (w : World)
    (l : List (Except JsErr Response → Task JsVal))
    (hl : ∀ k ∈ l, ∀ r, Task.Quiet (k r)) :
    (resumeAt resp i w l).1.store.loading = w.store.loading ∧
      ∀ k ∈ (resumeAt resp i w l).2, ∀ r, Task.Quiet (k r) := by
  induction l generalizing i with
  | nil => cases i <;> exact ⟨rfl, hl⟩
  | cons k rest ih =>
    cases i with
    | zero =>
      obtain ⟨h1, h2⟩ := advance_quiet (hl k (List.mem_cons_self _ _) resp) w
      simp only [resumeAt]
      cases hst : ((k resp).advance w).1 with
      | finished out =>
        rw [show (k resp).advance w = (.finished out, ((k resp).advance w).2) from
          Prod.ext hst rfl]
        exact ⟨h1, fun k2 hk2 => hl k2 (List.mem_cons_of_mem _ hk2)⟩
      | waiting next =>
        rw [show (k resp).advance w = (.waiting next, ((k resp).advance w).2) from
          Prod.ext hst rfl]
        refine ⟨h1, fun k2 hk2 => ?_⟩
        rcases List.mem_cons.mp hk2 with rfl | hk2
        · exact h2 _ hst
        · exact hl k2 (List.mem_cons_of_mem _ hk2)
    | succ j =>
      obtain ⟨h1, h2⟩ := ih j fun k2 hk2 => hl k2 (List.mem_cons_of_mem _ hk2)
      refine ⟨h1, fun k2 hk2 => ?_⟩
      rcases List.mem_cons.mp hk2 with rfl | hk2
      · exact hl _ (List.mem_cons_self _ _)
      · exact h2 k2 hk2

theorem sound_after_command (s : Run) (hf : ∀ k ∈ s.fetches, ∀ r, Task.Quiet (k r))
    (t : Task JsVal)
    (h : (t.advance s.world).1.Bracketed (t.advance s.world).2.store.loading) :
    Run.Sound (match t.advance s.world with
      | (.waiting resume, w) => { s with world := w, command := .inFlight resume }
      | (.finished _, w) => { s with world := w, command := .resolved }) := by
  rcases hadv : t.advance s.world with ⟨st, w⟩
  rw [hadv] at h
  cases st with
  | finished out => exact ⟨hf, h⟩
  | waiting resume => exact ⟨hf, h⟩

theorem sound_step (cmd : Operation) (hcmd : cmd.setsLoading = true) (s : Run)
    (hs : s.Sound) (st : RunStep) : (Run.step cmd s st).Sound := by
  obtain ⟨hf, hc⟩ := hs
  cases st with
  | dispatch =>
    simp only [Run.step]
    split
    · next hidle =>
      rw [hidle] at hc
      exact sound_after_command s hf _
        (advance_clearsBusy (clearsBusy_of_command cmd hcmd false) s.world hc)
    · exact ⟨hf, hc⟩
  | reply resp =>
    simp only [Run.step]
    split
    · next resume hfl =>
      rw [hfl] at hc
      exact sound_after_command s hf _ (advance_clearsBusy (hc.2 resp) s.world hc.1)
    · exact ⟨hf, hc⟩
  | fetch op =>
    simp only [Run.step]
    split
    · exact ⟨hf, hc⟩
    · next hop =>
      have hq := advance_quiet (quiet_of_fetch op (by simpa using hop)) s.world
      rcases hadv : op.task.advance s.world with ⟨stage, w⟩
      rw [hadv] at hq
      obtain ⟨hload, hres⟩ := hq
      have hcmd2 : match s.command with
          | .inFlight resume =>
            w.store.loading = true ∧ ∀ resp, Task.ClearsBusy true (resume resp)
          | _ => w.store.loading = false := by
        simp only at hload
        cases hcs : s.command <;> rw [hcs] at hc <;> simp only [hload] <;> exact hc
      cases stage with
      | finished out => exact ⟨hf, hcmd2⟩
      | waiting resume =>
        refine ⟨fun k hk => ?_, hcmd2⟩
        rcases List.mem_append.mp hk with hk | hk
        · exact hf k hk
        · rw [List.mem_singleton.mp hk]
          exact hres resume rfl
  | fetchReply i resp =>
    obtain ⟨hload, hq⟩ := resumeAt_quiet resp i s.world s.fetches hf
    refine ⟨hq, ?_⟩
    show match s.command with
      | .inFlight resume =>
        (resumeAt resp i s.world s.fetches).1.store.loading = true ∧
          ∀ resp, Task.ClearsBusy true (resume resp)
      | _ => (resumeAt resp i s.world s.fetches).1.store.loading = false
    rw [hload]
    exact hc

theorem sound_foldl (cmd : Operation) (hcmd : cmd.setsLoading = true) (steps : List RunStep)
    (s : Run) (hs : s.Sound) : (steps.foldl (Run.step cmd) s).Sound := by
  induction steps generalizing s with
  | nil => exact hs
  | cons st rest ih => exact ih _ (sound_step cmd hcmd s hs st)

/-- The busy flag in every run of one bracketed command among read-only fetches: starting
from `loading = false`, after any sequence of steps `loading` is true exactly when the command
has been dispatched and has not resolved yet. -/
theorem busy_iff_command_in_flight (cmd : Operation) (hcmd : cmd.setsLoading = true)
    (store : Store) (hidle : store.loading = false) (tr : List Event)
    (steps : List RunStep) :
    (Run.exec cmd store tr steps).world.store.loading =
      (Run.exec cmd store tr steps).command.isInFlight := by
  have h := sound_foldl cmd hcmd steps
    { world := ⟨store, tr⟩, command := .idle, fetches := [] }
    ⟨fun _ hk => (by cases hk), hidle⟩
  obtain ⟨_, hc⟩ := h
  unfold Run.exec
  cases hcs : (steps.foldl (Run.step cmd)
    { world := ⟨store, tr⟩, command := .idle, fetches := [] }).command <;>
    rw [hcs] at hc
  · exact hc
  · exact hc.1
  · exact hc

/-! ## Frame of the read-only fetches -/

/-- C11. A read-only fetch is not gated by busy and touches only its own resource: run with
`loading = b`, for either value of `b`, it gives the result and the events (so the one
request) of the run from the given state, ends with `loading = b`, replaces its own resource
by the same value `v`, and leaves the other three resources as they were. -/
theorem fetches_touch_only_own_resource (server : Server) (s : Store) (tr : List Event)
    (b : Bool) :
    (∃ v, Task.run server fetchStatus ⟨{ s with loading := b }, tr⟩ =
        ((Task.run server fetchStatus ⟨s, tr⟩).1,
          ⟨{ s with status := v, loading := b }, (Task.run server fetchStatus ⟨s, tr⟩).2.trace⟩) ∧
      (Task.run server fetchStatus ⟨s, tr⟩).2.store = { s with status := v } ∧
      requestsOf (Task.run server fetchStatus ⟨s, tr⟩).2.trace =
        requestsOf tr ++ [⟨.GET, "/api/status", none⟩]) ∧
    (∃ v, Task.run server fetchConfig ⟨{ s with loading := b }, tr⟩ =
        ((Task.run server fetchConfig ⟨s, tr⟩).1,
          ⟨{ s with config := v, loading := b }, (Task.run server fetchConfig ⟨s, tr⟩).2.trace⟩) ∧
      (Task.run server fetchConfig ⟨s, tr⟩).2.store = { s with config := v } ∧
      requestsOf (Task.run server fetchConfig ⟨s, tr⟩).2.trace =
        requestsOf tr ++ [⟨.GET, "/api/config", none⟩]) ∧
    (∀ limit, ∃ v, Task.run server (fetchMentions limit) ⟨{ s with loading := b }, tr⟩ =
        ((Task.run server (fetchMentions limit) ⟨s, tr⟩).1,
          ⟨{ s with mentions := v, loading := b },
            (Task.run server (fetchMentions limit) ⟨s, tr⟩).2.trace⟩) ∧
      (Task.run server (fetchMentions limit) ⟨s, tr⟩).2.store = { s with mentions := v } ∧
      requestsOf (Task.run server (fetchMentions limit) ⟨s, tr⟩).2.trace =
        requestsOf tr ++ [(Operation.fetchMentions limit).ownRequest]) ∧
    (∀ lines, ∃ v, Task.run server (fetchLogs lines) ⟨{ s with loading := b }, tr⟩ =
        ((Task.run server (fetchLogs lines) ⟨s, tr⟩).1,
          ⟨{ s with logs := v, loading := b },
            (Task.run server (fetchLogs lines) ⟨s, tr⟩).2.trace⟩) ∧
      (Task.run server (fetchLogs lines) ⟨s, tr⟩).2.store = { s with logs := v } ∧
      requestsOf (Task.run server (fetchLogs lines) ⟨s, tr⟩).2.trace =
        requestsOf tr ++ [(Operation.fetchLogs lines).ownRequest]) := by
  refine ⟨?_, ?_, fun limit => ?_, fun lines => ?_⟩
  · simp only [run_fetchStatus]
    rcases server (requestsOf tr) ⟨.GET, "/api/status", none⟩ with e | response
    · exact ⟨s.status, rfl, rfl, by simp [requestsOf]⟩
    · exact ⟨response.data, rfl, rfl, by simp [requestsOf]⟩
  · simp only [run_fetchConfig]
    rcases server (requestsOf tr) ⟨.GET, "/api/config", none⟩ with e | response
    · exact ⟨s.config, rfl, rfl, by simp [requestsOf]⟩
    · exact ⟨response.data, rfl, rfl, by simp [requestsOf]⟩
  · simp only [run_fetchMentions]
    rcases server (requestsOf tr) (Operation.fetchMentions limit).ownRequest with e | response
    · exact ⟨s.mentions, rfl, rfl, by simp [requestsOf]⟩
    · dsimp only
      rcases response.data.getProp "mentions" with e | items
      · exact ⟨s.mentions, rfl, rfl, by simp [requestsOf]⟩
      · exact ⟨items, rfl, rfl, by simp [requestsOf]⟩
  · simp only [run_fetchLogs]
    rcases server (requestsOf tr) (Operation.fetchLogs lines).ownRequest with e | response
    · exact ⟨s.logs, rfl, rfl, by simp [requestsOf]⟩
    · dsimp only
      rcases response.data.getProp "logs" with e | items
      · exact ⟨s.logs, rfl, rfl, by simp [requestsOf]⟩
      · exact ⟨items, rfl, rfl, by simp [requestsOf]⟩

/-! ## Order of the dependent re-fetches -/

/-- The commands on their own. In every successful run of `manualCheck`, and of `runScraper`,
with no other operation in flight, the trace has one
replacement of mentions, and before it the POST was acknowledged, `GET /api/status` was issued
after that acknowledgement, and status was replaced by its response: the state reached just
before mentions is replaced has that response as status. No later event replaces status. -/
theorem status_replaced_before_mentions (server : Server) (w : World) :
    (∀ v, (Task.run server manualCheck w).1 = .ok v →
      ∃ response refreshed items before after,
        server (requestsOf w.trace) ⟨.POST, "/api/monitor/check", none⟩ = .ok response ∧
        server (requestsOf w.trace ++ [⟨.POST, "/api/monitor/check", none⟩])
          ⟨.GET, "/api/status", none⟩ = .ok refreshed ∧
        (Task.run server manualCheck w).2.trace =
          w.trace ++ before ++ .setMentions items :: after ∧
        .setStatus refreshed.data ∈ before ∧
        (∀ x, Event.setMentions x ∉ before ++ after) ∧
        (∀ x, Event.setStatus x ∉ after) ∧
        (before.foldl Store.apply w.store).status = refreshed.data ∧
        (Task.run server manualCheck w).2.store.status = refreshed.data ∧
        (Task.run server manualCheck w).2.store.mentions = items) ∧
    (∀ v, (Task.run server runScraper w).1 = .ok v →
      ∃ response refreshed items before after,
        server (requestsOf w.trace) ⟨.POST, "/api/scraper/run", none⟩ = .ok response ∧
        server (requestsOf w.trace ++ [⟨.POST, "/api/scraper/run", none⟩])
          ⟨.GET, "/api/status", none⟩ = .ok refreshed ∧
        (Task.run server runScraper w).2.trace =
          w.trace ++ before ++ .setMentions items :: after ∧
        .setStatus refreshed.data ∈ before ∧
        (∀ x, Event.setMentions x ∉ before ++ after) ∧
        (∀ x, Event.setStatus x ∉ after) ∧
        (before.foldl Store.apply w.store).status = refreshed.data ∧
        (Task.run server runScraper w).2.store.status = refreshed.data ∧
        (Task.run server runScraper w).2.store.mentions = items) := by
  constructor
  · intro v h
    rw [run_manualCheck] at h ⊢
    rcases h1 : server (requestsOf w.trace) ⟨.POST, "/api/monitor/check", none⟩ with
      e | response
    · simp [h1] at h
    rcases h2 : server (requestsOf w.trace ++ [⟨.POST, "/api/monitor/check", none⟩])
      ⟨.GET, "/api/status", none⟩ with e | refreshed
    · simp [h1, h2] at h
    rcases h3 : server (requestsOf w.trace ++ [⟨.POST, "/api/monitor/check", none⟩,
      ⟨.GET, "/api/status", none⟩]) ⟨.GET, "/api/mentions?limit=50", none⟩ with e | listed
    · simp [h1, h2, h3] at h
    rcases h4 : listed.data.getProp "mentions" with e | items
    · simp [h1, h2, h3, h4] at h
    rcases h5 : JsVal.getProp response.data "new_mentions" with e | count
    · simp [h1, h2, h3, h4, h5] at h
    refine ⟨response, refreshed, items,
      [.setLoading true, .request ⟨.POST, "/api/monitor/check", none⟩,
        .request ⟨.GET, "/api/status", none⟩, .setStatus refreshed.data,
        .request ⟨.GET, "/api/mentions?limit=50", none⟩],
      [.toastSuccess ("Manual check completed. Found " ++ count.toStr ++ " new mentions"),
        .setLoading false], ?_⟩
    simp [h1, h2, h3, h4, h5, Store.apply]
  · intro v h
    rw [run_runScraper] at h ⊢
    rcases h1 : server (requestsOf w.trace) ⟨.POST, "/api/scraper/run", none⟩ with
      e | response
    · simp [h1] at h
    rcases h2 : server (requestsOf w.trace ++ [⟨.POST, "/api/scraper/run", none⟩])
      ⟨.GET, "/api/status", none⟩ with e | refreshed
    · simp [h1, h2] at h
    rcases h3 : server (requestsOf w.trace ++ [⟨.POST, "/api/scraper/run", none⟩,
      ⟨.GET, "/api/status", none⟩]) ⟨.GET, "/api/mentions?limit=50", none⟩ with e | listed
    · simp [h1, h2, h3] at h
    rcases h4 : listed.data.getProp "mentions" with e | items
    · simp [h1, h2, h3, h4] at h
    rcases h5 : JsVal.getProp response.data "mentions" with e | found
    · simp [h1, h2, h3, h4, h5] at h
    rcases h6 : JsVal.getProp found "length" with e | length
    · simp [h1, h2, h3, h4, h5, h6] at h
    refine ⟨response, refreshed, items,
      [.setLoading true, .request ⟨.POST, "/api/scraper/run", none⟩,
        .request ⟨.GET, "/api/status", none⟩, .setStatus refreshed.data,
        .request ⟨.GET, "/api/mentions?limit=50", none⟩],
      [.toastSuccess ("Scraper completed. Found " ++ length.toStr ++ " mentions"),
        .setLoading false], ?_⟩
    simp [h1, h2, h3, h4, h5, h6, Store.apply]

/-- The same at a concrete successful run: `manualCheck` from the initial state against a server
that answers every request with its sample payload. -/
theorem status_replaced_before_mentions_witness :
    (Task.run (scenarioServer fun _ => false) manualCheck ⟨Store.initial, []⟩).1 =
      .ok (.obj [("new_mentions", .num 2)]) ∧
    ∃ response refreshed items before after,
      scenarioServer (fun _ => false) (requestsOf [])
        ⟨.POST, "/api/monitor/check", none⟩ = .ok response ∧
      scenarioServer (fun _ => false) (requestsOf [] ++ [⟨.POST, "/api/monitor/check", none⟩])
        ⟨.GET, "/api/status", none⟩ = .ok refreshed ∧
      (Task.run (scenarioServer fun _ => false) manualCheck ⟨Store.initial, []⟩).2.trace =
        [] ++ before ++ .setMentions items :: after ∧
      .setStatus refreshed.data ∈ before ∧
      (∀ x, Event.setMentions x ∉ before ++ after) ∧
      (∀ x, Event.setStatus x ∉ after) ∧
      (before.foldl Store.apply Store.initial).status = refreshed.data ∧
      (Task.run (scenarioServer fun _ => false) manualCheck
        ⟨Store.initial, []⟩).2.store.status = refreshed.data ∧
      (Task.run (scenarioServer fun _ => false) manualCheck
        ⟨Store.initial, []⟩).2.store.mentions = items :=
  ⟨rfl, (status_replaced_before_mentions (scenarioServer fun _ => false)
    ⟨Store.initial, []⟩).1 _ rfl⟩

/-- C13, as stated, fails: the POST of `manualCheck` is acknowledged, its status refresh times
out, and `GET /api/mentions` is never issued. -/
theorem manualCheck_skips_mentions_counterexample :
    scenarioServer (fun r => r.url = "/api/status") []
      ⟨.POST, "/api/monitor/check", none⟩ = .ok ⟨.obj [("new_mentions", .num 2)]⟩ ∧
    requestsOf (Task.run (scenarioServer fun r => r.url = "/api/status") manualCheck
        ⟨Store.initial, []⟩).2.trace =
      [⟨.POST, "/api/monitor/check", none⟩, ⟨.GET, "/api/status", none⟩] ∧
    (⟨.GET, "/api/mentions?limit=50", none⟩ : Request) ∉
      requestsOf (Task.run (scenarioServer fun r => r.url = "/api/status") manualCheck
        ⟨Store.initial, []⟩).2.trace :=
  ⟨rfl, by decide, by decide⟩

/-- C13, amended. Every operation first issues its own request and is suspended with that one
request in flight, so no re-fetch is issued before the acknowledgement. When its own request
fails, nothing more is issued. When it is acknowledged, the dependent re-fetches are issued
in program order, each awaited before the next: the first always, every further one only if
the one before it was answered with a response. -/
theorem refetches_issued_in_order (op : Operation) (server : Server) (w : World) :
    (op.task.advance w).1.isWaiting = true ∧
    requestsOf (op.task.advance w).2.trace = requestsOf w.trace ++ [op.ownRequest] ∧
    requestsOf (Task.run server op.task w).2.trace =
      requestsOf w.trace ++ op.ownRequest ::
        (match server (requestsOf w.trace) op.ownRequest with
          | .ok _ => issuedInOrder server (requestsOf w.trace ++ [op.ownRequest]) op.refetches
          | .error _ => []) := by
  refine ⟨?_, ?_, ?_⟩
  · cases op <;> rfl
  · cases op <;>
      first
        | (show requestsOf (w.trace ++ [_]) = _
           simp [requestsOf, Operation.ownRequest])
        | (show requestsOf ((w.trace ++ [_]) ++ [_]) = _
           simp [requestsOf, Operation.ownRequest])
  · cases op <;>
      simp only [Operation.task, run_fetchStatus, run_fetchConfig, run_fetchMentions,
        run_fetchLogs, run_updateConfig, run_startMonitoring, run_stopMonitoring,
        run_manualCheck, run_runScraper, run_clearMentions, Operation.ownRequest,
        Operation.refetches, issuedInOrder]
    all_goals
      repeat' split
    all_goals
      simp_all [requestsOf]

/-! ## updateConfig -/

/-- C14. When `POST /api/config` and the `GET /api/config` that follows both succeed,
`updateConfig(patch)` returns the payload of the POST response, has sent exactly `patch` as
the POST body (and then the GET, nothing else), and ends in the prior state with config
replaced by the payload of the GET response and `loading = false`. -/
theorem updateConfig_success (patch : JsVal) (server : Server) (w : World)
    (response fetched : Response)
    (hpost : server (requestsOf w.trace) ⟨.POST, "/api/config", some patch⟩ = .ok response)
    (hget : server (requestsOf w.trace ++ [⟨.POST, "/api/config", some patch⟩])
      ⟨.GET, "/api/config", none⟩ = .ok fetched) :
    (Task.run server (updateConfig patch) w).1 = .ok response.data ∧
    (Task.run server (updateConfig patch) w).2.store =
      { w.store with config := fetched.data, loading := false } ∧
    requestsOf (Task.run server (updateConfig patch) w).2.trace =
      requestsOf w.trace ++
        [⟨.POST, "/api/config", some patch⟩, ⟨.GET, "/api/config", none⟩] := by
  rw [run_updateConfig]
  simp [hpost, hget, requestsOf]

/-- C14 at the specification's form: the patch built from
`{search_terms: ["Acme"], check_interval: 30, max_results: 10}` with blank secrets, sent from
a state holding five mentions to a server that answers with its sample payloads. -/
theorem updateConfig_success_witness :
    (Task.run (scenarioServer fun _ => false)
        (updateConfig (configToUpdate ⟨.arr [.str "Acme"], .num 30, .num 10, "", ""⟩))
        ⟨storeWithFiveMentions, []⟩).1 = .ok (.obj [("message", .str "ok")]) ∧
    (Task.run (scenarioServer fun _ => false)
        (updateConfig (configToUpdate ⟨.arr [.str "Acme"], .num 30, .num 10, "", ""⟩))
        ⟨storeWithFiveMentions, []⟩).2.store =
      { storeWithFiveMentions with
        config := (cannedResponse ⟨.GET, "/api/config", none⟩).data, loading := false } ∧
    requestsOf (Task.run (scenarioServer fun _ => false)
        (updateConfig (configToUpdate ⟨.arr [.str "Acme"], .num 30, .num 10, "", ""⟩))
        ⟨storeWithFiveMentions, []⟩).2.trace =
      requestsOf [] ++
        [⟨.POST, "/api/config",
            some (configToUpdate ⟨.arr [.str "Acme"], .num 30, .num 10, "", ""⟩)⟩,
          ⟨.GET, "/api/config", none⟩] :=
  updateConfig_success (configToUpdate ⟨.arr [.str "Acme"], .num 30, .num 10, "", ""⟩)
    (scenarioServer fun _ => false) ⟨storeWithFiveMentions, []⟩
    (cannedResponse ⟨.POST, "/api/config",
      some (configToUpdate ⟨.arr [.str "Acme"], .num 30, .num 10, "", ""⟩)⟩)
    (cannedResponse ⟨.GET, "/api/config", none⟩) rfl rfl

/-- C15. When `updateConfig(patch)` fails, because the POST is rejected or because the POST is
acknowledged and the `GET /api/config` that follows is rejected, the caller gets that same
error and the state is the prior state with `loading = false`: status, config, mentions and
logs are unchanged. -/
theorem updateConfig_failure (patch : JsVal) (server : Server) (w : World) (e : JsErr)
    (hfail : server (requestsOf w.trace) ⟨.POST, "/api/config", some patch⟩ = .error e ∨
      ((∃ response,
          server (requestsOf w.trace) ⟨.POST, "/api/config", some patch⟩ = .ok response) ∧
        server (requestsOf w.trace ++ [⟨.POST, "/api/config", some patch⟩])
          ⟨.GET, "/api/config", none⟩ = .error e)) :
    (Task.run server (updateConfig patch) w).1 = .error e ∧
    (Task.run server (updateConfig patch) w).2.store = { w.store with loading := false } := by
  rw [run_updateConfig]
  rcases hfail with hpost | ⟨⟨response, hpost⟩, hget⟩
  · simp [hpost]
  · simp [hpost, hget]

/-- C15 at a concrete failure of the second kind: the POST is acknowledged and
`GET /api/config` times out, with a command flag already raised. -/
theorem updateConfig_failure_witness :
    (Task.run (scenarioServer fun r => r.method = .GET)
        (updateConfig (configToUpdate ⟨.arr [.str "Acme"], .num 30, .num 10, "", ""⟩))
        ⟨{ storeWithFiveMentions with loading := true }, []⟩).1 = .error .timeout ∧
    (Task.run (scenarioServer fun r => r.method = .GET)
        (updateConfig (configToUpdate ⟨.arr [.str "Acme"], .num 30, .num 10, "", ""⟩))
        ⟨{ storeWithFiveMentions with loading := true }, []⟩).2.store =
      { ({ storeWithFiveMentions with loading := true } : Store) with loading := false } :=
  updateConfig_failure (configToUpdate ⟨.arr [.str "Acme"], .num 30, .num 10, "", ""⟩)
    (scenarioServer fun r => r.method = .GET)
    ⟨{ storeWithFiveMentions with loading := true }, []⟩ .timeout
    (Or.inr ⟨⟨_, rfl⟩, rfl⟩)

/-! ## Secrets and the state -/

/-- C16, as stated, fails: against a server that returns the stored configuration verbatim,
`updateConfig` with `serpapi_key: "sk-live-123"` succeeds and the config resource then holds
that key under `serpapi_key`. -/
theorem updateConfig_secret_echo_counterexample :
    (Task.run echoingServer
        (updateConfig (configToUpdate ⟨.arr [.str "Acme"], .num 30, .num 10, "sk-live-123", ""⟩))
        ⟨Store.initial, []⟩).1 = .ok (.obj [("message", .str "ok")]) ∧
    (Task.run echoingServer
        (updateConfig (configToUpdate ⟨.arr [.str "Acme"], .num 30, .num 10, "sk-live-123", ""⟩))
        ⟨Store.initial, []⟩).2.store.config.getProp "serpapi_key" = .ok (.str "sk-live-123") ∧
    (Task.run echoingServer
        (updateConfig (configToUpdate ⟨.arr [.str "Acme"], .num 30, .num 10, "sk-live-123", ""⟩))
        ⟨Store.initial, []⟩).2.store.config.holdsString "sk-live-123" = true ∧
    (Task.run echoingServer
        (updateConfig (configToUpdate ⟨.arr [.str "Acme"], .num 30, .num 10, "sk-live-123", ""⟩))
        ⟨Store.initial, []⟩).2.store.config.hasSecretKey = true :=
  ⟨rfl, rfl, by decide, by decide⟩

/-- C16, amended. After `updateConfig({..., serpapi_key: X})` has succeeded, the config
resource is exactly the payload of the `GET /api/config` response; nothing of the patch is
stored. So it holds `X`, or a `serpapi_key` / `slack_webhook_url` property, only if that
response does. -/
theorem updateConfig_stores_only_server_config (x : String) (base : JsVal) (server : Server)
    (w : World) (response fetched : Response)
    (hpost : server (requestsOf w.trace)
      ⟨.POST, "/api/config", some (base.setProp "serpapi_key" (.str x))⟩ = .ok response)
    (hget : server
      (requestsOf w.trace ++
        [⟨.POST, "/api/config", some (base.setProp "serpapi_key" (.str x))⟩])
      ⟨.GET, "/api/config", none⟩ = .ok fetched) :
    (Task.run server (updateConfig (base.setProp "serpapi_key" (.str x))) w).2.store.config =
      fetched.data ∧
    (fetched.data.holdsString x = false →
      (Task.run server (updateConfig (base.setProp "serpapi_key" (.str x)))
        w).2.store.config.holdsString x = false) ∧
    (fetched.data.hasSecretKey = false →
      (Task.run server (updateConfig (base.setProp "serpapi_key" (.str x)))
        w).2.store.config.hasSecretKey = false) := by
  have h : (Task.run server (updateConfig (base.setProp "serpapi_key" (.str x)))
      w).2.store.config = fetched.data := by
    rw [run_updateConfig]
    simp [hpost, hget]
  rw [h]
  exact ⟨rfl, id, id⟩

/-- C16, amended, against a server that answers `GET /api/config` with presence flags only:
the key sent is not in the config resource, and no secret property is. -/
theorem updateConfig_stores_only_server_config_witness :
    (Task.run (scenarioServer fun _ => false)
        (updateConfig ((JsVal.obj [("search_terms", .arr [.str "Acme"])]).setProp
          "serpapi_key" (.str "sk-live-123")))
        ⟨Store.initial, []⟩).2.store.config =
      (cannedResponse ⟨.GET, "/api/config", none⟩).data ∧
    (Task.run (scenarioServer fun _ => false)
        (updateConfig ((JsVal.obj [("search_terms", .arr [.str "Acme"])]).setProp
          "serpapi_key" (.str "sk-live-123")))
        ⟨Store.initial, []⟩).2.store.config.holdsString "sk-live-123" = false ∧
    (Task.run (scenarioServer fun _ => false)
        (updateConfig ((JsVal.obj [("search_terms", .arr [.str "Acme"])]).setProp
          "serpapi_key" (.str "sk-live-123")))
        ⟨Store.initial, []⟩).2.store.config.hasSecretKey = false :=
  have h := updateConfig_stores_only_server_config "sk-live-123"
    (.obj [("search_terms", .arr [.str "Acme"])]) (scenarioServer fun _ => false)
    ⟨Store.initial, []⟩ (cannedResponse ⟨.POST, "/api/config", none⟩)
    (cannedResponse ⟨.GET, "/api/config", none⟩) rfl rfl
  ⟨h.1, h.2.1 (by decide), h.2.2 (by decide)⟩

/-- C17. The drafted secret does not flow into the state: two calls `updateConfig(p1)` and
`updateConfig(p2)` from the same state whose two requests get the same answers return the
same result and end in the same state (status, config, mentions, logs and loading). -/
theorem updateConfig_state_independent_of_patch (p1 p2 : JsVal) (server1 server2 : Server)
    (w : World)
    (hpost : server1 (requestsOf w.trace) ⟨.POST, "/api/config", some p1⟩ =
      server2 (requestsOf w.trace) ⟨.POST, "/api/config", some p2⟩)
    (hget : server1 (requestsOf w.trace ++ [⟨.POST, "/api/config", some p1⟩])
        ⟨.GET, "/api/config", none⟩ =
      server2 (requestsOf w.trace ++ [⟨.POST, "/api/config", some p2⟩])
        ⟨.GET, "/api/config", none⟩) :
    (Task.run server1 (updateConfig p1) w).1 = (Task.run server2 (updateConfig p2) w).1 ∧
    (Task.run server1 (updateConfig p1) w).2.store =
      (Task.run server2 (updateConfig p2) w).2.store := by
  rcases hp : server2 (requestsOf w.trace) ⟨.POST, "/api/config", some p2⟩ with e | response
  · simp [run_updateConfig, hpost, hp]
  · rcases hg : server2 (requestsOf w.trace ++ [⟨.POST, "/api/config", some p2⟩])
      ⟨.GET, "/api/config", none⟩ with e | fetched
    · simp [run_updateConfig, hpost, hget, hp, hg]
    · simp [run_updateConfig, hpost, hget, hp, hg]

/-- C17 for two submissions of the form that differ only in the drafted `serpapi_key`. -/
theorem updateConfig_state_independent_of_patch_witness :
    configToUpdate ⟨.arr [.str "Acme"], .num 30, .num 10, "sk-live-123", ""⟩ ≠
      configToUpdate ⟨.arr [.str "Acme"], .num 30, .num 10, "sk-other-456", ""⟩ ∧
    (Task.run (scenarioServer fun _ => false)
        (updateConfig (configToUpdate ⟨.arr [.str "Acme"], .num 30, .num 10, "sk-live-123", ""⟩))
        ⟨storeWithFiveMentions, []⟩).2.store =
      (Task.run (scenarioServer fun _ => false)
        (updateConfig (configToUpdate ⟨.arr [.str "Acme"], .num 30, .num 10, "sk-other-456", ""⟩))
        ⟨storeWithFiveMentions, []⟩).2.store :=
  ⟨by decide,
    (updateConfig_state_independent_of_patch
      (configToUpdate ⟨.arr [.str "Acme"], .num 30, .num 10, "sk-live-123", ""⟩)
      (configToUpdate ⟨.arr [.str "Acme"], .num 30, .num 10, "sk-other-456", ""⟩)
      (scenarioServer fun _ => false) (scenarioServer fun _ => false)
      ⟨storeWithFiveMentions, []⟩ rfl rfl).2⟩

/-! ## startMonitoring, stopMonitoring and clearMentions -/

/-- C18. Whatever the prior state (in particular whatever `is_running` was), when the POST
and the `GET /api/status` that follows both succeed, `startMonitoring` (and likewise
`stopMonitoring`) has sent both requests, returns the payload of the POST response and ends
in the prior state with status replaced by the payload of the GET response and
`loading = false`: config, mentions and logs are unchanged. -/
theorem start_stop_success (server : Server) (w : World) (response refreshed : Response) :
    (server (requestsOf w.trace) ⟨.POST, "/api/monitor/start", none⟩ = .ok response →
      server (requestsOf w.trace ++ [⟨.POST, "/api/monitor/start", none⟩])
        ⟨.GET, "/api/status", none⟩ = .ok refreshed →
      (Task.run server startMonitoring w).1 = .ok response.data ∧
      (Task.run server startMonitoring w).2.store =
        { w.store with status := refreshed.data, loading := false } ∧
      requestsOf (Task.run server startMonitoring w).2.trace =
        requestsOf w.trace ++
          [⟨.POST, "/api/monitor/start", none⟩, ⟨.GET, "/api/status", none⟩]) ∧
    (server (requestsOf w.trace) ⟨.POST, "/api/monitor/stop", none⟩ = .ok response →
      server (requestsOf w.trace ++ [⟨.POST, "/api/monitor/stop", none⟩])
        ⟨.GET, "/api/status", none⟩ = .ok refreshed →
      (Task.run server stopMonitoring w).1 = .ok response.data ∧
      (Task.run server stopMonitoring w).2.store =
        { w.store with status := refreshed.data, loading := false } ∧
      requestsOf (Task.run server stopMonitoring w).2.trace =
        requestsOf w.trace ++
          [⟨.POST, "/api/monitor/stop", none⟩, ⟨.GET, "/api/status", none⟩]) := by
  constructor
  · intro hpost hget
    rw [run_startMonitoring]
    simp [hpost, hget, requestsOf]
  · intro hpost hget
    rw [run_stopMonitoring]
    simp [hpost, hget, requestsOf]

/-- C18 with monitoring already running: `startMonitoring` is sent all the same, succeeds,
and status becomes the payload of the refresh. -/
theorem start_stop_success_witness :
    storeMonitoringRunning.status.getProp "is_running" = .ok (.bool true) ∧
    (Task.run (scenarioServer fun _ => false) startMonitoring
        ⟨storeMonitoringRunning, []⟩).1 = .ok (.obj [("message", .str "ok")]) ∧
    (Task.run (scenarioServer fun _ => false) startMonitoring
        ⟨storeMonitoringRunning, []⟩).2.store =
      { storeMonitoringRunning with
        status := (cannedResponse ⟨.GET, "/api/status", none⟩).data, loading := false } ∧
    requestsOf (Task.run (scenarioServer fun _ => false) startMonitoring
        ⟨storeMonitoringRunning, []⟩).2.trace =
      requestsOf [] ++ [⟨.POST, "/api/monitor/start", none⟩, ⟨.GET, "/api/status", none⟩] :=
  ⟨rfl, (start_stop_success (scenarioServer fun _ => false) ⟨storeMonitoringRunning, []⟩
    (cannedResponse ⟨.POST, "/api/monitor/start", none⟩)
    (cannedResponse ⟨.GET, "/api/status", none⟩)).1 rfl rfl⟩

/-- C19. When `DELETE /api/mentions` succeeds, the first thing `clearMentions` does is set
mentions to the empty list, and the next is to issue `GET /api/status`; these two are its only
requests, so no `GET /api/mentions` is issued. Mentions is empty at the end, and when the
status request is answered, status is its payload and the call returns the payload of the
DELETE response. -/
theorem clearMentions_empties_locally (server : Server) (w : World) (response : Response)
    (hdel : server (requestsOf w.trace) ⟨.DELETE, "/api/mentions", none⟩ = .ok response) :
    (∃ rest, (Task.run server clearMentions w).2.trace =
      w.trace ++ [.request ⟨.DELETE, "/api/mentions", none⟩, .setMentions (.arr []),
        .request ⟨.GET, "/api/status", none⟩] ++ rest) ∧
    requestsOf (Task.run server clearMentions w).2.trace =
      requestsOf w.trace ++ [⟨.DELETE, "/api/mentions", none⟩, ⟨.GET, "/api/status", none⟩] ∧
    (Task.run server clearMentions w).2.store.mentions = .arr [] ∧
    ∀ refreshed,
      server (requestsOf w.trace ++ [⟨.DELETE, "/api/mentions", none⟩])
        ⟨.GET, "/api/status", none⟩ = .ok refreshed →
      (Task.run server clearMentions w).1 = .ok response.data ∧
      (Task.run server clearMentions w).2.store =
        { w.store with status := refreshed.data, mentions := .arr [] } := by
  rw [run_clearMentions]
  rcases hs : server (requestsOf w.trace ++ [⟨.DELETE, "/api/mentions", none⟩])
    ⟨.GET, "/api/status", none⟩ with e | refreshed
  · simp [hdel, hs, requestsOf]
  · simp [hdel, hs, requestsOf]

/-- C19 from a state holding five mentions. -/
theorem clearMentions_empties_locally_witness :
    (∃ rest, (Task.run (scenarioServer fun _ => false) clearMentions
        ⟨storeWithFiveMentions, []⟩).2.trace =
      [] ++ [.request ⟨.DELETE, "/api/mentions", none⟩, .setMentions (.arr []),
        .request ⟨.GET, "/api/status", none⟩] ++ rest) ∧
    requestsOf (Task.run (scenarioServer fun _ => false) clearMentions
        ⟨storeWithFiveMentions, []⟩).2.trace =
      requestsOf [] ++ [⟨.DELETE, "/api/mentions", none⟩, ⟨.GET, "/api/status", none⟩] ∧
    (Task.run (scenarioServer fun _ => false) clearMentions
        ⟨storeWithFiveMentions, []⟩).2.store.mentions = .arr [] ∧
    ∀ refreshed,
      scenarioServer (fun _ => false) (requestsOf [] ++ [⟨.DELETE, "/api/mentions", none⟩])
        ⟨.GET, "/api/status", none⟩ = .ok refreshed →
      (Task.run (scenarioServer fun _ => false) clearMentions
          ⟨storeWithFiveMentions, []⟩).1 =
        .ok (cannedResponse ⟨.DELETE, "/api/mentions", none⟩).data ∧
      (Task.run (scenarioServer fun _ => false) clearMentions
          ⟨storeWithFiveMentions, []⟩).2.store =
        { storeWithFiveMentions with status := refreshed.data, mentions := .arr [] } :=
  clearMentions_empties_locally (scenarioServer fun _ => false) ⟨storeWithFiveMentions, []⟩
    (cannedResponse ⟨.DELETE, "/api/mentions", none⟩) rfl

/-- C20, as stated, fails: the server acknowledges both `DELETE /api/mentions` but times out
on `GET /api/status`. Mentions is empty after the first call and after the second, yet the
second call (like the first) ends with the error of its status refresh. -/
theorem clearMentions_refresh_fails_counterexample :
    scenarioServer (fun r => r.url = "/api/status") (requestsOf [])
      ⟨.DELETE, "/api/mentions", none⟩ = .ok ⟨.obj [("message", .str "ok")]⟩ ∧
    scenarioServer (fun r => r.url = "/api/status")
      [⟨.DELETE, "/api/mentions", none⟩, ⟨.GET, "/api/status", none⟩]
      ⟨.DELETE, "/api/mentions", none⟩ = .ok ⟨.obj [("message", .str "ok")]⟩ ∧
    (Task.run (scenarioServer fun r => r.url = "/api/status") clearMentions
      ⟨storeWithFiveMentions, []⟩).2.store.mentions = .arr [] ∧
    (Task.run (scenarioServer fun r => r.url = "/api/status") clearMentions
      (Task.run (scenarioServer fun r => r.url = "/api/status") clearMentions
        ⟨storeWithFiveMentions, []⟩).2).1 = .error .timeout ∧
    (Task.run (scenarioServer fun r => r.url = "/api/status") clearMentions
      (Task.run (scenarioServer fun r => r.url = "/api/status") clearMentions
        ⟨storeWithFiveMentions, []⟩).2).2.store.mentions = .arr [] :=
  ⟨rfl, rfl, by decide, rfl, by decide⟩

/-- C20, amended. Two calls of `clearMentions` in a row, the second from the state and trace
the first left, against a server that acknowledges both DELETEs: mentions is the empty list
after the first call and after the second, whatever it held before and whatever becomes of
the status refreshes, and the two calls issue DELETE, GET /api/status, DELETE,
GET /api/status. The second call returns without error exactly when its status refresh is
answered; when that request fails, the call fails with its error. -/
theorem clearMentions_twice (server : Server) (w : World) (ack1 ack2 : Response)
    (hd1 : server (requestsOf w.trace) ⟨.DELETE, "/api/mentions", none⟩ = .ok ack1)
    (hd2 : server
      (requestsOf w.trace ++ [⟨.DELETE, "/api/mentions", none⟩, ⟨.GET, "/api/status", none⟩])
      ⟨.DELETE, "/api/mentions", none⟩ = .ok ack2) :
    (Task.run server clearMentions w).2.store.mentions = .arr [] ∧
    (Task.run server clearMentions (Task.run server clearMentions w).2).2.store.mentions =
      .arr [] ∧
    requestsOf (Task.run server clearMentions (Task.run server clearMentions w).2).2.trace =
      requestsOf w.trace ++ [⟨.DELETE, "/api/mentions", none⟩, ⟨.GET, "/api/status", none⟩,
        ⟨.DELETE, "/api/mentions", none⟩, ⟨.GET, "/api/status", none⟩] ∧
    (∀ status2, server
        (requestsOf w.trace ++ [⟨.DELETE, "/api/mentions", none⟩, ⟨.GET, "/api/status", none⟩,
          ⟨.DELETE, "/api/mentions", none⟩])
        ⟨.GET, "/api/status", none⟩ = .ok status2 →
      (Task.run server clearMentions (Task.run server clearMentions w).2).1 = .ok ack2.data ∧
      (Task.run server clearMentions (Task.run server clearMentions w).2).2.store.status =
        status2.data) ∧
    (∀ e, server
        (requestsOf w.trace ++ [⟨.DELETE, "/api/mentions", none⟩, ⟨.GET, "/api/status", none⟩,
          ⟨.DELETE, "/api/mentions", none⟩])
        ⟨.GET, "/api/status", none⟩ = .error e →
      (Task.run server clearMentions (Task.run server clearMentions w).2).1 = .error e) := by
  have h1 : (Task.run server clearMentions w).2.store.mentions = .arr [] ∧
      requestsOf (Task.run server clearMentions w).2.trace =
        requestsOf w.trace ++ [⟨.DELETE, "/api/mentions", none⟩,
          ⟨.GET, "/api/status", none⟩] := by
    rw [run_clearMentions]
    rcases hs1 : server (requestsOf w.trace ++ [⟨.DELETE, "/api/mentions", none⟩])
      ⟨.GET, "/api/status", none⟩ with e | status1
    · simp [hd1, hs1, requestsOf]
    · simp [hd1, hs1, requestsOf]
  obtain ⟨h1m, h1r⟩ := h1
  refine ⟨h1m, ?_⟩
  rw [run_clearMentions (w := (Task.run server clearMentions w).2), h1r]
  simp only [List.append_assoc, List.cons_append, List.nil_append] at hd2 ⊢
  rcases hs2 : server
      (requestsOf w.trace ++ [⟨.DELETE, "/api/mentions", none⟩, ⟨.GET, "/api/status", none⟩,
        ⟨.DELETE, "/api/mentions", none⟩])
      ⟨.GET, "/api/status", none⟩ with e | status2
  · simp [hd2, hs2, requestsOf, h1r]
  · simp [hd2, hs2, requestsOf, h1r]

/-- C20, amended, against a server that answers everything, from a state holding five
mentions and from the initial state, whose mention list is empty. -/
theorem clearMentions_twice_witness :
    ((Task.run (scenarioServer fun _ => false) clearMentions
        ⟨storeWithFiveMentions, []⟩).2.store.mentions = .arr [] ∧
      (Task.run (scenarioServer fun _ => false) clearMentions
        (Task.run (scenarioServer fun _ => false) clearMentions
          ⟨storeWithFiveMentions, []⟩).2).1 = .ok (.obj [("message", .str "ok")]) ∧
      (Task.run (scenarioServer fun _ => false) clearMentions
        (Task.run (scenarioServer fun _ => false) clearMentions
          ⟨storeWithFiveMentions, []⟩).2).2.store.mentions = .arr []) ∧
    ((Task.run (scenarioServer fun _ => false) clearMentions
        ⟨Store.initial, []⟩).2.store.mentions = .arr [] ∧
      (Task.run (scenarioServer fun _ => false) clearMentions
        (Task.run (scenarioServer fun _ => false) clearMentions
          ⟨Store.initial, []⟩).2).1 = .ok (.obj [("message", .str "ok")]) ∧
      (Task.run (scenarioServer fun _ => false) clearMentions
        (Task.run (scenarioServer fun _ => false) clearMentions
          ⟨Store.initial, []⟩).2).2.store.mentions = .arr []) :=
  have h1 := clearMentions_twice (scenarioServer fun _ => false) ⟨storeWithFiveMentions, []⟩
    (cannedResponse ⟨.DELETE, "/api/mentions", none⟩)
    (cannedResponse ⟨.DELETE, "/api/mentions", none⟩) rfl rfl
  have h2 := clearMentions_twice (scenarioServer fun _ => false) ⟨Store.initial, []⟩
    (cannedResponse ⟨.DELETE, "/api/mentions", none⟩)
    (cannedResponse ⟨.DELETE, "/api/mentions", none⟩) rfl rfl
  ⟨⟨h1.1, (h1.2.2.2.1 (cannedResponse ⟨.GET, "/api/status", none⟩) rfl).1, h1.2.1⟩,
    ⟨h2.1, (h2.2.2.2.1 (cannedResponse ⟨.GET, "/api/status", none⟩) rfl).1, h2.2.1⟩⟩

/-! ## The result of manualCheck, the poll tick, retries -/

/-- C21. When `manualCheck` succeeds, the value it returns is the payload of the response to
`POST /api/monitor/check`, and its success notification is built from the `new_mentions`
property of that same payload; the payloads of the two re-fetches only go into status and
mentions. -/
theorem manualCheck_returns_check_payload (server : Server) (w : World) (v : JsVal)
    (hok : (Task.run server manualCheck w).1 = .ok v) :
    ∃ response count,
      server (requestsOf w.trace) ⟨.POST, "/api/monitor/check", none⟩ = .ok response ∧
      v = response.data ∧
      response.data.getProp "new_mentions" = .ok count ∧
      .toastSuccess ("Manual check completed. Found " ++ count.toStr ++ " new mentions") ∈
        (Task.run server manualCheck w).2.trace ∧
      errorToastsOf (Task.run server manualCheck w).2.trace = errorToastsOf w.trace := by
  rw [run_manualCheck] at hok ⊢
  rcases h1 : server (requestsOf w.trace) ⟨.POST, "/api/monitor/check", none⟩ with
    e | response
  · simp [h1] at hok
  rcases h2 : server (requestsOf w.trace ++ [⟨.POST, "/api/monitor/check", none⟩])
    ⟨.GET, "/api/status", none⟩ with e | refreshed
  · simp [h1, h2] at hok
  rcases h3 : server (requestsOf w.trace ++ [⟨.POST, "/api/monitor/check", none⟩,
    ⟨.GET, "/api/status", none⟩]) ⟨.GET, "/api/mentions?limit=50", none⟩ with e | listed
  · simp [h1, h2, h3] at hok
  rcases h4 : listed.data.getProp "mentions" with e | items
  · simp [h1, h2, h3, h4] at hok
  rcases h5 : JsVal.getProp response.data "new_mentions" with e | count
  · simp [h1, h2, h3, h4, h5] at hok
  refine ⟨response, count, ?_⟩
  simp [h1, h2, h3, h4, h5] at hok
  subst hok
  simp [h1, h2, h3, h4, h5, errorToastsOf]

/-- C21 against the sample server: the check found two mentions although the re-fetched
mention list has two other entries and the status reports three in total. -/
theorem manualCheck_returns_check_payload_witness :
    (Task.run (scenarioServer fun _ => false) manualCheck ⟨Store.initial, []⟩).1 =
      .ok (.obj [("new_mentions", .num 2)]) ∧
    .toastSuccess "Manual check completed. Found 2 new mentions" ∈
      (Task.run (scenarioServer fun _ => false) manualCheck ⟨Store.initial, []⟩).2.trace ∧
    ∃ response count,
      scenarioServer (fun _ => false) (requestsOf [])
        ⟨.POST, "/api/monitor/check", none⟩ = .ok response ∧
      JsVal.obj [("new_mentions", .num 2)] = response.data ∧
      response.data.getProp "new_mentions" = .ok count ∧
      .toastSuccess ("Manual check completed. Found " ++ count.toStr ++ " new mentions") ∈
        (Task.run (scenarioServer fun _ => false) manualCheck ⟨Store.initial, []⟩).2.trace ∧
      errorToastsOf (Task.run (scenarioServer fun _ => false) manualCheck
        ⟨Store.initial, []⟩).2.trace = errorToastsOf [] :=
  ⟨rfl, by decide,
    manualCheck_returns_check_payload (scenarioServer fun _ => false) ⟨Store.initial, []⟩
      (.obj [("new_mentions", .num 2)]) rfl⟩

theorem run_pollTick (server : Server) (w : World) :
    Task.run server pollTick w =
      match server (requestsOf w.trace) ⟨.GET, "/api/status", none⟩ with
      | .ok response =>
        (.ok response.data, ⟨{ w.store with status := response.data },
          w.trace ++ [.request ⟨.GET, "/api/status", none⟩, .setStatus response.data]⟩)
      | .error error =>
        (.ok .undefined, ⟨w.store,
          w.trace ++ [.request ⟨.GET, "/api/status", none⟩,
            .consoleError "Error fetching status:" error,
            .toastError "Failed to fetch status", .consoleError "" error]⟩) := by
  rcases h : server (requestsOf w.trace) ⟨.GET, "/api/status", none⟩ with e | response
  · simp [pollTick, console.errorBare, run_fetchStatus, h, World.emit, Store.apply]
  · simp [pollTick, console.errorBare, run_fetchStatus, h, World.emit, Store.apply]

/-- C22. One tick of the background poll, from any state (busy or not): it issues the single
request `GET /api/status`, ends in the state one `fetchStatus()` call ends in, which is the
prior state with at most `status` replaced (`loading`, config, mentions and logs are the
prior ones), shows the notifications of that call, differs in its effects only by the console
message of `.catch(console.error)` after a failure, and never rejects. -/
theorem pollTick_is_one_fetchStatus (server : Server) (w : World) :
    requestsOf (Task.run server pollTick w).2.trace =
      requestsOf w.trace ++ [⟨.GET, "/api/status", none⟩] ∧
    (Task.run server pollTick w).2.store = (Task.run server fetchStatus w).2.store ∧
    (∃ v, (Task.run server pollTick w).2.store = { w.store with status := v }) ∧
    (Task.run server pollTick w).2.trace =
      (Task.run server fetchStatus w).2.trace ++
        (match (Task.run server fetchStatus w).1 with
          | .ok _ => []
          | .error e => [.consoleError "" e]) ∧
    (pollTick.advance w).2 = (fetchStatus.advance w).2 ∧
    (∃ v, (Task.run server pollTick w).1 = .ok v) := by
  rw [run_pollTick, run_fetchStatus]
  rcases h : server (requestsOf w.trace) ⟨.GET, "/api/status", none⟩ with e | response
  · exact ⟨by simp [requestsOf], rfl, ⟨w.store.status, rfl⟩, by simp, rfl, ⟨_, rfl⟩⟩
  · exact ⟨by simp [requestsOf], rfl, ⟨response.data, rfl⟩, by simp, rfl, ⟨_, rfl⟩⟩

/-! ## No retries -/

theorem requests_of_operation (op : Operation) (server : Server) (w : World) :
    requestsOf (Task.run server op.task w).2.trace =
      requestsOf w.trace ++
        issuedInOrder server (requestsOf w.trace) (op.ownRequest :: op.refetches) := by
  cases op <;>
    simp only [Operation.task, run_fetchStatus, run_fetchConfig, run_fetchMentions,
      run_fetchLogs, run_updateConfig, run_startMonitoring, run_stopMonitoring,
      run_manualCheck, run_runScraper, run_clearMentions, Operation.ownRequest,
      Operation.refetches, issuedInOrder]
  all_goals
    repeat' split
  all_goals
    simp_all [requestsOf]

theorem issuedInOrder_initial_segment (server : Server) (rs : List Request) :
    ∀ hist, issuedInOrder server hist rs <+: rs := by
  induction rs with
  | nil => intro hist; exact List.prefix_refl _
  | cons r rest ih =>
    intro hist
    unfold issuedInOrder
    cases server hist r with
    | error e => exact (List.prefix_cons_inj r).mpr (List.nil_prefix)
    | ok response => exact (List.prefix_cons_inj r).mpr (ih _)

theorem stopsAtFailure_issuedInOrder (server : Server) (rs : List Request) :
    ∀ hist, StopsAtFailure server hist (issuedInOrder server hist rs) := by
  induction rs with
  | nil => intro hist; exact trivial
  | cons r rest ih =>
    intro hist
    unfold issuedInOrder
    rcases h : server hist r with e | response
    · exact ⟨fun _ => rfl, trivial⟩
    · exact ⟨fun ⟨e, he⟩ => (by rw [h] at he; cases he), ih _⟩

theorem endpoints_of_operation_nodup (op : Operation) :
    ((op.ownRequest :: op.refetches).map fun r => (r.method, r.url)).Nodup := by
  cases op <;> simp [Operation.ownRequest, Operation.refetches]

/-- C24. No operation retries. The requests one invocation of an operation issues are, in
order, a list `added` in which no endpoint (method and URL) occurs twice and in which a
request answered with a failure is the last one; for the four read-only fetches `added` is
the single request of the fetch, whether it fails or not. -/
theorem operations_never_retry (op : Operation) (server : Server) (w : World) :
    ∃ added : List Request,
      requestsOf (Task.run server op.task w).2.trace = requestsOf w.trace ++ added ∧
      (added.map fun r => (r.method, r.url)).Nodup ∧
      StopsAtFailure server (requestsOf w.trace) added ∧
      (op.isCommand = true ∨ added = [op.ownRequest]) := by
  refine ⟨issuedInOrder server (requestsOf w.trace) (op.ownRequest :: op.refetches),
    requests_of_operation op server w, ?_, stopsAtFailure_issuedInOrder server _ _, ?_⟩
  · exact ((issuedInOrder_initial_segment server _ _).sublist.map _).nodup
      (endpoints_of_operation_nodup op)
  · cases op <;> simp [Operation.isCommand, Operation.refetches, issuedInOrder]
    all_goals split <;> rfl

/-! ## The poll racing a command -/

/-- C26. A poll's `fetchStatus()` is invoked, then a command that re-fetches the status is
dispatched and acknowledged, so both `GET /api/status` requests are in flight, the poll's
issued first. Whichever response arrives is applied on arrival, and the status ends equal to
the response that arrives last: the command's when the poll is answered first, the poll's
(requested before the command) when the command is answered first. -/
theorem last_status_response_wins (cmd : Operation)
    (hcmd : cmd ∈ [Operation.startMonitoring, .stopMonitoring, .manualCheck, .runScraper,
      .clearMentions])
    (store : Store) (tr : List Event) (ack rPoll rCmd : Response) :
    ((Run.exec cmd store tr [.fetch .fetchStatus, .dispatch, .reply (.ok ack)]).command.isInFlight
        = true ∧
      (Run.exec cmd store tr [.fetch .fetchStatus, .dispatch, .reply (.ok ack)]).fetches.length
        = 1 ∧
      requestsOf
          (Run.exec cmd store tr [.fetch .fetchStatus, .dispatch, .reply (.ok ack)]).world.trace =
        requestsOf tr ++
          [⟨.GET, "/api/status", none⟩, cmd.ownRequest, ⟨.GET, "/api/status", none⟩]) ∧
    ((Run.exec cmd store tr [.fetch .fetchStatus, .dispatch, .reply (.ok ack),
        .reply (.ok rCmd)]).world.store.status = rCmd.data ∧
      (Run.exec cmd store tr [.fetch .fetchStatus, .dispatch, .reply (.ok ack),
        .reply (.ok rCmd), .fetchReply 0 (.ok rPoll)]).world.store.status = rPoll.data) ∧
    ((Run.exec cmd store tr [.fetch .fetchStatus, .dispatch, .reply (.ok ack),
        .fetchReply 0 (.ok rPoll)]).world.store.status = rPoll.data ∧
      (Run.exec cmd store tr [.fetch .fetchStatus, .dispatch, .reply (.ok ack),
        .fetchReply 0 (.ok rPoll), .reply (.ok rCmd)]).world.store.status = rCmd.data) := by
  simp only [List.mem_cons, List.mem_singleton, List.not_mem_nil, or_false] at hcmd
  rcases hcmd with h | h | h | h | h <;> subst h
  all_goals
    refine ⟨⟨rfl, rfl, ?_⟩, ⟨rfl, rfl⟩, ⟨rfl, rfl⟩⟩
    show requestsOf ((((tr ++ _) ++ _) ++ _) ++ _) = _
    simp [requestsOf, Operation.ownRequest]

/-- C26 on sample responses: monitoring is started while a poll is in flight; the poll's
response, which still says "not running", arrives after the command's refreshed status and is
what the state ends with. -/
theorem last_status_response_wins_witness :
    (Run.exec .startMonitoring Store.initial []
      [.fetch .fetchStatus, .dispatch, .reply (.ok ⟨.obj [("message", .str "ok")]⟩),
        .reply (.ok ⟨.obj [("is_running", .bool true)]⟩),
        .fetchReply 0 (.ok ⟨.obj [("is_running", .bool false)]⟩)]).world.store.status =
      .obj [("is_running", .bool false)] :=
  (last_status_response_wins .startMonitoring (by simp) Store.initial []
    ⟨.obj [("message", .str "ok")]⟩ ⟨.obj [("is_running", .bool false)]⟩
    ⟨.obj [("is_running", .bool true)]⟩).2.1.2

/-! ## initializeData -/

theorem perm_three_cases (order : List Nat) (h : order.Perm [0, 1, 2]) :
    order = [0, 1, 2] ∨ order = [0, 2, 1] ∨ order = [1, 0, 2] ∨ order = [1, 2, 0] ∨
      order = [2, 0, 1] ∨ order = [2, 1, 0] := by
  have hl : order.length = 3 := h.length_eq
  obtain ⟨a, b, c, rfl⟩ := List.length_eq_three.mp hl
  have hn : [a, b, c].Nodup := h.nodup_iff.mpr (by decide)
  have ha : a ∈ [0, 1, 2] := h.subset (by simp)
  have hb : b ∈ [0, 1, 2] := h.subset (by simp)
  have hc : c ∈ [0, 1, 2] := h.subset (by simp)
  simp only [List.mem_cons, List.mem_singleton, List.not_mem_nil, or_false] at ha hb hc
  rcases ha with rfl | rfl | rfl <;> rcases hb with rfl | rfl | rfl <;>
    rcases hc with rfl | rfl | rfl <;> simp_all

/-- C23, as stated, fails: `initializeData` calls `fetchStatus`, `fetchConfig` and
`fetchMentions` and nothing else. After a start in which the server answers every request,
no request for the logs has been issued and `logs` is still the empty array, although the
server has a log line to offer. -/
theorem initializeData_no_logs_counterexample :
    (initializeData.run ⟨Store.initial, []⟩
      [(0, .ok (cannedResponse ⟨.GET, "/api/status", none⟩)),
        (1, .ok (cannedResponse ⟨.GET, "/api/config", none⟩)),
        (2, .ok (cannedResponse ⟨.GET, "/api/mentions?limit=50", none⟩))]).settled = true ∧
    (initializeData.run ⟨Store.initial, []⟩
      [(0, .ok (cannedResponse ⟨.GET, "/api/status", none⟩)),
        (1, .ok (cannedResponse ⟨.GET, "/api/config", none⟩)),
        (2, .ok (cannedResponse ⟨.GET, "/api/mentions?limit=50", none⟩))]).rejected = false ∧
    requestsOf (initializeData.run ⟨Store.initial, []⟩
      [(0, .ok (cannedResponse ⟨.GET, "/api/status", none⟩)),
        (1, .ok (cannedResponse ⟨.GET, "/api/config", none⟩)),
        (2, .ok (cannedResponse ⟨.GET, "/api/mentions?limit=50", none⟩))]).world.trace =
      [⟨.GET, "/api/status", none⟩, ⟨.GET, "/api/config", none⟩,
        ⟨.GET, "/api/mentions?limit=50", none⟩] ∧
    (initializeData.run ⟨Store.initial, []⟩
      [(0, .ok (cannedResponse ⟨.GET, "/api/status", none⟩)),
        (1, .ok (cannedResponse ⟨.GET, "/api/config", none⟩)),
        (2, .ok (cannedResponse ⟨.GET, "/api/mentions?limit=50", none⟩))]).world.store.logs =
      .arr [] ∧
    (cannedResponse ⟨.GET, "/api/logs?lines=100", none⟩).data.getProp "logs" =
      .ok (.arr [.obj [("file", .str "../monitor.log"),
        ("line", .str "2024 WARNING something failed with info codes")]]) :=
  ⟨rfl, rfl, by decide, rfl, rfl⟩

set_option maxHeartbeats 4000000 in
/-- C23, amended. The provider starts with the default status, the default config, no
mentions and no logs. `initializeData` issues three requests, for status, config and
mentions (with the default limit 50), and none for logs. When all three are answered with a
response, in whatever order the answers arrive, `Promise.all` fulfils and the state is the
initial one with status and config replaced by the payloads of their responses and mentions
by the `mentions` property of the third payload; logs is still the empty array. -/
theorem initializeData_populates_three (order : List Nat) (horder : order.Perm [0, 1, 2])
    (rs rc rm : Response) (items : JsVal) (hm : rm.data.getProp "mentions" = .ok items) :
    Store.initial =
      { status := .obj [("is_running", .bool false), ("last_check", .null),
          ("total_mentions", .num 0), ("seen_urls_count", .num 0)],
        config := .obj [("search_terms", .arr []), ("check_interval", .num 30),
          ("max_results", .num 10), ("has_serpapi_key", .bool false),
          ("has_slack_webhook", .bool false)],
        mentions := .arr [], logs := .arr [], loading := false } ∧
    requestsOf (initializeData.run ⟨Store.initial, []⟩ []).world.trace =
      [⟨.GET, "/api/status", none⟩, ⟨.GET, "/api/config", none⟩,
        ⟨.GET, "/api/mentions?limit=50", none⟩] ∧
    requestsOf (initializeData.run ⟨Store.initial, []⟩ (order.map fun i =>
        (i, .ok (if i = 0 then rs else if i = 1 then rc else rm)))).world.trace =
      [⟨.GET, "/api/status", none⟩, ⟨.GET, "/api/config", none⟩,
        ⟨.GET, "/api/mentions?limit=50", none⟩] ∧
    (initializeData.run ⟨Store.initial, []⟩ (order.map fun i =>
        (i, .ok (if i = 0 then rs else if i = 1 then rc else rm)))).settled = true ∧
    (initializeData.run ⟨Store.initial, []⟩ (order.map fun i =>
        (i, .ok (if i = 0 then rs else if i = 1 then rc else rm)))).rejected = false ∧
    (initializeData.run ⟨Store.initial, []⟩ (order.map fun i =>
        (i, .ok (if i = 0 then rs else if i = 1 then rc else rm)))).world.store =
      { Store.initial with status := rs.data, config := rc.data, mentions := items } := by
  obtain ⟨data⟩ := rm
  refine ⟨rfl, by decide, ?_⟩
  rcases perm_three_cases order horder with h | h | h | h | h | h <;> subst h <;>
    cases data <;> cases hm <;> refine ⟨?_, rfl, rfl, rfl⟩
  all_goals
    show requestsOf (((((([] ++ [_]) ++ [_]) ++ [_]) ++ [_]) ++ [_]) ++ [_]) = _
    simp only [requestsOf_append, requestsOf, List.nil_append, List.append_nil,
      List.singleton_append, List.cons.injEq, and_true, true_and]
    decide

/-- C23, amended, on the sample payloads with the answers arriving in the order mentions,
status, config. -/
theorem initializeData_populates_three_witness :
    (initializeData.run ⟨Store.initial, []⟩
      [(2, .ok (cannedResponse ⟨.GET, "/api/mentions?limit=50", none⟩)),
        (0, .ok (cannedResponse ⟨.GET, "/api/status", none⟩)),
        (1, .ok (cannedResponse ⟨.GET, "/api/config", none⟩))]).world.store =
      { Store.initial with
        status := (cannedResponse ⟨.GET, "/api/status", none⟩).data,
        config := (cannedResponse ⟨.GET, "/api/config", none⟩).data,
        mentions := .arr [.obj [("person_name", .str "Ada")],
          .obj [("person_name", .str "Grace")]] } :=
  (initializeData_populates_three [2, 0, 1] (by decide)
    (cannedResponse ⟨.GET, "/api/status", none⟩) (cannedResponse ⟨.GET, "/api/config", none⟩)
    (cannedResponse ⟨.GET, "/api/mentions?limit=50", none⟩) _ rfl).2.2.2.2.2

/-! ## The numbers the form submits -/

theorem numberOrElse_nonzero (n : Option Int) (k : Int) (hk : k ≠ 0) :
    ∃ m : Int, numberOrElse n (.num k) = .num m ∧ m ≠ 0 := by
  unfold numberOrElse
  rcases n with _ | m
  · exact ⟨k, rfl, hk⟩
  · by_cases hm : m = 0
    · exact ⟨k, by simp [hm], hk⟩
    · exact ⟨m, by simp [hm], hm⟩

/-- C25 fails on this input: the form is reset from the server's config (interval 15, 20
results), then `-5` is typed into the check-interval input and `-1` into the max-results
input. `parseInt` yields -5 and -1, which are truthy, so the fallbacks `|| 30` and `|| 10` do
not apply, and `handleSubmit` posts `check_interval: -5` and `max_results: -1`. What the two
handlers do guarantee, for every text, is an integer other than zero (in this model of
`parseInt`, which is exact for numbers below 2^53). -/
theorem handleSubmit_posts_negative_numbers :
    parseInt "-5" = some (-5) ∧
    configToUpdate
        (maxResultsOnChange
          (checkIntervalOnChange
            (resetFormData (cannedResponse ⟨.GET, "/api/config", none⟩).data FormData.initial)
            "-5")
          "-1") =
      .obj [("search_terms", .arr [.str "Acme"]), ("check_interval", .num (-5)),
        ("max_results", .num (-1))] ∧
    requestsOf
        (Task.advance
          (handleSubmit
            (maxResultsOnChange
              (checkIntervalOnChange
                (resetFormData (cannedResponse ⟨.GET, "/api/config", none⟩).data
                  FormData.initial)
                "-5")
              "-1"))
          ⟨Store.initial, []⟩).2.trace =
      [⟨.POST, "/api/config", some (.obj [("search_terms", .arr [.str "Acme"]),
        ("check_interval", .num (-5)), ("max_results", .num (-1))])⟩] ∧
    (∀ (formData : FormData) (value : String),
      ∃ n : Int, (checkIntervalOnChange formData value).check_interval = .num n ∧ n ≠ 0) ∧
    (∀ (formData : FormData) (value : String),
      ∃ n : Int, (maxResultsOnChange formData value).max_results = .num n ∧ n ≠ 0) := by
  refine ⟨by decide, by decide, by decide, ?_, ?_⟩
  · intro formData value
    exact numberOrElse_nonzero (parseInt value) 30 (by decide)
  · intro formData value
    exact numberOrElse_nonzero (parseInt value) 10 (by decide)

/-! ## Buttons while busy -/

/-- C27 fails for the Clear All button: with five mentions in the state and `loading` true,
the mentions page renders Clear All, whose click handler is the mutating command
`clearMentions`, with `disabled` false. The other buttons that invoke a command are disabled
whenever `loading` is true: the three Quick Actions of the dashboard, for every status, and
the Save button, for every form. -/
theorem clearAll_enabled_while_busy :
    storeWithFiveMentions.mentions =
      .arr [.obj [("person_name", .str "A")], .obj [("person_name", .str "B")],
        .obj [("person_name", .str "C")], .obj [("person_name", .str "D")],
        .obj [("person_name", .str "E")]] ∧
    (∃ c ∈ Mentions.headerButtons
        [.obj [("person_name", .str "A")], .obj [("person_name", .str "B")],
          .obj [("person_name", .str "C")], .obj [("person_name", .str "D")],
          .obj [("person_name", .str "E")]] true,
      c.label = "Clear All" ∧ c.onClick.task = clearMentions ∧ c.onClick.isCommand = true ∧
        c.disabled = false) ∧
    (∀ (status : JsVal) (controls : List Control),
      Dashboard.quickActions status true = .ok controls →
        controls.length = 3 ∧ ∀ c ∈ controls, c.onClick.isCommand = true ∧ c.disabled = true) ∧
    (∀ formData : FormData,
      (Configuration.saveButton formData true).onClick.isCommand = true ∧
        (Configuration.saveButton formData true).disabled = true) := by
  refine ⟨rfl, ⟨⟨"Clear All", .clearMentions, false⟩, by simp [Mentions.headerButtons],
    rfl, rfl, rfl, rfl⟩, ?_, fun _ => ⟨rfl, rfl⟩⟩
  intro status controls h
  unfold Dashboard.quickActions at h
  rcases hs : status.getProp "is_running" with e | isRunning
  · rw [hs] at h
    cases h
  · rw [hs] at h
    cases h
    refine ⟨rfl, ?_⟩
    intro c hc
    simp only [List.mem_cons, List.mem_singleton, List.not_mem_nil, or_false] at hc
    rcases hc with rfl | rfl | rfl
    · cases isRunning.truthy <;> exact ⟨rfl, rfl⟩
    · exact ⟨rfl, rfl⟩
    · exact ⟨rfl, rfl⟩

/-! ## Log levels -/

theorem getLogLevel_cases (toLowerCase : String → String) (logLine : String) :
    getLogLevel toLowerCase logLine = "error" ∨ getLogLevel toLowerCase logLine = "warning" ∨
      getLogLevel toLowerCase logLine = "info" ∨ getLogLevel toLowerCase logLine = "debug" := by
  unfold getLogLevel
  simp only []
  split_ifs <;> simp

theorem level_counts_sum (toLowerCase : String → String) (logs : List LogEntry) :
    (logs.filter fun log => decide (getLogLevel toLowerCase log.line = "error")).length +
      (logs.filter fun log => decide (getLogLevel toLowerCase log.line = "warning")).length +
      (logs.filter fun log => decide (getLogLevel toLowerCase log.line = "info")).length +
      (logs.filter fun log => decide (getLogLevel toLowerCase log.line = "debug")).length =
    logs.length := by
  induction logs with
  | nil => rfl
  | cons log rest ih =>
    simp only [List.filter_cons, List.length_cons]
    rcases getLogLevel_cases toLowerCase log.line with h | h | h | h <;>
      simp [h] <;> omega

/-- C29. For every list of log entries: `getLogLevel` puts each line into one of the four
levels (one only, being a function), so the counts of `logCounts` for error, warning, info
and debug add up to the number of entries, which is also its count for `all`; and for each
of the five values of `logLevels`, `filteredLogs` has as many entries as `logCounts` records
under that value. -/
theorem logCounts_partition (toLowerCase : String → String) (logs : List LogEntry) :
    (∀ log ∈ logs, getLogLevel toLowerCase log.line ∈ ["error", "warning", "info", "debug"]) ∧
    (∃ error warning info debug : Nat,
      (logCounts toLowerCase logs).lookup "error" = some error ∧
      (logCounts toLowerCase logs).lookup "warning" = some warning ∧
      (logCounts toLowerCase logs).lookup "info" = some info ∧
      (logCounts toLowerCase logs).lookup "debug" = some debug ∧
      error + warning + info + debug = logs.length) ∧
    (logCounts toLowerCase logs).lookup "all" = some logs.length ∧
    ∀ filter ∈ logLevels,
      (logCounts toLowerCase logs).lookup filter =
        some (filteredLogs toLowerCase logs filter).length := by
  refine ⟨?_, ⟨_, _, _, _, rfl, rfl, rfl, rfl, level_counts_sum toLowerCase logs⟩, rfl, ?_⟩
  · intro log _
    rcases getLogLevel_cases toLowerCase log.line with h | h | h | h <;> simp [h]
  · intro filter hf
    simp only [logLevels, List.mem_cons, List.mem_singleton, List.not_mem_nil, or_false] at hf
    rcases hf with rfl | rfl | rfl | rfl | rfl
    · simp [filteredLogs, logCounts, List.lookup]
    all_goals rfl

/-! ## Search terms: display and parse -/

theorem trim_data (s : String) :
    (trim s).data = (s.data.dropWhile isWhiteSpace).rdropWhile isWhiteSpace := rfl

theorem trimmed_trim (s : String) : Trimmed (trim s) := by
  constructor
  · intro c hc
    rw [trim_data] at hc
    obtain ⟨tail, htail⟩ := List.rdropWhile_prefix isWhiteSpace (s.data.dropWhile isWhiteSpace)
    rcases hr : (s.data.dropWhile isWhiteSpace).rdropWhile isWhiteSpace with _ | ⟨d, ds⟩
    · rw [hr] at hc
      simp at hc
    · rw [hr] at hc htail
      simp only [List.head?_cons, Option.mem_def, Option.some.injEq] at hc
      subst hc
      have hne : s.data.dropWhile isWhiteSpace ≠ [] := by
        rw [← htail]
        simp
      have := List.head_dropWhile_not isWhiteSpace s.data hne
      simpa [← htail] using this
  · intro c hc
    rw [trim_data] at hc
    rcases hr : (s.data.dropWhile isWhiteSpace).rdropWhile isWhiteSpace with _ | ⟨d, ds⟩
    · rw [hr] at hc
      simp at hc
    · have hne : (s.data.dropWhile isWhiteSpace).rdropWhile isWhiteSpace ≠ [] := by
        rw [hr]
        simp
      have h := List.rdropWhile_last_not isWhiteSpace (s.data.dropWhile isWhiteSpace) hne
      rw [List.getLast?_eq_getLast _ hne] at hc
      simp only [Option.mem_def, Option.some.injEq] at hc
      subst hc
      simpa using h

theorem trim_of_trimmed (s : String) (h : Trimmed s) : trim s = s := by
  have h1 : s.data.dropWhile isWhiteSpace = s.data := by
    rcases hd : s.data with _ | ⟨c, cs⟩
    · rfl
    · have hc := h.1 c (by simp [hd])
      simp [List.dropWhile_cons, hc]
  have h2 : s.data.rdropWhile isWhiteSpace = s.data := by
    rw [List.rdropWhile_eq_self_iff]
    intro hl
    have := h.2 (s.data.getLast hl) (by rw [List.getLast?_eq_getLast _ hl]; rfl)
    simp [this]
  have : (trim s).data = s.data := by rw [trim_data, h1, h2]
  exact String.ext this

theorem splitChars_of_not_mem (sep : Char) (l : List Char) (h : sep ∉ l) :
    splitChars sep l = [l] := by
  induction l with
  | nil => rfl
  | cons c rest ih =>
    have hc : c ≠ sep := fun e => h (by simp [e])
    have hrest : sep ∉ rest := fun e => h (List.mem_cons_of_mem _ e)
    simp [splitChars, hc, ih hrest]

theorem splitChars_append (sep : Char) (a b : List Char) (h : sep ∉ a) :
    splitChars sep (a ++ sep :: b) = a :: splitChars sep b := by
  induction a with
  | nil => simp [splitChars]
  | cons c rest ih =>
    have hc : c ≠ sep := fun e => h (by simp [e])
    have hrest : sep ∉ rest := fun e => h (List.mem_cons_of_mem _ e)
    simp [splitChars, hc, ih hrest]

theorem joinWith_strs_cons (sep t u : String) (rest : List String) :
    JsVal.joinWith sep ((t :: u :: rest).map .str) =
      t ++ sep ++ JsVal.joinWith sep ((u :: rest).map .str) := rfl

theorem splitChars_joinWith (t : String) (rest : List String)
    (h : ∀ u ∈ t :: rest, ',' ∉ u.data) :
    splitChars ',' (JsVal.joinWith ", " ((t :: rest).map .str)).data =
      t.data :: rest.map fun u => ' ' :: u.data := by
  induction rest generalizing t with
  | nil =>
    show splitChars ',' t.data = _
    rw [splitChars_of_not_mem _ _ (h t (by simp))]
    rfl
  | cons u rest ih =>
    rw [joinWith_strs_cons]
    have hu := ih u fun v hv => h v (List.mem_cons_of_mem _ hv)
    have : (t ++ ", " ++ JsVal.joinWith ", " ((u :: rest).map .str)).data =
        t.data ++ ',' :: ' ' :: (JsVal.joinWith ", " ((u :: rest).map .str)).data := by
      simp [String.data_append]
    rw [this, splitChars_append _ _ _ (h t (by simp))]
    have hsplit : splitChars ',' (' ' :: (JsVal.joinWith ", " ((u :: rest).map .str)).data) =
        match splitChars ',' (JsVal.joinWith ", " ((u :: rest).map .str)).data with
        | piece :: pieces => (' ' :: piece) :: pieces
        | [] => [[' ']] := rfl
    rw [hsplit, hu]
    rfl

theorem trim_space_cons (l : List Char) : trim ⟨' ' :: l⟩ = trim ⟨l⟩ := by
  apply String.ext
  rw [trim_data, trim_data]
  rfl

theorem parse_pieces (rest : List String)
    (h : ∀ u ∈ rest, u ≠ "" ∧ Trimmed u) :
    (((rest.map fun u => ' ' :: u.data).map String.mk).map trim).filter
      (fun term => decide (term ≠ "")) = rest := by
  induction rest with
  | nil => rfl
  | cons u rest ih =>
    have hu := h u (by simp)
    have hrest := ih fun v hv => h v (List.mem_cons_of_mem _ hv)
    have e : trim ⟨' ' :: u.data⟩ = u := by
      rw [trim_space_cons]
      exact trim_of_trimmed u hu.2
    simp only [List.map_cons, e, List.filter_cons, hu.1, ne_eq, not_false_eq_true,
      decide_True, ite_true]
    rw [hrest]

theorem intercalate_go_eq (sep : String) (rest : List String) :
    ∀ acc t : String, String.intercalate.go (acc ++ t) sep rest =
      acc ++ JsVal.joinWith sep ((t :: rest).map .str) := by
  induction rest with
  | nil => intro acc t; rfl
  | cons u rest ih =>
    intro acc t
    rw [joinWith_strs_cons]
    show String.intercalate.go (acc ++ t ++ sep ++ u) sep rest = _
    rw [ih (acc ++ t ++ sep) u]
    simp [String.append_assoc]

theorem joinWith_eq_intercalate (sep : String) (terms : List String) :
    JsVal.joinWith sep (terms.map .str) = sep.intercalate terms := by
  cases terms with
  | nil => rfl
  | cons t rest =>
    have := intercalate_go_eq sep rest "" t
    simp only [String.empty_append] at this
    exact this.symm

theorem parse_joined (terms : List String)
    (hterms : ∀ t ∈ terms, t ≠ "" ∧ Trimmed t ∧ ',' ∉ t.data) :
    ((split (JsVal.joinWith ", " (terms.map .str)) ',').map trim).filter
      (fun term => decide (term ≠ "")) = terms := by
  cases terms with
  | nil => decide
  | cons t rest =>
    unfold split
    rw [splitChars_joinWith t rest fun u hu => (hterms u hu).2.2]
    have ht := hterms t (by simp)
    have e : trim ⟨t.data⟩ = t := trim_of_trimmed t ht.2.1
    simp only [List.map_cons, e, List.filter_cons, ht.1, ne_eq, not_false_eq_true,
      decide_True, ite_true]
    rw [parse_pieces rest fun u hu =>
      ⟨(hterms u (List.mem_cons_of_mem _ hu)).1, (hterms u (List.mem_cons_of_mem _ hu)).2.1⟩]

/-- C28. Let every term of a list be non-empty, free of commas and without white space at
either end. The search-terms input then shows the terms joined with a comma and a space, and
`handleSearchTermsChange` applied to exactly that text stores the same list again, in the
same order and with its duplicates. For every text whatsoever, the list the handler stores
consists of strings that are non-empty and have no white space at either end. -/
theorem searchTerms_round_trip (formData : FormData) (terms : List String)
    (hterms : ∀ t ∈ terms, t ≠ "" ∧ Trimmed t ∧ ',' ∉ t.data) :
    (∃ text : String,
      searchTermsValue { formData with search_terms := .arr (terms.map .str) } = .ok text ∧
      text = ", ".intercalate terms ∧
      (handleSearchTermsChange formData text).search_terms = .arr (terms.map .str) ∧
      handleSearchTermsChange { formData with search_terms := .arr (terms.map .str) } text =
        { formData with search_terms := .arr (terms.map .str) }) ∧
    ∀ text : String, ∃ parsed : List String,
      (handleSearchTermsChange formData text).search_terms = .arr (parsed.map .str) ∧
      ∀ t ∈ parsed, t ≠ "" ∧ Trimmed t := by
  constructor
  · refine ⟨JsVal.joinWith ", " (terms.map .str), rfl, joinWith_eq_intercalate _ _, ?_, ?_⟩
    · simp only [handleSearchTermsChange]
      rw [parse_joined terms hterms]
    · simp only [handleSearchTermsChange]
      rw [parse_joined terms hterms]
  · intro text
    refine ⟨((split text ',').map trim).filter fun term => decide (term ≠ ""), rfl, ?_⟩
    intro t ht
    rw [List.mem_filter, List.mem_map] at ht
    obtain ⟨⟨piece, _, rfl⟩, hne⟩ := ht
    exact ⟨by simpa using hne, trimmed_trim piece⟩

/-- C28 on three terms, one of them twice and one with a space inside. -/
theorem searchTerms_round_trip_witness :
    searchTermsValue (handleSearchTermsChange FormData.initial "Acme , John Doe,,Acme") =
      .ok "Acme, John Doe, Acme" ∧
    (handleSearchTermsChange FormData.initial "Acme, John Doe, Acme").search_terms =
      .arr [.str "Acme", .str "John Doe", .str "Acme"] ∧
    ∃ text : String,
      searchTermsValue { FormData.initial with
        search_terms := .arr (["Acme", "John Doe", "Acme"].map .str) } = .ok text ∧
      text = ", ".intercalate ["Acme", "John Doe", "Acme"] ∧
      (handleSearchTermsChange FormData.initial text).search_terms =
        .arr (["Acme", "John Doe", "Acme"].map .str) ∧
      handleSearchTermsChange { FormData.initial with
          search_terms := .arr (["Acme", "John Doe", "Acme"].map .str) } text =
        { FormData.initial with search_terms := .arr (["Acme", "John Doe", "Acme"].map .str) } :=
  ⟨rfl, by decide,
    (searchTerms_round_trip FormData.initial ["Acme", "John Doe", "Acme"] (by
      intro t ht
      simp only [List.mem_cons, List.mem_singleton, List.not_mem_nil, or_false] at ht
      rcases ht with rfl | rfl | rfl <;>
        exact ⟨by decide, ⟨by decide, by decide⟩, by decide⟩)).1⟩

/-! ## The sorted, filtered mention list -/

theorem perm_insertOrdered {α : Type} (compareFn : α → α → Option Int) (a : α) (l : List α) :
    (insertOrdered compareFn a l).Perm (a :: l) := by
  induction l with
  | nil => exact List.Perm.refl _
  | cons b rest ih =>
    unfold insertOrdered
    split_ifs
    · exact List.Perm.refl _
    · exact (List.Perm.cons b ih).trans (List.Perm.swap a b rest)

theorem perm_sort {α : Type} (compareFn : α → α → Option Int) (l : List α) :
    (sort compareFn l).Perm l := by
  induction l with
  | nil => exact List.Perm.refl _
  | cons a rest ih =>
    exact (perm_insertOrdered compareFn a (sort compareFn rest)).trans (List.Perm.cons a ih)

theorem pairwise_insertOrdered {α : Type} (compareFn : α → α → Option Int) (key : α → Int)
    (a : α) (l : List α) (hl : l.Pairwise fun x y => key x ≤ key y)
    (h : ∀ b ∈ l, ((compareFn a b).getD 0 ≤ 0 ↔ key a ≤ key b)) :
    (insertOrdered compareFn a l).Pairwise fun x y => key x ≤ key y := by
  induction l with
  | nil => exact List.pairwise_singleton _ _
  | cons b rest ih =>
    unfold insertOrdered
    have hb := h b (List.mem_cons_self _ _)
    rw [List.pairwise_cons] at hl
    split_ifs with hc
    · refine List.Pairwise.cons ?_ (List.Pairwise.cons hl.1 hl.2)
      intro x hx
      rcases List.mem_cons.mp hx with rfl | hx
      · exact hb.mp hc
      · exact le_trans (hb.mp hc) (hl.1 x hx)
    · refine List.Pairwise.cons ?_ (ih hl.2 fun c hc => h c (List.mem_cons_of_mem _ hc))
      intro x hx
      rcases List.mem_cons.mp ((perm_insertOrdered compareFn a rest).subset hx) with rfl | hx
      · exact le_of_lt (not_le.mp fun hle => hc (hb.mpr hle))
      · exact hl.1 x hx

theorem pairwise_sort {α : Type} (compareFn : α → α → Option Int) (key : α → Int)
    (l : List α)
    (h : ∀ a ∈ l, ∀ b ∈ l, ((compareFn a b).getD 0 ≤ 0 ↔ key a ≤ key b)) :
    (sort compareFn l).Pairwise fun x y => key x ≤ key y := by
  induction l with
  | nil => exact List.Pairwise.nil
  | cons a rest ih =>
    refine pairwise_insertOrdered compareFn key a (sort compareFn rest)
      (ih fun x hx y hy => h x (List.mem_cons_of_mem _ hx) y (List.mem_cons_of_mem _ hy)) ?_
    intro b hb
    exact h a (List.mem_cons_self _ _) b
      (List.mem_cons_of_mem _ ((perm_sort compareFn rest).subset hb))

/-- C30. Let every mention have a timestamp that parses to a date. For every filter and
every sort choice, `sortedMentions` is a permutation of the mentions whose `mention_type`
equals the filter (of all mentions when the filter is `all`); with `sortBy = 'newest'` no
entry is older than a later one, with any other `sortBy` no entry is newer than a later one.
The list it is computed from is the argument, which a function cannot change; the filtered
list keeps the original order. -/
theorem sortedMentions_sorted_perm (parseDate : String → Option Int) (mentions : List Mention)
    (filter sortBy : String)
    (hvalid : ∀ m ∈ mentions, (parseDate m.timestamp).isSome = true) :
    (sortedMentions parseDate mentions filter sortBy).Perm
      (mentions.filter fun m => decide (filter = "all" ∨ m.mention_type = filter)) ∧
    (sortBy = "newest" →
      (sortedMentions parseDate mentions filter sortBy).Pairwise fun a b =>
        ∀ x y, parseDate a.timestamp = some x → parseDate b.timestamp = some y → y ≤ x) ∧
    (sortBy ≠ "newest" →
      (sortedMentions parseDate mentions filter sortBy).Pairwise fun a b =>
        ∀ x y, parseDate a.timestamp = some x → parseDate b.timestamp = some y → x ≤ y) ∧
    (filteredMentions mentions filter).Sublist mentions := by
  have hf : filteredMentions mentions filter =
      mentions.filter fun m => decide (filter = "all" ∨ m.mention_type = filter) := by
    unfold filteredMentions
    congr 1
    funext m
    by_cases h : filter = "all" <;> simp [h]
  have hmem : ∀ m ∈ filteredMentions mentions filter, ∃ d, parseDate m.timestamp = some d :=
    fun m hm => Option.isSome_iff_exists.mp (hvalid m (List.mem_of_mem_filter hm))
  refine ⟨?_, ?_, ?_, List.filter_sublist _⟩
  · rw [← hf]
    exact perm_sort _ _
  · intro hs
    have := pairwise_sort (compareByDate parseDate sortBy)
      (fun m => -((parseDate m.timestamp).getD 0)) (filteredMentions mentions filter) (by
        intro a ha b hb
        obtain ⟨x, hx⟩ := hmem a ha
        obtain ⟨y, hy⟩ := hmem b hb
        simp only [compareByDate, hs, hx, hy, if_true, Option.getD_some]
        show y - x ≤ 0 ↔ -x ≤ -y
        omega)
    refine this.imp ?_
    intro a b hab x y hx hy
    simp only [hx, hy, Option.getD_some] at hab
    omega
  · intro hs
    have := pairwise_sort (compareByDate parseDate sortBy)
      (fun m => (parseDate m.timestamp).getD 0) (filteredMentions mentions filter) (by
        intro a ha b hb
        obtain ⟨x, hx⟩ := hmem a ha
        obtain ⟨y, hy⟩ := hmem b hb
        simp only [compareByDate, hs, hx, hy, if_false, Option.getD_some]
        show x - y ≤ 0 ↔ x ≤ y
        omega)
    refine this.imp ?_
    intro a b hab x y hx hy
    simp only [hx, hy, Option.getD_some] at hab
    exact hab

/-- C30 on the sample mentions: all three, newest first, and the two tags, oldest first. -/
theorem sortedMentions_sorted_perm_witness :
    (sortedMentions sampleParseDate sampleMentions "all" "newest").map (fun m => m.person_name) =
      ["Grace", "Ada", "Edsger"] ∧
    (sortedMentions sampleParseDate sampleMentions "tag" "oldest").map (fun m => m.person_name) =
      ["Edsger", "Ada"] ∧
    (sortedMentions sampleParseDate sampleMentions "tag" "oldest").Perm
      (sampleMentions.filter fun m => decide ("tag" = "all" ∨ m.mention_type = "tag")) ∧
    ((sortedMentions sampleParseDate sampleMentions "tag" "oldest").Pairwise fun a b =>
      ∀ x y, sampleParseDate a.timestamp = some x → sampleParseDate b.timestamp = some y →
        x ≤ y) :=
  ⟨by decide, by decide,
    (sortedMentions_sorted_perm sampleParseDate sampleMentions "tag" "oldest" (by decide)).1,
    (sortedMentions_sorted_perm sampleParseDate sampleMentions "tag" "oldest"
      (by decide)).2.2.1 (by decide)⟩

/-! ## manualCheck and runScraper among read-only fetches -/

theorem advance_events {α : Type} (t : Task α) :
    ∀ w : World, ∃ evs, (t.advance w).2.trace = w.trace ++ evs ∧
      (t.advance w).2.store = evs.foldl Store.apply w.store := by
  induction t with
  | ret a => exact fun w => ⟨[], by simp [Task.advance], rfl⟩
  | throw e => exact fun w => ⟨[], by simp [Task.advance], rfl⟩
  | eff ev next ih =>
    intro w
    obtain ⟨evs, h1, h2⟩ := ih (w.emit ev)
    exact ⟨ev :: evs, by simpa [Task.advance, World.emit] using h1,
      by simpa [Task.advance, World.emit] using h2⟩
  | await r resume _ =>
    exact fun w => ⟨[.request r], rfl, rfl⟩

theorem resumeAt_events (resp : Except JsErr Response) :
    ∀ (l : List (Except JsErr Response → Task JsVal)) (i : Nat) (w : World),
      ∃ evs, (resumeAt resp i w l).1.trace = w.trace ++ evs ∧
        (resumeAt resp i w l).1.store = evs.foldl Store.apply w.store := by
  intro l
  induction l with
  | nil => exact fun i w => ⟨[], by cases i <;> simp [resumeAt], by cases i <;> rfl⟩
  | cons k rest ih =>
    intro i w
    cases i with
    | zero =>
      obtain ⟨evs, h1, h2⟩ := advance_events (k resp) w
      refine ⟨evs, ?_, ?_⟩
      · unfold resumeAt
        rcases hadv : (k resp).advance w with ⟨stage, w1⟩
        rw [hadv] at h1
        cases stage <;> exact h1
      · unfold resumeAt
        rcases hadv : (k resp).advance w with ⟨stage, w1⟩
        rw [hadv] at h2
        cases stage <;> exact h2
    | succ j => exact ih j w

theorem step_fetch_events (cmd : Operation) (s : Run) (st : RunStep) (h : st.isFetch = true) :
    (Run.step cmd s st).command = s.command ∧
      ∃ evs, (Run.step cmd s st).world.trace = s.world.trace ++ evs ∧
        (Run.step cmd s st).world.store = evs.foldl Store.apply s.world.store := by
  cases st with
  | dispatch => exact Bool.noConfusion h
  | reply resp => exact Bool.noConfusion h
  | fetch op =>
    have hstep : Run.step cmd s (.fetch op) =
        if op.isCommand then s
        else
          match op.task.advance s.world with
          | (.waiting resume, w) => { s with world := w, fetches := s.fetches ++ [resume] }
          | (.finished _, w) => { s with world := w } := rfl
    rw [hstep]
    by_cases hop : op.isCommand = true
    · rw [if_pos hop]
      exact ⟨rfl, [], by simp, rfl⟩
    · rw [if_neg hop]
      obtain ⟨evs, h1, h2⟩ := advance_events op.task s.world
      rcases hadv : op.task.advance s.world with ⟨stage, w1⟩
      rw [hadv] at h1 h2
      cases stage <;> exact ⟨rfl, evs, h1, h2⟩
  | fetchReply i resp =>
    exact ⟨rfl, resumeAt_events resp s.fetches i s.world⟩

theorem steps_fetch_events (cmd : Operation) (steps : List RunStep)
    (h : ∀ st ∈ steps, st.isFetch = true) :
    ∀ s : Run, (steps.foldl (Run.step cmd) s).command = s.command ∧
      ∃ evs, (steps.foldl (Run.step cmd) s).world.trace = s.world.trace ++ evs ∧
        (steps.foldl (Run.step cmd) s).world.store = evs.foldl Store.apply s.world.store := by
  induction steps with
  | nil => exact fun s => ⟨rfl, [], by simp, rfl⟩
  | cons st rest ih =>
    intro s
    obtain ⟨hc, evs, h1, h2⟩ := step_fetch_events cmd s st (h st (List.mem_cons_self _ _))
    obtain ⟨hc2, evs2, h3, h4⟩ :=
      ih (fun x hx => h x (List.mem_cons_of_mem _ hx)) (Run.step cmd s st)
    refine ⟨by rw [List.foldl_cons, hc2, hc], evs ++ evs2, ?_, ?_⟩
    · rw [List.foldl_cons, h3, h1, List.append_assoc]
    · rw [List.foldl_cons, h4, h2, List.foldl_append]

theorem status_of_foldl_apply (evs : List Event) (h : ∀ x, Event.setStatus x ∉ evs) :
    ∀ s : Store, (evs.foldl Store.apply s).status = s.status := by
  induction evs with
  | nil => exact fun s => rfl
  | cons ev rest ih =>
    intro s
    rw [List.foldl_cons, ih (fun x hx => h x (List.mem_cons_of_mem _ hx))]
    cases ev <;> first | rfl | exact absurd (List.mem_cons_self _ _) (h _)

theorem step_dispatch_waiting (cmd : Operation) (s : Run)
    (k : Except JsErr Response → Task JsVal) (w1 : World)
    (hc : s.command = .idle) (hadv : cmd.task.advance s.world = (.waiting k, w1)) :
    Run.step cmd s .dispatch = { s with world := w1, command := .inFlight k } := by
  obtain ⟨world, command, fetches⟩ := s
  simp only at hc hadv
  subst hc
  simp [Run.step, hadv]

theorem step_reply_waiting (cmd : Operation) (s : Run) (resp : Except JsErr Response)
    (k k1 : Except JsErr Response → Task JsVal) (w1 : World)
    (hc : s.command = .inFlight k) (hadv : (k resp).advance s.world = (.waiting k1, w1)) :
    Run.step cmd s (.reply resp) = { s with world := w1, command := .inFlight k1 } := by
  obtain ⟨world, command, fetches⟩ := s
  simp only at hc hadv
  subst hc
  simp [Run.step, hadv]

theorem step_reply_world (cmd : Operation) (s : Run) (resp : Except JsErr Response)
    (k : Except JsErr Response → Task JsVal) (hc : s.command = .inFlight k) :
    (Run.step cmd s (.reply resp)).world = ((k resp).advance s.world).2 := by
  obtain ⟨world, command, fetches⟩ := s
  simp only at hc
  subst hc
  simp only [Run.step]
  rcases (k resp).advance world with ⟨stage, w1⟩
  cases stage <;> rfl

theorem check_and_scrape_protocol (cmd : Operation)
    (hcmd : cmd = .manualCheck ∨ cmd = .runScraper) :
    ∃ k1, (∀ w, cmd.task.advance w =
        (.waiting k1, (w.emit (.setLoading true)).emit (.request cmd.ownRequest))) ∧
      ∀ ack : Response, ∃ k2, (∀ w, (k1 (.ok ack)).advance w =
          (.waiting k2, w.emit (.request ⟨.GET, "/api/status", none⟩))) ∧
        ∀ refreshed : Response, ∃ k3, (∀ w, (k2 (.ok refreshed)).advance w =
            (.waiting k3, (w.emit (.setStatus refreshed.data)).emit
              (.request (Operation.fetchMentions .undefined).ownRequest))) ∧
          ∀ (listed : Response) (items : JsVal),
            listed.data.getProp "mentions" = .ok items →
              ∃ next, k3 (.ok listed) = .eff (.setMentions items) next := by
  rcases hcmd with rfl | rfl
  · refine ⟨_, fun w => rfl, fun ack => ⟨_, fun w => rfl, fun refreshed =>
      ⟨_, fun w => rfl, fun listed items h => ?_⟩⟩⟩
    obtain ⟨data⟩ := listed
    cases data <;> cases h <;> exact ⟨_, rfl⟩
  · refine ⟨_, fun w => rfl, fun ack => ⟨_, fun w => rfl, fun refreshed =>
      ⟨_, fun w => rfl, fun listed items h => ?_⟩⟩⟩
    obtain ⟨data⟩ := listed
    cases data <;> cases h <;> exact ⟨_, rfl⟩

theorem exec_append (cmd : Operation) (store : Store) (tr : List Event)
    (x y : List RunStep) :
    Run.exec cmd store tr (x ++ y) = y.foldl (Run.step cmd) (Run.exec cmd store tr x) := by
  simp [Run.exec, List.foldl_append]

/-- C12, amended. `manualCheck` and `runScraper` among read-only fetches: before the
dispatch, between the dispatch and each answer to the command, any fetches may be invoked
and answered (`pre`, `a`, `b`, `c`). When the command's POST, its status re-fetch and its
mentions re-fetch are answered, the answer to `GET /api/status` is stored in status on
arrival, and the event that replaces mentions comes later in the trace. At that moment the
state is the one the events in between produced from it: status is still that answer when
none of them is a replacement of status, as when the command runs on its own. -/
theorem status_before_mentions_interleaved (cmd : Operation)
    (hcmd : cmd = .manualCheck ∨ cmd = .runScraper)
    (store : Store) (tr : List Event) (pre a b c : List RunStep)
    (hpre : ∀ st ∈ pre, st.isFetch = true) (ha : ∀ st ∈ a, st.isFetch = true)
    (hb : ∀ st ∈ b, st.isFetch = true) (hc : ∀ st ∈ c, st.isFetch = true)
    (ack refreshed listed : Response) (items : JsVal)
    (hitems : listed.data.getProp "mentions" = .ok items) :
    (Run.exec cmd store tr
      (pre ++ .dispatch :: (a ++ .reply (.ok ack) :: (b ++ [.reply (.ok refreshed)])))
      ).world.store.status = refreshed.data ∧
    (∃ before, (Run.exec cmd store tr
        (pre ++ .dispatch :: (a ++ .reply (.ok ack) :: (b ++ [.reply (.ok refreshed)])))
        ).world.trace =
      before ++ [.setStatus refreshed.data,
        .request (Operation.fetchMentions .undefined).ownRequest]) ∧
    (∃ between,
      (Run.exec cmd store tr
        ((pre ++ .dispatch :: (a ++ .reply (.ok ack) :: (b ++ [.reply (.ok refreshed)])))
          ++ c)).world.trace =
        (Run.exec cmd store tr
          (pre ++ .dispatch :: (a ++ .reply (.ok ack) :: (b ++ [.reply (.ok refreshed)])))
          ).world.trace ++ between ∧
      (Run.exec cmd store tr
        ((pre ++ .dispatch :: (a ++ .reply (.ok ack) :: (b ++ [.reply (.ok refreshed)])))
          ++ c)).world.store =
        between.foldl Store.apply (Run.exec cmd store tr
          (pre ++ .dispatch :: (a ++ .reply (.ok ack) :: (b ++ [.reply (.ok refreshed)])))
          ).world.store ∧
      ((∀ x, Event.setStatus x ∉ between) →
        (Run.exec cmd store tr
          ((pre ++ .dispatch :: (a ++ .reply (.ok ack) :: (b ++ [.reply (.ok refreshed)])))
            ++ c)).world.store.status = refreshed.data)) ∧
    ∃ after,
      (Run.exec cmd store tr
        ((pre ++ .dispatch :: (a ++ .reply (.ok ack) :: (b ++ [.reply (.ok refreshed)])))
          ++ c ++ [.reply (.ok listed)])).world.trace =
        (Run.exec cmd store tr
          ((pre ++ .dispatch :: (a ++ .reply (.ok ack) :: (b ++ [.reply (.ok refreshed)])))
            ++ c)).world.trace ++ .setMentions items :: after ∧
      (Run.exec cmd store tr
        ((pre ++ .dispatch :: (a ++ .reply (.ok ack) :: (b ++ [.reply (.ok refreshed)])))
          ++ c ++ [.reply (.ok listed)])).world.store =
        after.foldl Store.apply
          { (Run.exec cmd store tr
              ((pre ++ .dispatch ::
                (a ++ .reply (.ok ack) :: (b ++ [.reply (.ok refreshed)]))) ++ c)
              ).world.store with mentions := items } := by
  obtain ⟨k1, hk1, hrest⟩ := check_and_scrape_protocol cmd hcmd
  obtain ⟨k2, hk2, hrest2⟩ := hrest ack
  obtain ⟨k3, hk3, hfin⟩ := hrest2 refreshed
  obtain ⟨next, hnext⟩ := hfin listed items hitems
  -- the state reached when the status response has been applied
  have hs2 : ∃ sb : Run,
      Run.exec cmd store tr
        (pre ++ .dispatch :: (a ++ .reply (.ok ack) :: (b ++ [.reply (.ok refreshed)]))) =
        { sb with
          world := (sb.world.emit (.setStatus refreshed.data)).emit
            (.request (Operation.fetchMentions .undefined).ownRequest),
          command := .inFlight k3 } := by
    have e0 := (steps_fetch_events cmd pre hpre ⟨⟨store, tr⟩, .idle, []⟩).1
    have e1 := step_dispatch_waiting cmd (Run.exec cmd store tr pre) k1 _ e0 (hk1 _)
    have e2 := (steps_fetch_events cmd a ha (Run.step cmd (Run.exec cmd store tr pre)
      .dispatch)).1
    rw [e1] at e2
    have e3 := step_reply_waiting cmd _ (.ok ack) k1 k2 _ e2 (hk2 _)
    have e4 := (steps_fetch_events cmd b hb (Run.step cmd (a.foldl (Run.step cmd)
      (Run.step cmd (Run.exec cmd store tr pre) .dispatch)) (.reply (.ok ack)))).1
    rw [e1, e3] at e4
    have e5 := step_reply_waiting cmd _ (.ok refreshed) k2 k3 _ e4 (hk3 _)
    apply Exists.intro
    rw [exec_append, List.foldl_cons, e1, List.foldl_append, List.foldl_cons, e3,
      List.foldl_append, List.foldl_cons, List.foldl_nil, e5]
  obtain ⟨sb, hsb⟩ := hs2
  obtain ⟨hcmd3, between, hb1, hb2⟩ := steps_fetch_events cmd c hc
    (Run.exec cmd store tr
      (pre ++ .dispatch :: (a ++ .reply (.ok ack) :: (b ++ [.reply (.ok refreshed)]))))
  have hlast := step_reply_world cmd
    (Run.exec cmd store tr
      ((pre ++ .dispatch :: (a ++ .reply (.ok ack) :: (b ++ [.reply (.ok refreshed)]))) ++ c))
    (.ok listed) k3 (by rw [exec_append, hcmd3, hsb])
  obtain ⟨after, ha1, ha2⟩ := advance_events next
    ((Run.exec cmd store tr
      ((pre ++ .dispatch :: (a ++ .reply (.ok ack) :: (b ++ [.reply (.ok refreshed)]))) ++ c)
      ).world.emit (.setMentions items))
  refine ⟨?_, ?_, ⟨between, ?_, ?_, ?_⟩, after, ?_, ?_⟩
  · rw [hsb]
    rfl
  · rw [hsb]
    exact ⟨sb.world.trace, by simp [World.emit]⟩
  · rw [exec_append]
    exact hb1
  · rw [exec_append]
    exact hb2
  · intro hno
    rw [exec_append, hb2, status_of_foldl_apply between hno, hsb]
    rfl
  · rw [exec_append _ _ _ _ [.reply (.ok listed)], List.foldl_cons, List.foldl_nil, hlast,
      hnext]
    simpa [Task.advance, World.emit] using ha1
  · rw [exec_append _ _ _ _ [.reply (.ok listed)], List.foldl_cons, List.foldl_nil, hlast,
      hnext]
    simpa [Task.advance, World.emit, Store.apply] using ha2

/-- C12, as stated, fails: a poll's `fetchStatus` is in flight when `manualCheck` is
dispatched; the POST and the command's status re-fetch are answered, then the poll's older
answer arrives, then the mentions re-fetch is answered. The run succeeds, and at the moment
mentions is replaced status is the poll's answer (3 mentions), not the one obtained after the
acknowledgement (5 mentions). -/
theorem status_overwritten_by_stale_poll_counterexample :
    (Run.exec .manualCheck Store.initial []
      [.fetch .fetchStatus, .dispatch,
        .reply (.ok ⟨.obj [("new_mentions", .num 2)]⟩),
        .reply (.ok ⟨.obj [("is_running", .bool true), ("total_mentions", .num 5)]⟩),
        .fetchReply 0 (.ok ⟨.obj [("is_running", .bool true), ("total_mentions", .num 3)]⟩)]
      ).world.store.status =
      .obj [("is_running", .bool true), ("total_mentions", .num 3)] ∧
    (Run.exec .manualCheck Store.initial []
      [.fetch .fetchStatus, .dispatch,
        .reply (.ok ⟨.obj [("new_mentions", .num 2)]⟩),
        .reply (.ok ⟨.obj [("is_running", .bool true), ("total_mentions", .num 5)]⟩),
        .fetchReply 0 (.ok ⟨.obj [("is_running", .bool true), ("total_mentions", .num 3)]⟩),
        .reply (.ok ⟨.obj [("mentions", .arr [.obj [("person_name", .str "Ada")]])]⟩)]
      ).world.trace =
      [.request ⟨.GET, "/api/status", none⟩, .setLoading true,
        .request ⟨.POST, "/api/monitor/check", none⟩,
        .request ⟨.GET, "/api/status", none⟩,
        .setStatus (.obj [("is_running", .bool true), ("total_mentions", .num 5)]),
        .request ⟨.GET, "/api/mentions?limit=50", none⟩,
        .setStatus (.obj [("is_running", .bool true), ("total_mentions", .num 3)]),
        .setMentions (.arr [.obj [("person_name", .str "Ada")]]),
        .toastSuccess "Manual check completed. Found 2 new mentions",
        .setLoading false] ∧
    (Run.exec .manualCheck Store.initial []
      [.fetch .fetchStatus, .dispatch,
        .reply (.ok ⟨.obj [("new_mentions", .num 2)]⟩),
        .reply (.ok ⟨.obj [("is_running", .bool true), ("total_mentions", .num 5)]⟩),
        .fetchReply 0 (.ok ⟨.obj [("is_running", .bool true), ("total_mentions", .num 3)]⟩),
        .reply (.ok ⟨.obj [("mentions", .arr [.obj [("person_name", .str "Ada")]])]⟩)]
      ).command.isInFlight = false := by
  decide

/-- C12, amended, for `runScraper` with a poll in flight that is answered between the status
re-fetch and the mentions re-fetch, and for `manualCheck` with nothing else in flight. -/
theorem status_before_mentions_interleaved_witness :
    (Run.exec .runScraper Store.initial []
      ([.fetch .fetchStatus] ++ .dispatch ::
        ([] ++ .reply (.ok ⟨.obj [("mentions", .arr [])]⟩) ::
          ([] ++ [.reply (.ok ⟨.obj [("total_mentions", .num 5)]⟩)])))
      ).world.store.status = .obj [("total_mentions", .num 5)] ∧
    (Run.exec .manualCheck Store.initial []
      ([] ++ .dispatch ::
        ([] ++ .reply (.ok ⟨.obj [("new_mentions", .num 2)]⟩) ::
          ([] ++ [.reply (.ok ⟨.obj [("total_mentions", .num 5)]⟩)])))
      ).world.store.status = .obj [("total_mentions", .num 5)] :=
  ⟨(status_before_mentions_interleaved .runScraper (Or.inr rfl) Store.initial []
      [.fetch .fetchStatus] [] [] [.fetchReply 0 (.ok ⟨.obj [("total_mentions", .num 3)]⟩)]
      (by simp [RunStep.isFetch]) (by simp) (by simp) (by simp [RunStep.isFetch])
      ⟨.obj [("mentions", .arr [])]⟩ ⟨.obj [("total_mentions", .num 5)]⟩
      ⟨.obj [("mentions", .arr [.obj [("person_name", .str "Ada")]])]⟩
      (.arr [.obj [("person_name", .str "Ada")]]) rfl).1,
    (status_before_mentions_interleaved .manualCheck (Or.inl rfl) Store.initial []
      [] [] [] [] (by simp) (by simp) (by simp) (by simp)
      ⟨.obj [("new_mentions", .num 2)]⟩ ⟨.obj [("total_mentions", .num 5)]⟩
      ⟨.obj [("mentions", .arr [.obj [("person_name", .str "Ada")]])]⟩
      (.arr [.obj [("person_name", .str "Ada")]]) rfl).1⟩

end LinkedinMonitor
